import Mathlib

/-!
# Web terminal service: the terminal window and the session handlers

A shallow embedding of `pkg/webterminal` (window.go, terminal.go, utils.go).

Conventions of the embedding.
* A Go `[]byte` and the payload of a Go `string` are lists of bytes; a byte is a
  natural number below 256.
* A Go `error` is a `GoError`; a nil error is `none`.
* What a call obtains from the outside world (the transport, the record store,
  the remote container) is an explicit argument of the embedded function.
* A call either returns, panics (a Go run-time panic, or a fatal log call that
  ends the process) or blocks.
-/

namespace WebTerminal

/-! ## Constants of utils.go -/

/-- The end-of-window marker, the string "\u0004": one byte, 0x04. -/
def endOfWindow : List Nat := [4]

/-- Namespace of the per-user records and pods. -/
def UserPodNamespace : String := "openfuyao-system"

/-- Name of the container of a user pod. -/
def UserContainerName : String := "user-container"

/-- The finalizer carried by a record whose teardown is in progress. -/
def Finalizer : String := "openfuyao.com.finalizer.webterminal"

/-- The request-path marker of the personal-workload route. -/
def KubectlApi : String := "/rest/webterminal/v1/user/"

/-! ## Go primitives -/

/-- A Go error value: its text, and whether `errors.Is(err, context.Canceled)` holds. -/
structure GoError where
  text : String
  canceled : Bool
  deriving DecidableEq, Repr

/-- The three ways a call can end. -/
inductive Outcome (α : Type) where
  | ret (a : α)
  | panics (why : String)
  | blocks
  deriving DecidableEq, Repr

/-- Sequencing of calls: a panic or a block of the first call ends the whole. -/
def Outcome.andThen {α β : Type} (o : Outcome α) (f : α → Outcome β) : Outcome β :=
  match o with
  | .ret a => f a
  | .panics s => .panics s
  | .blocks => .blocks

/-- The result of a call under a projection, a panic or a block kept as it is. -/
def Outcome.map {α β : Type} (f : α → β) : Outcome α → Outcome β
  | .ret a => .ret (f a)
  | .panics s => .panics s
  | .blocks => .blocks

/-- The built-in `copy(dst, src)`: the number of bytes copied is the smaller of
the two lengths; the rest of `dst` is left as it was. -/
def goCopy (dst src : List Nat) : List Nat × Nat :=
  let n := min dst.length src.length
  (src.take n ++ dst.drop n, n)

/-- The function `strings.Contains`, on the characters of the two strings. -/
def containsChars : List Char → List Char → Bool
  | [], sub => sub.isEmpty
  | c :: s, sub => sub.isPrefixOf (c :: s) || containsChars s sub

/-- The function `strings.Contains(s, substr)`. -/
def stringsContains (s substr : String) : Bool :=
  containsChars s.data substr.data

/-! ## The size channel -/

/-- The type `remotecommand.TerminalSize` (two uint16 fields). -/
structure TerminalSize where
  Width : Nat
  Height : Nat
  deriving DecidableEq, Repr

/-- A Go channel of terminal sizes: the buffered values, the values of the
senders parked on a full buffer (oldest first), the capacity and the closed flag. -/
structure Chan where
  buf : List TerminalSize
  sendq : List TerminalSize
  cap : Nat
  closed : Bool
  deriving DecidableEq, Repr

/-- The expression `make(chan remotecommand.TerminalSize, n)`. -/
def makeChan (n : Nat) : Chan :=
  { buf := [], sendq := [], cap := n, closed := false }

/-- The values on their way through the channel, in the order they will be received. -/
def Chan.inflight (c : Chan) : List TerminalSize :=
  c.buf ++ c.sendq

/-- The invariant of a channel: a sender is parked only on a full buffer. -/
def Chan.wf (c : Chan) : Prop :=
  c.sendq = [] ∨ c.cap ≤ c.buf.length

/-- The statement `c <- v`. On a closed channel it panics. With room in the
buffer the value is buffered. Otherwise the sender parks with its value until a
receiver takes it; the second component tells whether the sender parked. -/
def chanSend (c : Chan) (v : TerminalSize) : Outcome (Chan × Bool) :=
  if c.closed then .panics "send on closed channel"
  else if c.buf.length < c.cap then .ret ({ c with buf := c.buf ++ [v] }, false)
  else .ret ({ c with sendq := c.sendq ++ [v] }, true)

/-- The expression `<-c`. A buffered value is taken first and the oldest parked
sender moves into the buffer; with an empty buffer the value of the oldest
parked sender is taken; a closed and drained channel yields the zero value; an
open and empty one blocks. -/
def chanRecv (c : Chan) : Outcome (TerminalSize × Chan) :=
  match c.buf, c.sendq with
  | h :: t, s :: q => .ret (h, { c with buf := t ++ [s], sendq := q })
  | h :: t, [] => .ret (h, { c with buf := t })
  | [], s :: q => .ret (s, { c with sendq := q })
  | [], [] => if c.closed then .ret (⟨0, 0⟩, c) else .blocks

/-- The statement `close(c)`: it panics on a closed channel; every sender
parked on the channel is woken to panic with "send on closed channel", which
ends the process; with no sender parked the channel is closed and keeps its
buffered values. -/
def chanClose (c : Chan) : Outcome Chan :=
  if c.closed then .panics "close of closed channel"
  else if c.sendq ≠ [] then .panics "send on closed channel"
  else .ret { c with closed := true }

/-! ## The window -/

/-- The struct `Message`: the JSON envelope of the transport. -/
structure Message where
  Op : String
  Data : List Nat
  Rows : Nat
  Cols : Nat
  deriving DecidableEq, Repr

/-- The two values the code reads from its context: `ctx.Value("path")` and
`ctx.Value("username")`, each present only when it is a string. -/
structure Ctx where
  path : Option String
  username : Option String
  deriving DecidableEq, Repr

/-- The websocket connection as the window uses it: the text frames sent so
far and whether `Close` was called on it. -/
structure Conn where
  sent : List (List Nat)
  closed : Bool
  deriving DecidableEq, Repr

/-- A request the window's terminaler sends to the record store. -/
inductive StoreCall where
  | get (ns name : String)
  | update (ns name : String)
  deriving DecidableEq, Repr

/-- The struct `Window`, with the store requests issued through its terminaler. -/
structure Window where
  conn : Option Conn
  sizeChan : Chan
  ctx : Ctx
  storeCalls : List StoreCall
  deriving DecidableEq, Repr

/-- What the outside world answers during one call on the window. -/
structure Env where
  getErr : Option GoError
  updateErr : Option GoError
  setDeadlineErr : Option GoError
  writeErr : Option GoError
  closeErr : Option GoError
  deriving DecidableEq, Repr

/-- The method `Window.Renewtime`: the pod name is built from the username of
the context (an unchecked type assertion), the record is read and then updated;
both errors are only logged. The update carries the object the read filled in:
after a failed read that is the zero object, whose namespace and name are
empty. -/
def Window.Renewtime (w : Window) (env : Env) : Outcome Window :=
  match w.ctx.username with
  | none => .panics "interface conversion: interface {} is nil, not string"
  | some u =>
    let podName := "openfuyao-" ++ u
    let update := if env.getErr.isNone then StoreCall.update UserPodNamespace podName
                  else StoreCall.update "" ""
    .ret { w with storeCalls := w.storeCalls ++
      [StoreCall.get UserPodNamespace podName, update] }

/-- The guarded renewal of `Read` and `Write`:
`if strings.Contains(w.ctx.Value("path").(string), KubectlApi) { w.Renewtime() }`. -/
def Window.renewIfTracked (w : Window) (env : Env) : Outcome Window :=
  match w.ctx.path with
  | none => .panics "interface conversion: interface {} is nil, not string"
  | some p => if stringsContains p KubectlApi then w.Renewtime env else .ret w

/-- What `Read` hands back: the window, the caller's buffer, the count, the
error, and whether the call had to park on the size channel before returning. -/
structure ReadResult where
  w : Window
  buffer : List Nat
  n : Nat
  err : Option GoError
  parked : Bool
  deriving DecidableEq, Repr

/-- The method `Window.Read`; `rj` is what `conn.ReadJSON(&msg)` produced. -/
def Window.Read (w : Window) (rj : Except GoError Message) (buffer : List Nat)
    (env : Env) : Outcome ReadResult :=
  match rj with
  | .error err =>
    let c := goCopy buffer endOfWindow
    .ret { w := w, buffer := c.1, n := c.2, err := some err, parked := false }
  | .ok msg =>
    if msg.Op = "stdin" then
      (w.renewIfTracked env).andThen fun w1 =>
        let c := goCopy buffer msg.Data
        .ret { w := w1, buffer := c.1, n := c.2, err := none, parked := false }
    else if msg.Op = "resize" then
      (chanSend w.sizeChan { Width := msg.Cols, Height := msg.Rows }).andThen fun r =>
        .ret { w := { w with sizeChan := r.1 }, buffer := buffer, n := 0, err := none,
               parked := r.2 }
    else
      let c := goCopy buffer endOfWindow
      .ret { w := w, buffer := c.1, n := c.2,
             err := some ⟨"unknown message type '" ++ msg.Op ++ "'", false⟩, parked := false }

/-- The method `Window.Next`: the received size, or nil when both its fields are zero. -/
def Window.Next (w : Window) : Outcome (Option TerminalSize × Window) :=
  (chanRecv w.sizeChan).andThen fun r =>
    let size := r.1
    let w1 := { w with sizeChan := r.2 }
    if size.Height = 0 ∧ size.Width = 0 then .ret (none, w1) else .ret (some size, w1)

/-- The method `Window.Close`: the size channel is closed, then the
connection; a failure of the latter is only logged. With a nil connection the
call to `conn.Close` dereferences nil. -/
def Window.Close (w : Window) (_reason : String) (_env : Env) : Outcome Window :=
  (chanClose w.sizeChan).andThen fun c =>
    match w.conn with
    | none => .panics "invalid memory address or nil pointer dereference"
    | some k => .ret { w with sizeChan := c, conn := some { k with closed := true } }

/-! ## The JSON envelope, as `encoding/json` writes it -/

/-- UTF-8 encoding of one code point (`utf8.AppendRune`). -/
def utf8EncodeRune (c : Nat) : List Nat :=
  if c < 0x80 then [c]
  else if c < 0x800 then [0xC0 + c / 64, 0x80 + c % 64]
  else if c < 0x10000 then [0xE0 + c / 4096, 0x80 + c / 64 % 64, 0x80 + c % 64]
  else [0xF0 + c / 262144, 0x80 + c / 4096 % 64, 0x80 + c / 64 % 64, 0x80 + c % 64]

/-- The bytes of a string. -/
def utf8 (s : String) : List Nat :=
  (s.data.map fun c => utf8EncodeRune c.toNat).flatten

/-- The function `utf8.DecodeRune` on the front of a byte sequence: the code
point and its width; an invalid or truncated sequence gives (U+FFFD, 1). -/
def decodeRune : List Nat → Nat × Nat
  | [] => (0xFFFD, 0)
  | b0 :: rest =>
    if b0 < 0x80 then (b0, 1)
    else if b0 < 0xC2 then (0xFFFD, 1)
    else if b0 < 0xE0 then
      match rest with
      | b1 :: _ =>
        if 0x80 ≤ b1 ∧ b1 ≤ 0xBF then (b0 % 32 * 64 + b1 % 64, 2) else (0xFFFD, 1)
      | [] => (0xFFFD, 1)
    else if b0 < 0xF0 then
      match rest with
      | b1 :: b2 :: _ =>
        if (if b0 = 0xE0 then 0xA0 else 0x80) ≤ b1 ∧ b1 ≤ (if b0 = 0xED then 0x9F else 0xBF)
            ∧ 0x80 ≤ b2 ∧ b2 ≤ 0xBF then
          (b0 % 16 * 4096 + b1 % 64 * 64 + b2 % 64, 3)
        else (0xFFFD, 1)
      | _ => (0xFFFD, 1)
    else if b0 < 0xF5 then
      match rest with
      | b1 :: b2 :: b3 :: _ =>
        if (if b0 = 0xF0 then 0x90 else 0x80) ≤ b1 ∧ b1 ≤ (if b0 = 0xF4 then 0x8F else 0xBF)
            ∧ 0x80 ≤ b2 ∧ b2 ≤ 0xBF ∧ 0x80 ≤ b3 ∧ b3 ≤ 0xBF then
          (b0 % 8 * 262144 + b1 % 64 * 4096 + b2 % 64 * 64 + b3 % 64, 4)
        else (0xFFFD, 1)
      | _ => (0xFFFD, 1)
    else (0xFFFD, 1)

/-- A lower-case hexadecimal digit. -/
def hexDigit (n : Nat) : Nat :=
  if n < 10 then 48 + n else 87 + n

/-- How the encoder writes one byte below 0x80 inside a string (HTML escaping
on, as `json.Marshal` has it): the quote and the backslash get a backslash, the
control characters their short or \u00xx escape, and the characters
`<`, `>`, `&` the \u00xx escape. (Older releases of the library write 0x08 and
0x0C as \u0008 and \u000c; both spellings decode to the same byte.) -/
def escapeByte (b : Nat) : List Nat :=
  if b = 0x5C ∨ b = 0x22 then [0x5C, b]
  else if b = 0x08 then [0x5C, 0x62]
  else if b = 0x0C then [0x5C, 0x66]
  else if b = 0x0A then [0x5C, 0x6E]
  else if b = 0x0D then [0x5C, 0x72]
  else if b = 0x09 then [0x5C, 0x74]
  else if b < 0x20 ∨ b = 0x3C ∨ b = 0x3E ∨ b = 0x26 then
    [0x5C, 0x75, 0x30, 0x30, hexDigit (b / 16), hexDigit (b % 16)]
  else [b]

/-- The body of a JSON string as the encoder writes it: bytes below 0x80
through `escapeByte`, an invalid byte as �, U+2028 and U+2029 escaped,
every other code point verbatim. The first argument bounds the number of steps. -/
def appendStringAux : Nat → List Nat → List Nat
  | 0, _ => []
  | _ + 1, [] => []
  | fuel + 1, b :: rest =>
    if b < 0x80 then escapeByte b ++ appendStringAux fuel rest
    else
      let r := decodeRune (b :: rest)
      if r.1 = 0xFFFD ∧ r.2 = 1 then
        [0x5C, 0x75, 0x66, 0x66, 0x66, 0x64] ++ appendStringAux fuel rest
      else if r.1 = 0x2028 ∨ r.1 = 0x2029 then
        [0x5C, 0x75, 0x32, 0x30, 0x32, hexDigit (r.1 % 16)]
          ++ appendStringAux fuel (rest.drop (r.2 - 1))
      else (b :: rest).take r.2 ++ appendStringAux fuel (rest.drop (r.2 - 1))

/-- A quoted JSON string. -/
def appendString (src : List Nat) : List Nat :=
  [0x22] ++ appendStringAux src.length src ++ [0x22]

/-- The decimal digits of an unsigned integer. -/
def decimal (n : Nat) : List Nat :=
  (Nat.toDigits 10 n).map Char.toNat

/-- The function `json.Marshal` on a `Message`: an object with the four fields
in declaration order, each name a quoted string, the strings through
`appendString`, the integers in decimal, no white space. It has no failing case
for this struct. -/
def jsonMarshal (m : Message) : List Nat :=
  [0x7B] ++ appendString (utf8 "Op") ++ [0x3A] ++ appendString (utf8 m.Op)
    ++ [0x2C] ++ appendString (utf8 "Data") ++ [0x3A] ++ appendString m.Data
    ++ [0x2C] ++ appendString (utf8 "Rows") ++ [0x3A] ++ decimal m.Rows
    ++ [0x2C] ++ appendString (utf8 "Cols") ++ [0x3A] ++ decimal m.Cols ++ [0x7D]

/-! ## The JSON envelope, as `encoding/json` reads it -/

/-- The value of a hexadecimal digit. -/
def hexVal (c : Nat) : Option Nat :=
  if 0x30 ≤ c ∧ c ≤ 0x39 then some (c - 0x30)
  else if 0x61 ≤ c ∧ c ≤ 0x66 then some (c - 0x61 + 10)
  else if 0x41 ≤ c ∧ c ≤ 0x46 then some (c - 0x41 + 10)
  else none

/-- The code unit written by four hexadecimal digits (`getu4` without the `\u`). -/
def getu4 (h1 h2 h3 h4 : Nat) : Option Nat :=
  match hexVal h1, hexVal h2, hexVal h3, hexVal h4 with
  | some a, some b, some c, some d => some (((a * 16 + b) * 16 + c) * 16 + d)
  | _, _, _, _ => none

/-- The code unit of a `\uXXXX` escape at the front of the input, if there is one. -/
def escapedUnit : List Nat → Option Nat
  | b :: u :: h1 :: h2 :: h3 :: h4 :: _ =>
    if b = 0x5C ∧ u = 0x75 then getu4 h1 h2 h3 h4 else none
  | _ => none

/-- Puts decoded bytes in front of the rest of a decoded string. -/
def prepend (out : List Nat) (r : Option (List Nat × List Nat)) : Option (List Nat × List Nat) :=
  r.map fun p => (out ++ p.1, p.2)

/-- The function `unquote` of the decoder, from behind the opening quote: the
decoded bytes and the input behind the closing quote. The first argument is
the number of input bytes still to skip (the rest of a sequence or of an escape
already decoded). Escapes are resolved, a pair of surrogate escapes gives one
code point, a lone surrogate and every invalid byte give U+FFFD, a raw control
character is an error. -/
def unquoteAux : Nat → List Nat → Option (List Nat × List Nat)
  | _, [] => none
  | k + 1, _ :: rest => unquoteAux k rest
  | 0, b :: rest =>
    if b = 0x22 then some ([], rest)
    else if b = 0x5C then
      match rest with
      | [] => none
      | c :: rest2 =>
        if c = 0x22 ∨ c = 0x5C ∨ c = 0x2F then prepend [c] (unquoteAux 0 rest2)
        else if c = 0x62 then prepend [0x08] (unquoteAux 0 rest2)
        else if c = 0x66 then prepend [0x0C] (unquoteAux 0 rest2)
        else if c = 0x6E then prepend [0x0A] (unquoteAux 0 rest2)
        else if c = 0x72 then prepend [0x0D] (unquoteAux 0 rest2)
        else if c = 0x74 then prepend [0x09] (unquoteAux 0 rest2)
        else if c = 0x75 then
          match rest2 with
          | h1 :: h2 :: h3 :: h4 :: rest6 =>
            match getu4 h1 h2 h3 h4 with
            | none => none
            | some r =>
              if 0xD800 ≤ r ∧ r < 0xE000 then
                match escapedUnit rest6 with
                | some r1 =>
                  if r < 0xDC00 ∧ 0xDC00 ≤ r1 ∧ r1 < 0xE000 then
                    prepend (utf8EncodeRune (0x10000 + (r - 0xD800) * 1024 + (r1 - 0xDC00)))
                      (unquoteAux 6 rest6)
                  else prepend (utf8EncodeRune 0xFFFD) (unquoteAux 0 rest6)
                | none => prepend (utf8EncodeRune 0xFFFD) (unquoteAux 0 rest6)
              else prepend (utf8EncodeRune r) (unquoteAux 0 rest6)
          | _ => none
        else none
    else if b < 0x20 then none
    else if b < 0x80 then prepend [b] (unquoteAux 0 rest)
    else
      prepend (utf8EncodeRune (decodeRune (b :: rest)).1)
        (unquoteAux ((decodeRune (b :: rest)).2 - 1) rest)

/-- The digits at the front of the input, read as a decimal number, and the rest. -/
def parseDigits : List Nat → Nat → Nat × List Nat
  | [], acc => (acc, [])
  | d :: rest, acc =>
    if 0x30 ≤ d ∧ d ≤ 0x39 then parseDigits rest (acc * 10 + (d - 0x30)) else (acc, d :: rest)

/-- An unsigned JSON integer at the front of the input: at least one digit, no
leading zero before another digit. -/
def parseNumber : List Nat → Option (Nat × List Nat)
  | [] => none
  | d :: rest =>
    if 0x30 ≤ d ∧ d ≤ 0x39 then
      match rest with
      | e :: _ =>
        if d = 0x30 ∧ 0x30 ≤ e ∧ e ≤ 0x39 then none else some (parseDigits (d :: rest) 0)
      | [] => some (parseDigits (d :: rest) 0)
    else none

/-- The code points of a UTF-8 byte sequence; the first argument bounds the steps. -/
def runesAux : Nat → List Nat → List Nat
  | 0, _ => []
  | _ + 1, [] => []
  | fuel + 1, b :: rest =>
    (decodeRune (b :: rest)).1 :: runesAux fuel (rest.drop ((decodeRune (b :: rest)).2 - 1))

/-- The string a byte sequence spells. -/
def bytesToString (bs : List Nat) : String :=
  String.mk ((runesAux bs.length bs).map Char.ofNat)

/-- A member value of the envelope: a string or an unsigned integer. -/
inductive JValue where
  | str (bs : List Nat)
  | num (n : Nat)
  deriving DecidableEq, Repr

/-- A value at the front of the input. -/
def parseValue : List Nat → Option (JValue × List Nat)
  | [] => none
  | b :: rest =>
    if b = 0x22 then (unquoteAux 0 rest).map fun p => (JValue.str p.1, p.2)
    else (parseNumber (b :: rest)).map fun p => (JValue.num p.1, p.2)

/-- Stores a member into the field of that name: a string into `Op` or `Data`,
an integer that fits a uint16 into `Rows` or `Cols`; a value of the wrong kind
is an error, a member of another name is skipped. Names are compared exactly
(the library also takes a name that differs in case only; the encoder writes none). -/
def setField (m : Message) (key : List Nat) (v : JValue) : Option Message :=
  if key = utf8 "Op" then
    match v with
    | .str bs => some { m with Op := bytesToString bs }
    | .num _ => none
  else if key = utf8 "Data" then
    match v with
    | .str bs => some { m with Data := bs }
    | .num _ => none
  else if key = utf8 "Rows" then
    match v with
    | .num n => if n < 65536 then some { m with Rows := n } else none
    | .str _ => none
  else if key = utf8 "Cols" then
    match v with
    | .num n => if n < 65536 then some { m with Cols := n } else none
    | .str _ => none
  else some m

/-- The members of an object, from behind the opening brace to the end of the
input; the first argument bounds the number of members. -/
def parseMembers : Nat → Message → List Nat → Option Message
  | 0, _, _ => none
  | _ + 1, _, [] => none
  | fuel + 1, m, b :: rest =>
    if b = 0x22 then
      match unquoteAux 0 rest with
      | some (key, c :: rest1) =>
        if c = 0x3A then
          match parseValue rest1 with
          | some (v, d :: rest2) =>
            match setField m key v with
            | some m1 =>
              if d = 0x7D ∧ rest2 = [] then some m1
              else if d = 0x2C then parseMembers fuel m1 rest2
              else none
            | none => none
          | _ => none
        else none
      | _ => none
    else none

/-- The function `json.Unmarshal` into a zero `Message`, on a document without
white space. -/
def jsonUnmarshal (s : List Nat) : Option Message :=
  match s with
  | [] => none
  | b :: rest =>
    if b = 0x7B then
      if rest = [0x7D] then some { Op := "", Data := [], Rows := 0, Cols := 0 }
      else parseMembers s.length { Op := "", Data := [], Rows := 0, Cols := 0 } rest
    else none

/-- The bytes the decoder makes of a byte sequence that went through
`appendString`: a valid sequence stays, every other byte becomes U+FFFD. -/
def coerceAux : Nat → List Nat → List Nat
  | 0, _ => []
  | _ + 1, [] => []
  | fuel + 1, b :: rest =>
    if decodeRune (b :: rest) = (0xFFFD, 1) then [0xEF, 0xBF, 0xBD] ++ coerceAux fuel rest
    else (b :: rest).take (decodeRune (b :: rest)).2
      ++ coerceAux fuel (rest.drop ((decodeRune (b :: rest)).2 - 1))

/-- Coercion to valid UTF-8, byte by byte. -/
def coerceUTF8 (bs : List Nat) : List Nat :=
  coerceAux bs.length bs

/-- The function `utf8.Valid`: no position decodes to (U+FFFD, 1). -/
def validAux : Nat → List Nat → Bool
  | 0, _ => true
  | _ + 1, [] => true
  | fuel + 1, b :: rest =>
    decide (decodeRune (b :: rest) ≠ (0xFFFD, 1))
      && validAux fuel (rest.drop ((decodeRune (b :: rest)).2 - 1))

/-- The function `utf8.Valid`. -/
def validUTF8 (bs : List Nat) : Bool :=
  validAux bs.length bs

/-- The method `Conn.SetWriteDeadline`: it stores the deadline in its receiver,
so a nil receiver is a nil dereference; its error is what the transport reports. -/
def SetWriteDeadline (conn : Option Conn) (env : Env) : Outcome (Option GoError) :=
  match conn with
  | none => .panics "invalid memory address or nil pointer dereference"
  | some _ => .ret env.setDeadlineErr

/-- The method `Conn.WriteMessage(websocket.TextMessage, msg)`: on success the
frame is on the wire, on failure nothing is recorded as sent. -/
def WriteMessage (conn : Option Conn) (msg : List Nat) (writeErr : Option GoError) :
    Outcome (Option Conn × Option GoError) :=
  match conn with
  | none => .panics "invalid memory address or nil pointer dereference"
  | some k =>
    match writeErr with
    | some e => .ret (some k, some e)
    | none => .ret (some { k with sent := k.sent ++ [msg] }, none)

/-- What `Write` hands back: the window, the count and the error. -/
structure WriteResult where
  w : Window
  n : Nat
  err : Option GoError
  deriving DecidableEq, Repr

/-- The method `Window.Write`. The marshal step cannot fail for a `Message`, so
its error branch is not taken. -/
def Window.Write (w : Window) (buffer : List Nat) (env : Env) : Outcome WriteResult :=
  let message : Message := { Op := "stdout", Data := buffer, Rows := 200, Cols := 200 }
  (w.renewIfTracked env).andThen fun w1 =>
    let msg := jsonMarshal message
    (SetWriteDeadline w1.conn env).andThen fun setErr =>
      match setErr with
      | some e => .ret { w := w1, n := 0, err := some e }
      | none =>
        if w1.conn = none then .ret { w := w1, n := 0, err := none }
        else
          (WriteMessage w1.conn msg env.writeErr).andThen fun r =>
            match r.2 with
            | some e => .ret { w := { w1 with conn := r.1 }, n := 0, err := some e }
            | none => .ret { w := { w1 with conn := r.1 }, n := buffer.length, err := none }

/-! ## The shell probe and `HandleTerminal` -/

/-- What the remote container answers to one `which <shell>`: whether the
executor could be created, whether the stream ran, and the captured output. -/
structure ProbeReply where
  execErr : Option GoError
  streamErr : Option GoError
  output : List Nat
  deriving DecidableEq, Repr

/-- The method `terminaler.shellExists`, on the reply of the container. -/
def shellExists (reply : ProbeReply) : Bool :=
  match reply.execErr with
  | some _ => false
  | none =>
    match reply.streamErr with
    | some _ => false
    | none => decide (reply.output.length > 0)

/-- The loop of `getShell` over a list of candidates: the chosen shell ("" when
none answers) and the candidates that were checked, in order. -/
def getShellFrom (probe : String → ProbeReply) : List String → String × List String
  | [] => ("", [])
  | shell :: rest =>
    if shellExists (probe shell) then (shell, [shell])
    else ((getShellFrom probe rest).1, shell :: (getShellFrom probe rest).2)

/-- The method `terminaler.getShell`. -/
def getShell (probe : String → ProbeReply) : String × List String :=
  getShellFrom probe ["bash", "sh"]

/-- A call the remote-command executor makes on the `Persuo` it was given:
the interface has the three methods `Read`, `Write` and `Next` and no other. -/
inductive PersuoCall where
  | read (rj : Except GoError Message) (buffer : List Nat) (env : Env)
  | write (buffer : List Nat) (env : Env)
  | next

/-- One call of the executor on the window. -/
def Window.call (w : Window) : PersuoCall → Outcome Window
  | .read rj buffer env => (w.Read rj buffer env).andThen fun r => .ret r.w
  | .write buffer env => (w.Write buffer env).andThen fun r => .ret r.w
  | .next => w.Next.andThen fun r => .ret r.2

/-- The calls of a stream, in the order they happen: a call that blocks leaves
the window to the others, a panic ends the process. -/
def Window.runCalls (w : Window) : List PersuoCall → Outcome Window
  | [] => .ret w
  | c :: cs =>
    match w.call c with
    | .ret w1 => w1.runCalls cs
    | .blocks => w.runCalls cs
    | .panics s => .panics s

/-- What the outside world does during one `HandleTerminal`. -/
structure TermEnv where
  probe : String → ProbeReply
  noShellWriteErr : Option GoError
  execErr : Option GoError
  calls : List PersuoCall
  streamErr : Option GoError
  closeEnv : Env

/-- The calls `HandleTerminal` makes, as they are observed from outside. -/
inductive Event where
  | shellCheck (shell : String)
  | writeMessage (text : List Nat)
  | startProcess (cmd : List String)
  | close (reason : String)
  deriving DecidableEq, Repr

/-- The method `terminaler.startProcess`: without an executor the error is
returned at once; otherwise the stream runs over the window and its error is
returned. -/
def startProcess (w : Window) (env : TermEnv) : Outcome (Window × Option GoError) :=
  match env.execErr with
  | some e => .ret (w, some e)
  | none => (w.runCalls env.calls).andThen fun w1 => .ret (w1, env.streamErr)

/-- The text of the frame sent when no shell is found. -/
def noShellText : List Nat :=
  utf8 "404 LogError:  No valid shell found in the container"

/-- The window `HandleTerminal` builds:
`&Window{conn: conn, sizeChan: make(chan remotecommand.TerminalSize), ctx: ctx, terminaler: t}`. -/
def newWindow (ctx : Ctx) (conn : Option Conn) : Window :=
  { conn := conn, sizeChan := makeChan 0, ctx := ctx, storeCalls := [] }

/-- The method `terminaler.HandleTerminal`: the calls it makes and the window it leaves. -/
def HandleTerminal (ctx : Ctx) (conn : Option Conn) (env : TermEnv) :
    Outcome (List Event × Window) :=
  let terminalWindow : Window := newWindow ctx conn
  let supportedShell := (getShell env.probe).1
  let checks := (getShell env.probe).2.map Event.shellCheck
  if supportedShell = "" then
    (WriteMessage conn noShellText env.noShellWriteErr).andThen fun r =>
      ({ terminalWindow with conn := r.1 }.Close "No valid shell found" env.closeEnv).andThen
        fun w1 => .ret (checks ++ [Event.writeMessage noShellText, Event.close "No valid shell found"], w1)
  else
    (startProcess terminalWindow env).andThen fun r =>
      match r.2 with
      | some err =>
        if ¬ err.canceled then
          (r.1.Close err.text env.closeEnv).andThen fun w1 =>
            .ret (checks ++ [Event.startProcess [supportedShell], Event.close err.text], w1)
        else
          (r.1.Close "Process finished" env.closeEnv).andThen fun w1 =>
            .ret (checks ++ [Event.startProcess [supportedShell], Event.close "Process finished"], w1)
      | none =>
        (r.1.Close "Process finished" env.closeEnv).andThen fun w1 =>
          .ret (checks ++ [Event.startProcess [supportedShell], Event.close "Process finished"], w1)

/-- The close events of a trace. -/
def closeReasons : List Event → List String
  | [] => []
  | .close reason :: es => reason :: closeReasons es
  | _ :: es => closeReasons es

/-- The commands of the processes started in a trace. -/
def startedCommands : List Event → List (List String)
  | [] => []
  | .startProcess cmd :: es => cmd :: startedCommands es
  | _ :: es => startedCommands es

/-! ## The session record and `HandleCusterTerminal` -/

/-- An error of the record store, with what `apierr.IsNotFound` and
`apierr.IsAlreadyExists` say of it. -/
structure StoreError where
  err : GoError
  notFound : Bool
  alreadyExists : Bool
  deriving DecidableEq, Repr

/-- What the handler looks at in a `WebterminalTemplate`: whether its deletion
timestamp is zero, and its finalizers. -/
structure Record where
  deletionTimestampIsZero : Bool
  finalizers : List String
  deriving DecidableEq, Repr

/-- One entry of `pod.Status.Conditions`. -/
structure PodCondition where
  type : String
  status : String
  deriving DecidableEq, Repr

/-- What the handler looks at in a pod: its phase and its conditions. -/
structure Pod where
  phase : String
  conditions : List PodCondition
  deriving DecidableEq, Repr

/-- The function `isPodReady`: some condition has type `Ready` and status `True`. -/
def isPodReady (pod : Pod) : Bool :=
  pod.conditions.any fun c => decide (c.type = "Ready" ∧ c.status = "True")

/-- What one evaluation of the polling condition of `CreateUserPod` meets:
the answer to the read of the pod and, should a create be issued, its error. -/
structure PodTick where
  get : Except StoreError Pod
  createErr : Option StoreError
  deriving Repr

/-- What the outside world does during one `HandleCusterTerminal`: the answer
to the first read of the record; the answers to the reads of the guard wait,
one per tick, as many as fit into its minute; the error of reading the image
path; the ticks of the pod wait, as many as fit into its minute. -/
structure ClusterEnv where
  record : Except StoreError Record
  guardTicks : List (Except StoreError Record)
  imageErr : Option GoError
  podTicks : List PodTick

/-- The requests and calls of `HandleCusterTerminal`, as they are observed from outside. -/
inductive SessionEvent where
  | getRecord (ns name : String)
  | getPod (ns name : String)
  | createRecord (ns name : String)
  | startSession (ns pod container : String)
  deriving DecidableEq, Repr

/-- The error `wait.PollUntilContextTimeout` returns when its time is up. -/
def deadlineExceeded : GoError :=
  { text := "context deadline exceeded", canceled := false }

/-- The polling of `CreateUserPod`: the condition is evaluated once per tick
until it reports done or an error, or the ticks run out. The requests issued
and the error of the poll. -/
def createPoll (user : String) : List PodTick → List SessionEvent × Option GoError
  | [] => ([], some deadlineExceeded)
  | t :: ts =>
    match t.get with
    | .error e =>
      if e.notFound then
        match t.createErr with
        | some c =>
          if ¬ c.alreadyExists then
            ([.getPod "openfuyao-system" user, .createRecord UserPodNamespace user], some c.err)
          else
            ((.getPod "openfuyao-system" user) :: (.createRecord UserPodNamespace user)
              :: (createPoll user ts).1, (createPoll user ts).2)
        | none =>
          ((.getPod "openfuyao-system" user) :: (.createRecord UserPodNamespace user)
            :: (createPoll user ts).1, (createPoll user ts).2)
      else ((.getPod "openfuyao-system" user) :: (createPoll user ts).1, (createPoll user ts).2)
    | .ok pod =>
      if pod.phase ≠ "Running" ∨ ¬ isPodReady pod then
        ((.getPod "openfuyao-system" user) :: (createPoll user ts).1, (createPoll user ts).2)
      else ([.getPod "openfuyao-system" user], none)

/-- The method `terminaler.CreateUserPod`: `template` ends the process when the
image path cannot be read; the error of the poll is only logged, and nothing is
returned to the caller. -/
def CreateUserPod (user : String) (env : ClusterEnv) : Outcome (List SessionEvent) :=
  match env.imageErr with
  | some _ => .panics "zlog.LogFatalf: Failed to read image path"
  | none => .ret (createPoll user env.podTicks).1

/-- The function `controllerutil.ContainsFinalizer`. -/
def ContainsFinalizer (r : Record) (finalizer : String) : Bool :=
  r.finalizers.any fun f => decide (f = finalizer)

/-- The guard wait of `HandleCusterTerminal`: the record is read once per tick;
a failed read ends the poll with its error, a record without the finalizer ends
it without error, and when the ticks run out the poll ends with the deadline
error. The requests issued and the error of the poll. -/
def guardPoll (user : String) : List (Except StoreError Record) →
    List SessionEvent × Option GoError
  | [] => ([], some deadlineExceeded)
  | t :: ts =>
    match t with
    | .error e => ([.getRecord UserPodNamespace user], some e.err)
    | .ok r =>
      if ¬ ContainsFinalizer r Finalizer then ([.getRecord UserPodNamespace user], none)
      else ((.getRecord UserPodNamespace user) :: (guardPoll user ts).1, (guardPoll user ts).2)

/-- The method `terminaler.HandleCusterTerminal`: the requests and calls it makes. -/
def HandleCusterTerminal (username : String) (env : ClusterEnv) :
    Outcome (List SessionEvent) :=
  let user := "openfuyao" ++ "-" ++ username
  let start := SessionEvent.startSession UserPodNamespace user UserContainerName
  match env.record with
  | .error _ =>
    (CreateUserPod user env).andThen fun es =>
      .ret (.getRecord UserPodNamespace user :: es ++ [start])
  | .ok r =>
    if r.deletionTimestampIsZero then
      .ret [.getRecord UserPodNamespace user, start]
    else
      let guard := if ContainsFinalizer r Finalizer then guardPoll user env.guardTicks
                   else ([], none)
      match guard.2 with
      | some _ => .ret (.getRecord UserPodNamespace user :: guard.1)
      | none =>
        (CreateUserPod user env).andThen fun es =>
          .ret (.getRecord UserPodNamespace user :: guard.1 ++ es ++ [start])

/-- The records whose creation a trace requests. -/
def createdRecords : List SessionEvent → List String
  | [] => []
  | .createRecord _ name :: es => name :: createdRecords es
  | _ :: es => createdRecords es

/-- The sessions a trace starts. -/
def startedSessions : List SessionEvent → List String
  | [] => []
  | .startSession _ pod _ :: es => pod :: startedSessions es
  | _ :: es => startedSessions es

/-- The answers of the store to the create requests that the polling of
`CreateUserPod` issues, in the order of the requests; `none` is a create that
succeeded. -/
def createReplies : List PodTick → List (Option StoreError)
  | [] => []
  | t :: ts =>
    match t.get with
    | .error e =>
      if e.notFound then
        match t.createErr with
        | some c => if ¬ c.alreadyExists then [some c] else some c :: createReplies ts
        | none => none :: createReplies ts
      else createReplies ts
    | .ok pod =>
      if pod.phase ≠ "Running" ∨ ¬ isPodReady pod then createReplies ts else []

/-- The two store requests of one renewal for the user `u`: the read of the
record and the update, which after a failed read carries the zero object, with
an empty namespace and an empty name. -/
def renewalCalls (u : String) (env : Env) : List StoreCall :=
  [StoreCall.get UserPodNamespace ("openfuyao-" ++ u),
   if env.getErr.isNone then StoreCall.update UserPodNamespace ("openfuyao-" ++ u)
   else StoreCall.update "" ""]

/-- The number of update requests among store requests. -/
def updateCalls : List StoreCall → Nat
  | [] => 0
  | .update _ _ :: cs => updateCalls cs + 1
  | .get _ _ :: cs => updateCalls cs

/-- The number of read requests among store requests. -/
def getCalls : List StoreCall → Nat
  | [] => 0
  | .get _ _ :: cs => getCalls cs + 1
  | .update _ _ :: cs => getCalls cs

/-! ## The workload template -/

/-- The path of the file that names the image. -/
def ImagePath : String := "/mnt/data/imagePath.txt"

/-- The type `v1.VolumeMount`, as far as the template sets it. -/
structure VolumeMount where
  Name : String
  MountPath : String
  deriving DecidableEq, Repr

/-- The type `v1.EnvVar`, as far as the template sets it. -/
structure EnvVar where
  Name : String
  Value : String
  deriving DecidableEq, Repr

/-- The type `v1.SecurityContext`, as far as the template sets it; a nil pointer is `none`. -/
structure SecurityContext where
  RunAsUser : Option Int
  RunAsGroup : Option Int
  deriving DecidableEq, Repr

/-- The type `v1.Container`, as far as the template sets it. -/
structure Container where
  Name : String
  Image : String
  ImagePullPolicy : String
  Command : List String
  Args : List String
  Env : List EnvVar
  VolumeMounts : List VolumeMount
  SecurityContext : Option SecurityContext
  deriving DecidableEq, Repr

/-- The type `v1.VolumeSource`, as far as the template sets it. -/
inductive VolumeSource where
  | emptyDir
  | hostPath (Path : String)
  deriving DecidableEq, Repr

/-- The type `v1.Volume`. -/
structure Volume where
  Name : String
  VolumeSource : VolumeSource
  deriving DecidableEq, Repr

/-- The type `v1beta1.PodTemplateObjectMeta` (the labels are left nil). -/
structure PodTemplateObjectMeta where
  Name : String
  Namespace : String
  deriving DecidableEq, Repr

/-- The type `v1beta1.PodTemplateSpec`. -/
structure PodTemplateSpec where
  InitContainers : List Container
  Containers : List Container
  Volumes : List Volume
  RestartPolicy : String
  deriving DecidableEq, Repr

/-- The type `v1beta1.PodTemplate`. -/
structure PodTemplate where
  ObjectMeta : PodTemplateObjectMeta
  Spec : PodTemplateSpec
  deriving DecidableEq, Repr

/-- The type `v1beta1.WebterminalTemplate`, as far as `template` sets it: the
name and namespace of its metadata and the pod template of its spec. -/
structure WebterminalTemplate where
  Name : String
  Namespace : String
  PodTemplate : PodTemplate
  deriving DecidableEq, Repr

/-- The function `getInitContainerVolumeMounts`. -/
def getInitContainerVolumeMounts : List VolumeMount :=
  [{ Name := "kubeconfig", MountPath := "/mnt/.kube" },
   { Name := "config-source", MountPath := "/etc/kubernetes" }]

/-- The shell script of the init container, the three lines of the source. -/
def initScript : String :=
  "mkdir -p /mnt/.kube && cp /etc/kubernetes/config /mnt/.kube/config && \n"
    ++ "\t\t\t\tchmod 644 /mnt/.kube/config && export KUBECONFIG=/mnt/.kube/config && \n"
    ++ "\t\t\t\tkubectl config set-context --current --namespace=default"

/-- The function `createInitContainers`; `new(int64)` points to 0. -/
def createInitContainers (imagePath : String) : List Container :=
  [{ Name := "init-kubeconfig", Image := imagePath, ImagePullPolicy := "",
     Command := ["sh", "-c"], Args := [initScript], Env := [],
     VolumeMounts := getInitContainerVolumeMounts,
     SecurityContext := some { RunAsUser := some 0, RunAsGroup := none } }]

/-- The function `getMainContainerVolumeMounts`. -/
def getMainContainerVolumeMounts : List VolumeMount :=
  [{ Name := "kubeconfig", MountPath := "/mnt/.kube" }]

/-- The function `createMainContainers`. -/
def createMainContainers (imagePath : String) (podUser : Int) : List Container :=
  [{ Name := UserContainerName, Image := imagePath, ImagePullPolicy := "IfNotPresent",
     Command := [], Args := [],
     Env := [{ Name := "KUBECONFIG", Value := "/mnt/.kube/config" }],
     VolumeMounts := getMainContainerVolumeMounts,
     SecurityContext := some { RunAsUser := some podUser, RunAsGroup := some 0 } }]

/-- The function `createVolumes`. -/
def createVolumes : List Volume :=
  [{ Name := "kubeconfig", VolumeSource := .emptyDir },
   { Name := "config-source", VolumeSource := .hostPath "/root/.kube" }]

/-- The function `createPodTemplate`; the restart policy is not set and keeps
its zero value. -/
def createPodTemplate (user imagePath : String) : PodTemplate :=
  let podUser : Int := 65532
  { ObjectMeta := { Name := user, Namespace := UserPodNamespace },
    Spec := { InitContainers := createInitContainers imagePath,
              Containers := createMainContainers imagePath podUser,
              Volumes := createVolumes,
              RestartPolicy := "" } }

/-- The function `unicode.IsSpace`. -/
def isSpace (c : Char) : Bool :=
  let n := c.toNat
  (0x09 ≤ n && n ≤ 0x0D) || n = 0x20 || n = 0x85 || n = 0xA0 || n = 0x1680
    || (0x2000 ≤ n && n ≤ 0x200A) || n = 0x2028 || n = 0x2029 || n = 0x202F
    || n = 0x205F || n = 0x3000

/-- The function `strings.TrimSpace`. -/
def trimSpace (s : String) : String :=
  String.mk ((s.data.dropWhile isSpace).reverse.dropWhile isSpace).reverse

/-- The function `template`; `image` is what `getImagePath(ImagePath)` returned,
and a failure of that read ends the process. -/
def template (user : String) (image : Except GoError String) : Outcome WebterminalTemplate :=
  match image with
  | .error _ => .panics "zlog.LogFatalf: Failed to read image path"
  | .ok imagePath =>
    .ret { Name := user, Namespace := UserPodNamespace,
           PodTemplate := createPodTemplate user (trimSpace imagePath) }

/-! ## The personal-workload route -/

/-- The function `strings.TrimPrefix`. -/
def trimPrefix (s pre : String) : String :=
  if pre.data.isPrefixOf s.data then String.mk (s.data.drop pre.data.length) else s

/-- The two headers `ExactSubjectAccess` looks at; an absent header is "". -/
structure AuthHeaders where
  authorization : String
  openFuyaoAuthorization : String
  deriving DecidableEq, Repr

/-- The filter `ExactSubjectAccess`; `getSubject` is the unverified parse of
the token. The result is what the filter leaves under the context key "user"
for the rest of the chain, or `none` when it answers itself and stops the chain. -/
def ExactSubjectAccess (getSubject : String → Except GoError String) (h : AuthHeaders) :
    Option (Option String) :=
  let authInfo := if h.authorization = "" then h.openFuyaoAuthorization else h.authorization
  if authInfo ≠ "" then
    match getSubject (trimPrefix authInfo "Bearer ") with
    | .error _ => none
    | .ok subject => some (some subject)
  else some none

/-- What `checkUserAccess` hands back, and the text frames it sent. -/
structure AccessResult where
  allowed : Bool
  err : Option GoError
  sent : List String
  deriving DecidableEq, Repr

/-- The function `checkUserAccess`: `subject` is the string under the context
key "user" of the request, `bindings` the names of the listed cluster role
bindings or the error of the listing. -/
def checkUserAccess (subject : Option String) (bindings : Except GoError (List String)) :
    AccessResult :=
  match subject with
  | none =>
    { allowed := false, err := some ⟨"error retrieving user information", false⟩,
      sent := ["LogError: LogError retrieving user information"] }
  | some username =>
    let pAdminName := username ++ "-" ++ "platform-admin"
    let cAdminName := username ++ "-" ++ "cluster-admin"
    match bindings with
    | .error err =>
      { allowed := false, err := some err,
        sent := ["LogError: LogError retrieving cluster role bindings"] }
    | .ok items =>
      if items.any fun name => decide (name = pAdminName ∨ name = cAdminName) then
        { allowed := true, err := none, sent := ["User has access"] }
      else { allowed := false, err := none, sent := ["LogError: User has no access"] }

/-- A request on the route `user/{user}/terminal`, as the handler meets it: the
path parameter, the path of the URL, the subject the filter chain attached,
and what the upgrade and the listing of the bindings answer. -/
structure ClusterRequest where
  userParam : String
  urlPath : String
  subject : Option String
  upgradeErr : Option GoError
  bindings : Except GoError (List String)

/-- How the handling of such a request ends. -/
inductive EndpointResult where
  | unauthorized
  | upgradeFailed
  | denied (sent : List String)
  | session (sent : List String) (ctx : Ctx) (username : String)
      (trace : Outcome (List SessionEvent))
  deriving DecidableEq, Repr

/-- The method `Handler.HandleClusterTerminal`. -/
def Handler.HandleClusterTerminal (ctx : Ctx) (req : ClusterRequest) (cenv : ClusterEnv) :
    EndpointResult :=
  match ctx.username with
  | none => .unauthorized
  | some username =>
    match req.upgradeErr with
    | some _ => .upgradeFailed
    | none =>
      let a := checkUserAccess req.subject req.bindings
      if ¬ a.allowed then .denied a.sent
      else .session a.sent ctx username (HandleCusterTerminal username cenv)

/-- The route function of `terminalCluster`: the username of the context is the
path parameter `user`, the path is the path of the URL. -/
def terminalCluster (req : ClusterRequest) (cenv : ClusterEnv) : EndpointResult :=
  let username := req.userParam
  let ctx : Ctx := { username := some username, path := some req.urlPath }
  Handler.HandleClusterTerminal ctx req cenv

/-- The name an event of the session handler is about. -/
def SessionEvent.name : SessionEvent → String
  | .getRecord _ name => name
  | .getPod _ name => name
  | .createRecord _ name => name
  | .startSession _ pod _ => pod

/-- The namespace an event of the session handler is about. -/
def SessionEvent.ns : SessionEvent → String
  | .getRecord ns _ => ns
  | .getPod ns _ => ns
  | .createRecord ns _ => ns
  | .startSession ns _ _ => ns

/-- The size a resize message decodes to: `TerminalSize{Width: msg.Cols, Height: msg.Rows}`. -/
def Message.size (m : Message) : TerminalSize :=
  { Width := m.Cols, Height := m.Rows }

/-- What `Next` makes of a received size: nil for the size (0,0). -/
def nilIfZero (s : TerminalSize) : Option TerminalSize :=
  if s.Height = 0 ∧ s.Width = 0 then none else some s

/-- A burst of inbound messages: `Read` is called once per decoded message, in
order; the counts and errors of the calls are collected. -/
def Window.readAll (w : Window) (buffer : List Nat) (env : Env) :
    List Message → Outcome (List (Nat × Option GoError) × Window)
  | [] => .ret ([], w)
  | m :: ms =>
    (w.Read (.ok m) buffer env).andThen fun r =>
      (r.w.readAll buffer env ms).andThen fun q => .ret ((r.n, r.err) :: q.1, q.2)

/-- Successive calls of `Next`, their results collected in order. -/
def Window.nextN (w : Window) : Nat → Outcome (List (Option TerminalSize) × Window)
  | 0 => .ret ([], w)
  | k + 1 =>
    w.Next.andThen fun r =>
      (r.2.nextN k).andThen fun q => .ret (r.1 :: q.1, q.2)

/-! ## The keepalive of `startSessionWithPing` -/

/-- The duration `time.Second`, in nanoseconds. -/
def second : Int := 1000000000

/-- The duration `time.Minute`, in nanoseconds. -/
def minute : Int := 60 * second

/-- The constant `pongWait` of utils.go. -/
def pongWait : Int := 30 * second

/-- The constant `pingSend` of utils.go. -/
def pingSend : Int := (pongWait * 9) / 10

/-- The constant `pingPeriod` of terminal.go. -/
def pingPeriod : Int := 10 * second

/-- What the keepalive goroutine of `startSessionWithPing` shares with the
session: whether `cancel` was called, whether `conn.Close` was called, and the
write deadlines of the pings handed to `conn.WriteControl` so far. -/
structure Keepalive where
  cancelled : Bool
  connClosed : Bool
  pings : List Int
  deriving DecidableEq, Repr

/-- The function handed to `wait.UntilWithContext`, run at the time `now`:
`writeErr` is what `conn.WriteControl(websocket.PingMessage, nil, now + pingPeriod)`
returned; on an error the context is cancelled and the connection closed. -/
def pingProbe (now : Int) (writeErr : Option GoError) (s : Keepalive) : Keepalive :=
  let s1 := { s with pings := s.pings ++ [now + pingPeriod] }
  match writeErr with
  | some _ => { s1 with cancelled := true, connClosed := true }
  | none => s1

/-- The call `wait.UntilWithContext(ctx, probe, pingSend)`: the probe is run
until the context is done, first at once and then after a pause of `pingSend`
each; the list holds what `WriteControl` would return at each run. -/
def pingLoop (now : Int) : List (Option GoError) → Keepalive → Keepalive
  | [], s => s
  | e :: es, s =>
    if s.cancelled then s else pingLoop (now + pingSend) es (pingProbe now e s)

/-! ## The reconciler of the session record -/

/-- The constant `finalizer` of the controller. -/
def finalizer : String := "openfuyao.com.finalizer.webterminal"

/-- The constant `checkTimePeriod` of the controller. -/
def checkTimePeriod : Int := 26 * minute

/-- The `WebterminalTemplate` the reconciler works on: its name and namespace,
its deletion timestamp and finalizers, and `Spec.RenewTime` as an instant in
nanoseconds. -/
structure ReconciledTemplate where
  Name : String
  Namespace : String
  record : Record
  RenewTime : Int
  deriving DecidableEq, Repr

/-- The requests the reconciler sends to the cluster. -/
inductive ReconcilerCall where
  | getPod (ns name : String)
  | deletePod (ns name : String)
  | update (ns name : String) (finalizers : List String)
  | delete (ns name : String)
  deriving DecidableEq, Repr

/-- What a step of `Reconcile` hands back (the `ctrl.Result` is always empty),
and the requests it issued. -/
structure StepResult where
  shouldReturn : Bool
  err : Option GoError
  calls : List ReconcilerCall
  deriving DecidableEq, Repr

/-- The method `WebterminalTemplateReconciler.checkTTL`, run at the time `now`;
`deleteErr` is what `r.Delete` would return. -/
def WebterminalTemplateReconciler.checkTTL (wtTemplate : ReconciledTemplate) (now : Int)
    (deleteErr : Option GoError) : StepResult :=
  let currentTime := now + (-checkTimePeriod)
  if ¬ (wtTemplate.RenewTime > currentTime) then
    match deleteErr with
    | some err =>
      { shouldReturn := true, err := some err,
        calls := [.delete wtTemplate.Namespace wtTemplate.Name] }
    | none =>
      { shouldReturn := true, err := none,
        calls := [.delete wtTemplate.Namespace wtTemplate.Name] }
  else { shouldReturn := false, err := none, calls := [] }

/-- The function `controllerutil.AddFinalizer`: the finalizer is appended
unless it is present; the result tells whether the list changed. -/
def AddFinalizer (r : Record) (f : String) : Record × Bool :=
  if ContainsFinalizer r f then (r, false)
  else ({ r with finalizers := r.finalizers ++ [f] }, true)

/-- The function `controllerutil.RemoveFinalizer`: every occurrence is
removed; the result tells whether the list changed. -/
def RemoveFinalizer (r : Record) (f : String) : Record × Bool :=
  let kept := r.finalizers.filter fun x => decide (x ≠ f)
  ({ r with finalizers := kept }, decide (r.finalizers.length ≠ kept.length))

/-- What one evaluation of the polling condition of `deletePodTemplate` meets:
the answer to the read of the pod (for a pod that was read, whether its
deletion timestamp is zero) and, should a delete be issued, its error. -/
structure TeardownTick where
  get : Except StoreError Bool
  deleteErr : Option GoError
  deriving Repr

/-- The method `WebterminalTemplateReconciler.deletePodTemplate`: the pod is
read once per tick; not-found ends the poll without error, another error of the
read or an error of the delete ends it with that error, and when the ticks run
out it ends with the deadline error. The requests issued and the error
returned. -/
def WebterminalTemplateReconciler.deletePodTemplate (ns name : String) :
    List TeardownTick → List ReconcilerCall × Option GoError
  | [] => ([], some deadlineExceeded)
  | t :: ts =>
    match t.get with
    | .error e =>
      if e.notFound then ([.getPod ns name], none) else ([.getPod ns name], some e.err)
    | .ok deletionTimestampIsZero =>
      if deletionTimestampIsZero then
        match t.deleteErr with
        | some err => ([.getPod ns name, .deletePod ns name], some err)
        | none =>
          (.getPod ns name :: .deletePod ns name
              :: (WebterminalTemplateReconciler.deletePodTemplate ns name ts).1,
            (WebterminalTemplateReconciler.deletePodTemplate ns name ts).2)
      else
        (.getPod ns name :: (WebterminalTemplateReconciler.deletePodTemplate ns name ts).1,
          (WebterminalTemplateReconciler.deletePodTemplate ns name ts).2)

/-- What the cluster answers during one `handleFinalizer`: the ticks of the
pod teardown, as many as fit into its minute, and the error of `r.Update`. -/
structure FinalizerEnv where
  teardown : List TeardownTick
  updateErr : Option GoError

/-- The method `WebterminalTemplateReconciler.handleFinalizer`: what it hands
back, and the object as it leaves it in memory. -/
def WebterminalTemplateReconciler.handleFinalizer (wtTemplate : ReconciledTemplate)
    (env : FinalizerEnv) : StepResult × ReconciledTemplate :=
  if wtTemplate.record.deletionTimestampIsZero then
    if ¬ ContainsFinalizer wtTemplate.record finalizer then
      let a := AddFinalizer wtTemplate.record finalizer
      let obj := { wtTemplate with record := a.1 }
      if ¬ a.2 then ({ shouldReturn := true, err := none, calls := [] }, obj)
      else
        match env.updateErr with
        | some err =>
          ({ shouldReturn := true, err := some err,
             calls := [.update obj.Namespace obj.Name obj.record.finalizers] }, obj)
        | none =>
          ({ shouldReturn := false, err := none,
             calls := [.update obj.Namespace obj.Name obj.record.finalizers] }, obj)
    else ({ shouldReturn := false, err := none, calls := [] }, wtTemplate)
  else
    if ContainsFinalizer wtTemplate.record finalizer then
      let d := WebterminalTemplateReconciler.deletePodTemplate wtTemplate.Namespace
        wtTemplate.Name env.teardown
      match d.2 with
      | some err => ({ shouldReturn := true, err := some err, calls := d.1 }, wtTemplate)
      | none =>
        let r := RemoveFinalizer wtTemplate.record finalizer
        let obj := { wtTemplate with record := r.1 }
        if ¬ r.2 then ({ shouldReturn := true, err := none, calls := d.1 }, obj)
        else
          match env.updateErr with
          | some err =>
            ({ shouldReturn := true, err := some err,
               calls := d.1 ++ [.update obj.Namespace obj.Name obj.record.finalizers] }, obj)
          | none =>
            ({ shouldReturn := true, err := none,
               calls := d.1 ++ [.update obj.Namespace obj.Name obj.record.finalizers] }, obj)
    else ({ shouldReturn := true, err := none, calls := [] }, wtTemplate)

/-- The updates among the requests of the reconciler, each with the finalizers
it writes. -/
def finalizerUpdates : List ReconcilerCall → List (List String)
  | [] => []
  | .update _ _ fs :: cs => fs :: finalizerUpdates cs
  | _ :: cs => finalizerUpdates cs

/-- The type `corev1.Pod`, as far as the reconciler fills it (the labels of the
template are nil). -/
structure PodObject where
  Name : String
  Namespace : String
  InitContainers : List Container
  Containers : List Container
  Volumes : List Volume
  RestartPolicy : String
  deriving DecidableEq, Repr

/-- The pod `podtpl` that `WebterminalTemplateReconciler.createPodTemplate`
builds from the pod template of the record. -/
def WebterminalTemplateReconciler.podtpl (obj : WebterminalTemplate) : PodObject :=
  { Name := obj.PodTemplate.ObjectMeta.Name,
    Namespace := obj.PodTemplate.ObjectMeta.Namespace,
    InitContainers := obj.PodTemplate.Spec.InitContainers,
    Containers := obj.PodTemplate.Spec.Containers,
    Volumes := obj.PodTemplate.Spec.Volumes,
    RestartPolicy := obj.PodTemplate.Spec.RestartPolicy }

/-- The method `WebterminalTemplateReconciler.createPodTemplate`: the pod is
read once per tick; on not-found `podtpl` is created and the poll goes on, or
ends with the error of the create; another error of the read ends the poll; a
pod that is ready ends it without error. The pods whose creation was requested
and the error returned. -/
def WebterminalTemplateReconciler.createPodTemplate (obj : WebterminalTemplate) :
    List PodTick → List PodObject × Option GoError
  | [] => ([], some deadlineExceeded)
  | t :: ts =>
    match t.get with
    | .error e =>
      if e.notFound then
        match t.createErr with
        | some c => ([WebterminalTemplateReconciler.podtpl obj], some c.err)
        | none =>
          (WebterminalTemplateReconciler.podtpl obj
              :: (WebterminalTemplateReconciler.createPodTemplate obj ts).1,
            (WebterminalTemplateReconciler.createPodTemplate obj ts).2)
      else ([], some e.err)
    | .ok pod =>
      if ¬ isPodReady pod then WebterminalTemplateReconciler.createPodTemplate obj ts
      else ([], none)

/-! ## The server configuration -/

/-- The constant `maxSecurePort`. -/
def maxSecurePort : Int := 65535

/-- The struct `ServerConfig`. -/
structure ServerConfig where
  BindAddress : String
  SecurePort : Int
  InsecurePort : Int
  PrivateKey : String
  CertFile : String
  CAFile : String
  deriving DecidableEq, Repr

/-- The errors `Validate` collects, by the statement that makes them: the two
`fmt.Errorf` texts, and what `os.Stat` returned. -/
inductive ValidateError where
  | portsDisabled
  | emptyFile
  | stat (err : GoError)
  deriving DecidableEq, Repr

/-- The text of an error of `Validate`. -/
def ValidateError.Error : ValidateError → String
  | .portsDisabled => "insecure and secure port can not be disabled at the same time"
  | .emptyFile => "tls private key file is empty while secure serving"
  | .stat err => err.text

/-- The method `ServerConfig.Validate`; `stat` is the error of `os.Stat` on a name. -/
def ServerConfig.Validate (s : ServerConfig) (stat : String → Option GoError) :
    List ValidateError :=
  let errs : List ValidateError := []
  let errs := if s.SecurePort = 0 ∧ s.InsecurePort = 0 then errs ++ [.portsDisabled] else errs
  if s.SecurePort > 0 ∧ s.SecurePort < maxSecurePort then
    let errs :=
      if s.CertFile = "" then errs ++ [.emptyFile]
      else match stat s.CertFile with
        | some err => errs ++ [.stat err]
        | none => errs
    let errs :=
      if s.PrivateKey = "" then errs ++ [.emptyFile]
      else match stat s.PrivateKey with
        | some err => errs ++ [.stat err]
        | none => errs
    errs
  else errs

/-- The function `initServer`, as far as it reads the server configuration:
with a secure port other than 0 the key pair and the CA file are loaded and the
server listens on the secure port with TLS; otherwise it listens on the
insecure port. The port and whether TLS is configured, or the error. -/
def initServer (s : ServerConfig) (loadX509KeyPair : String → String → Option GoError)
    (readFile : String → Option GoError) : Except GoError (Int × Bool) :=
  if s.SecurePort ≠ 0 then
    match loadX509KeyPair s.CertFile s.PrivateKey with
    | some err => .error err
    | none =>
      match readFile s.CAFile with
      | some err => .error err
      | none => .ok (s.SecurePort, true)
  else .ok (s.InsecurePort, false)

/-! ## The access log -/

/-- The type `restful.Response`, as far as the filter reads it: the status
code written so far (0 when nothing was written) and the content length. -/
structure Response where
  statusCode : Nat
  contentLength : Nat
  deriving DecidableEq, Repr

/-- The method `Response.StatusCode`: 200 as long as nothing was written. -/
def Response.StatusCode (r : Response) : Nat :=
  if 0 = r.statusCode then 200 else r.statusCode

/-- The level of a log line: `zlog.LogInfof` or `zlog.LogWarnf`. -/
inductive LogLevel where
  | info
  | warn
  deriving DecidableEq, Repr

/-- The line of the access log, as far as it depends on the response. -/
structure AccessLine where
  level : LogLevel
  statusCode : Nat
  contentLength : Nat
  deriving DecidableEq, Repr

/-- The function `logRequest`; `chain` is what `chain.ProcessFilter` does to
the response. -/
def logRequest (resp : Response) (chain : Response → Response) (isError : Bool) :
    AccessLine × Response :=
  let resp1 := chain resp
  let statusCode := resp1.StatusCode
  let contentLength := resp1.contentLength
  let level := if isError then LogLevel.warn else LogLevel.info
  ({ level := level, statusCode := statusCode, contentLength := contentLength }, resp1)

/-- The filter `RecordAccessLogs`: the argument `resp.StatusCode() > http.StatusBadRequest`
is evaluated before `logRequest` is entered. -/
def RecordAccessLogs (resp : Response) (chain : Response → Response) : AccessLine × Response :=
  logRequest resp chain (decide (resp.StatusCode > 400))

/-! ## The pod-terminal route -/

/-- The constant `WebTerminalBasePath`, the root path of the web service. -/
def WebTerminalBasePath : String := "/rest/webterminal/v1"

/-- The path of a request that the route
`/namespace/{namespace}/pod/{pod}/container/{container}/terminal` of `terminalPod`
serves, for the values of its three path parameters. -/
def podTerminalPath (ns pod container : String) : String :=
  WebTerminalBasePath ++ "/namespace/" ++ ns ++ "/pod/" ++ pod ++ "/container/" ++ container
    ++ "/terminal"

/-- The path of a request that the route `user/{user}/terminal` of
`terminalCluster` serves. -/
def clusterTerminalPath (user : String) : String :=
  WebTerminalBasePath ++ "/" ++ "user/" ++ user ++ "/terminal"

/-- A request on the pod-terminal route, as the handler meets it: the path of
the URL, the subject the filter chain attached, and what the upgrade and the
listing of the bindings answer. -/
structure PodRequest where
  urlPath : String
  subject : Option String
  upgradeErr : Option GoError
  bindings : Except GoError (List String)

/-- How the handling of a pod-terminal request ends. -/
inductive PodEndpointResult where
  | upgradeFailed
  | denied (sent : List String)
  | session (sent : List String) (ctx : Ctx) (run : Outcome (List Event × Window))

/-- The method `Handler.HandlePodTerminal`: the context gets the path of the
URL under "path" and nothing under "username". -/
def Handler.HandlePodTerminal (req : PodRequest) (env : TermEnv) : PodEndpointResult :=
  let ctx : Ctx := { path := some req.urlPath, username := none }
  match req.upgradeErr with
  | some _ => .upgradeFailed
  | none =>
    let a := checkUserAccess req.subject req.bindings
    if ¬ a.allowed then .denied a.sent
    else .session a.sent ctx
      (HandleTerminal ctx (some { sent := a.sent.map utf8, closed := false }) env)

/-- The segments of a path: the pieces between its slashes. -/
def splitSlash : List Char → List (List Char)
  | [] => [[]]
  | c :: cs =>
    if c = '/' then [] :: splitSlash cs
    else
      match splitSlash cs with
      | [] => [[c]]
      | s :: ss => (c :: s) :: ss

/-! ## Sample values -/

/-- A context as the pod-terminal route builds it: a path, no username. -/
def podCtx : Ctx := { path := some "/rest/webterminal/v1/namespace/a/pod/b/container/c/terminal", username := none }

/-- A fresh window over an open connection, with the unbuffered channel of `HandleTerminal`. -/
def freshWindow (ctx : Ctx) : Window :=
  { conn := some { sent := [], closed := false }, sizeChan := makeChan 0, ctx := ctx, storeCalls := [] }

/-- An outside world in which every request succeeds. -/
def quietEnv : Env :=
  { getErr := none, updateErr := none, setDeadlineErr := none, writeErr := none, closeErr := none }

/-- A burst of three resize messages, the second one with both dimensions zero. -/
def sampleBurst : List Message :=
  [⟨"resize", [], 24, 80⟩, ⟨"resize", [], 0, 0⟩, ⟨"resize", [], 30, 100⟩]

/-- The window `freshWindow podCtx` with one sender parked on the size (0,0). -/
def zeroParkedWindow : Window :=
  { freshWindow podCtx with
    sizeChan := { buf := [], sendq := [⟨0, 0⟩], cap := 0, closed := false } }

/-- A window as the tests build it, with a channel of capacity 1 that holds the size 80x24. -/
def bufferedWindow : Window :=
  { freshWindow podCtx with
    sizeChan := { buf := [⟨80, 24⟩], sendq := [], cap := 1, closed := false } }

/-- A container in which only `sh` answers the probe. -/
def onlyShProbe (shell : String) : ProbeReply :=
  if shell = "sh" then { execErr := none, streamErr := none, output := utf8 "/bin/sh\n" }
  else { execErr := none, streamErr := none, output := [] }

/-- A container in which no shell answers the probe. -/
def noShellProbe (_shell : String) : ProbeReply :=
  { execErr := none, streamErr := some ⟨"command terminated with exit code 1", false⟩,
    output := [] }

/-- A session in `sh`: a resize, one line of input, one chunk of output, then
the remote process fails. -/
def shSession : TermEnv :=
  { probe := onlyShProbe, noShellWriteErr := none, execErr := none,
    calls := [.read (.ok ⟨"resize", [], 24, 80⟩) [0, 0, 0, 0] quietEnv, .next,
              .read (.ok ⟨"stdin", [108, 115, 10], 0, 0⟩) [0, 0, 0, 0] quietEnv,
              .write [97, 10] quietEnv],
    streamErr := some ⟨"command terminated with exit code 130", false⟩, closeEnv := quietEnv }

/-- A session in `sh` in which a resize arrives while nothing consumes the size
channel, and the stream then ends: the `Read` is still parked at the `Close`. -/
def parkedSession : TermEnv :=
  { probe := onlyShProbe, noShellWriteErr := none, execErr := none,
    calls := [.read (.ok ⟨"resize", [], 24, 80⟩) [0, 0, 0, 0] quietEnv],
    streamErr := none, closeEnv := quietEnv }

/-- A session against a container without a shell. -/
def noShellSession : TermEnv :=
  { probe := noShellProbe, noShellWriteErr := none, execErr := none, calls := [],
    streamErr := none, closeEnv := quietEnv }

/-- The window that `shSession` leaves to `Close`: one frame sent, nothing pending. -/
def shSessionWindow : Window :=
  { conn := some { sent := [jsonMarshal ⟨"stdout", [97, 10], 200, 200⟩], closed := false },
    sizeChan := makeChan 0, ctx := podCtx, storeCalls := [] }

/-- A store in which the record of the user exists and is not being deleted;
the pod wait would find nothing and every create would fail. -/
def existingRecordEnv : ClusterEnv :=
  { record := .ok { deletionTimestampIsZero := true, finalizers := [Finalizer] },
    guardTicks := [],
    imageErr := none,
    podTicks := [{ get := .error ⟨⟨"not found", false⟩, true, false⟩,
                   createErr := some ⟨⟨"forbidden", false⟩, false, false⟩ }] }

/-- A store without the record of the user, while the pod of that name is
already running and ready. -/
def podReadyEnv : ClusterEnv :=
  { record := .error ⟨⟨"not found", false⟩, true, false⟩,
    guardTicks := [],
    imageErr := none,
    podTicks := [{ get := .ok { phase := "Running", conditions := [⟨"Ready", "True"⟩] },
                   createErr := none }] }

/-- A store without the record of the user, in which the create is refused. -/
def forbiddenEnv : ClusterEnv :=
  { record := .error ⟨⟨"not found", false⟩, true, false⟩,
    guardTicks := [],
    imageErr := none,
    podTicks := [{ get := .error ⟨⟨"not found", false⟩, true, false⟩,
                   createErr := some ⟨⟨"forbidden", false⟩, false, false⟩ }] }

/-- A store without the record of the user, in which the create succeeds and
the pod is ready at the third tick. -/
def provisionEnv : ClusterEnv :=
  { record := .error ⟨⟨"not found", false⟩, true, false⟩,
    guardTicks := [],
    imageErr := none,
    podTicks := [{ get := .error ⟨⟨"not found", false⟩, true, false⟩, createErr := none },
                 { get := .error ⟨⟨"not found", false⟩, true, false⟩,
                   createErr := some ⟨⟨"already exists", false⟩, false, true⟩ },
                 { get := .ok { phase := "Running", conditions := [⟨"Ready", "True"⟩] },
                   createErr := none }] }

/-- A record in deletion that keeps its finalizer during the whole guard wait. -/
def stuckEnv : ClusterEnv :=
  { record := .ok { deletionTimestampIsZero := false, finalizers := [Finalizer] },
    guardTicks := [.ok { deletionTimestampIsZero := false, finalizers := [Finalizer] },
                   .ok { deletionTimestampIsZero := false, finalizers := [Finalizer] }],
    imageErr := none,
    podTicks := [{ get := .ok { phase := "Running", conditions := [⟨"Ready", "True"⟩] },
                   createErr := none }] }

/-- A record in deletion whose teardown completes: the second read of the guard
wait reports not-found. -/
def vanishedEnv : ClusterEnv :=
  { record := .ok { deletionTimestampIsZero := false, finalizers := [Finalizer] },
    guardTicks := [.ok { deletionTimestampIsZero := false, finalizers := [Finalizer] },
                   .error ⟨⟨"webterminaltemplates not found", false⟩, true, false⟩],
    imageErr := none,
    podTicks := [{ get := .error ⟨⟨"not found", false⟩, true, false⟩, createErr := none },
                 { get := .ok { phase := "Running", conditions := [⟨"Ready", "True"⟩] },
                   createErr := none }] }

/-- A context whose path holds the renewal-tracked marker behind another segment. -/
def proxiedCtx : Ctx :=
  { path := some "/proxy/rest/webterminal/v1/user/alice/terminal", username := some "alice" }

/-- A context as the personal-workload route builds it. -/
def userCtx : Ctx :=
  { path := some "/rest/webterminal/v1/user/alice/terminal", username := some "alice" }

/-- An outside world in which the update of the record meets a conflict. -/
def conflictEnv : Env :=
  { quietEnv with updateErr := some ⟨"the object has been modified", false⟩ }

/-- A request of the subject "admin", who holds a cluster-admin binding, for
the terminal of the user named in the URL. -/
def adminRequest (user : String) : ClusterRequest :=
  { userParam := user, urlPath := "/rest/webterminal/v1/user/" ++ user ++ "/terminal",
    subject := some "admin", upgradeErr := none,
    bindings := .ok ["system:node", "admin-cluster-admin"] }

/-- A record in deletion that still carries the finalizer of the controller. -/
def deletingTemplate : ReconciledTemplate :=
  { Name := "openfuyao-alice", Namespace := UserPodNamespace,
    record := { deletionTimestampIsZero := false, finalizers := [finalizer] },
    RenewTime := 0 }

/-- A teardown in which the pod is found and deleted, then found terminating,
then reported not-found; the update of the record succeeds. -/
def teardownEnv : FinalizerEnv :=
  { teardown := [{ get := .ok true, deleteErr := none },
                 { get := .ok false, deleteErr := none },
                 { get := .error { err := ⟨"pods not found", false⟩, notFound := true,
                                   alreadyExists := false },
                   deleteErr := none }],
    updateErr := none }

/-! ## Properties of the window -/

theorem goCopy_length (dst src : List Nat) : (goCopy dst src).1.length = dst.length := by
  simp only [goCopy, List.length_append, List.length_take, List.length_drop]
  omega

theorem goCopy_take (dst src : List Nat) :
    (goCopy dst src).1.take (goCopy dst src).2 = src.take (goCopy dst src).2 := by
  simp only [goCopy]
  rw [List.take_append_of_le_length (by simp)]
  simp

theorem goCopy_drop (dst src : List Nat) :
    (goCopy dst src).1.drop (goCopy dst src).2 = dst.drop (goCopy dst src).2 := by
  simp only [goCopy]
  rw [List.drop_append_of_le_length (by simp)]
  simp

theorem renewIfTracked_ret (w : Window) (env : Env) (p : String)
    (hp : w.ctx.path = some p)
    (hu : stringsContains p KubectlApi = true → w.ctx.username ≠ none) :
    ∃ w1, w.renewIfTracked env = .ret w1 ∧ w1.sizeChan = w.sizeChan ∧ w1.conn = w.conn
      ∧ w1.ctx = w.ctx := by
  unfold Window.renewIfTracked
  rw [hp]
  by_cases hc : stringsContains p KubectlApi = true
  · simp only [hc, if_true]
    unfold Window.Renewtime
    cases hn : w.ctx.username with
    | none => exact absurd hn (hu hc)
    | some u => exact ⟨_, rfl, rfl, rfl, rfl⟩
  · simp only [hc]
    exact ⟨w, rfl, rfl, rfl, rfl⟩

theorem Read_stdin_ret (w : Window) (msg : Message) (buffer : List Nat) (env : Env)
    (p : String) (hop : msg.Op = "stdin") (hp : w.ctx.path = some p)
    (hu : stringsContains p KubectlApi = true → w.ctx.username ≠ none) :
    ∃ w1, w.Read (.ok msg) buffer env
        = .ret ⟨w1, (goCopy buffer msg.Data).1, (goCopy buffer msg.Data).2, none, false⟩
      ∧ w1.sizeChan = w.sizeChan := by
  obtain ⟨w1, hw1, hch, -, -⟩ := renewIfTracked_ret w env p hp hu
  refine ⟨w1, ?_, hch⟩
  simp only [Window.Read, hop, if_true, hw1, Outcome.andThen]

/-- C1, as stated, fails: a stdin message of three bytes read into a buffer of
two bytes gives the count 2, not the length of the payload. -/
theorem Read_stdin_count_not_len :
    ¬ ∀ (w : Window) (msg : Message) (buffer : List Nat) (env : Env), msg.Op = "stdin" →
      ∃ r, w.Read (.ok msg) buffer env = .ret r ∧ r.n = msg.Data.length := by
  intro h
  obtain ⟨r, hr, hn⟩ := h (freshWindow podCtx) ⟨"stdin", [108, 115, 10], 0, 0⟩ [0, 0] quietEnv rfl
  have h2 : (freshWindow podCtx).Read (.ok ⟨"stdin", [108, 115, 10], 0, 0⟩) [0, 0] quietEnv
      = .ret ⟨freshWindow podCtx, [108, 115], 2, none, false⟩ := by decide
  rw [h2] at hr
  cases hr
  simp at hn

/-- C1, amended: on a stdin message, with a context that carries the path (and
the username when the path is renewal-tracked), `Read` returns the count
min(len(buffer), len(Data)), has copied exactly that many leading bytes of Data
to the start of the buffer and left the rest of the buffer alone, returns a nil
error and leaves the size channel untouched; with a buffer at least as long as
Data the count is len(Data) and the whole payload is copied. -/
theorem Read_stdin_copies (w : Window) (msg : Message) (buffer : List Nat) (env : Env)
    (p : String) (hop : msg.Op = "stdin") (hp : w.ctx.path = some p)
    (hu : stringsContains p KubectlApi = true → w.ctx.username ≠ none) :
    ∃ r, w.Read (.ok msg) buffer env = .ret r
      ∧ r.n = min buffer.length msg.Data.length
      ∧ r.buffer.take r.n = msg.Data.take r.n
      ∧ r.buffer.drop r.n = buffer.drop r.n
      ∧ r.buffer.length = buffer.length
      ∧ r.err = none ∧ r.parked = false
      ∧ r.w.sizeChan = w.sizeChan
      ∧ (msg.Data.length ≤ buffer.length →
          r.n = msg.Data.length ∧ r.buffer.take msg.Data.length = msg.Data) := by
  obtain ⟨w1, hw1, hch⟩ := Read_stdin_ret w msg buffer env p hop hp hu
  refine ⟨⟨w1, (goCopy buffer msg.Data).1, (goCopy buffer msg.Data).2, none, false⟩, hw1, ?_⟩
  · refine ⟨rfl, goCopy_take _ _, goCopy_drop _ _, goCopy_length _ _, rfl, rfl, hch, ?_⟩
    intro hle
    have hn : (goCopy buffer msg.Data).2 = msg.Data.length := by
      simp only [goCopy]; omega
    refine ⟨hn, ?_⟩
    have := goCopy_take buffer msg.Data
    rw [hn] at this
    simpa using this

/-- The stdin property at a three-byte payload and a four-byte buffer. -/
theorem Read_stdin_copies_witness :
    ∃ r, (freshWindow podCtx).Read (.ok ⟨"stdin", [108, 115, 10], 0, 0⟩) [0, 0, 0, 0] quietEnv
        = .ret r
      ∧ r.n = min [0, 0, 0, 0].length [108, 115, 10].length
      ∧ r.buffer.take r.n = [108, 115, 10].take r.n
      ∧ r.buffer.drop r.n = [0, 0, 0, 0].drop r.n
      ∧ r.buffer.length = [0, 0, 0, 0].length
      ∧ r.err = none ∧ r.parked = false
      ∧ r.w.sizeChan = (freshWindow podCtx).sizeChan
      ∧ ([108, 115, 10].length ≤ [0, 0, 0, 0].length →
          r.n = [108, 115, 10].length ∧ r.buffer.take [108, 115, 10].length = [108, 115, 10]) :=
  Read_stdin_copies (freshWindow podCtx) ⟨"stdin", [108, 115, 10], 0, 0⟩ [0, 0, 0, 0] quietEnv
    "/rest/webterminal/v1/namespace/a/pod/b/container/c/terminal" rfl rfl (by decide)

theorem chanSend_open (c : Chan) (v : TerminalSize) (h : c.closed = false) (hwf : c.wf) :
    ∃ r, chanSend c v = .ret r ∧ r.1.inflight = c.inflight ++ [v] ∧ r.1.closed = false
      ∧ r.1.cap = c.cap ∧ r.1.wf := by
  unfold chanSend
  simp only [h, Bool.false_eq_true, if_false]
  by_cases hl : c.buf.length < c.cap
  · simp only [hl, if_true]
    have hq : c.sendq = [] := by
      rcases hwf with hq | hq
      · exact hq
      · omega
    exact ⟨_, rfl, by simp [Chan.inflight, hq], rfl, rfl, Or.inl hq⟩
  · simp only [hl, if_false]
    exact ⟨_, rfl, by simp [Chan.inflight], rfl, rfl, Or.inr (by simpa using hl)⟩

theorem chanRecv_cons (c : Chan) (s : TerminalSize) (t : List TerminalSize)
    (h : c.inflight = s :: t) (hwf : c.wf) :
    ∃ c1, chanRecv c = .ret (s, c1) ∧ c1.inflight = t ∧ c1.closed = c.closed
      ∧ c1.cap = c.cap ∧ c1.wf := by
  obtain ⟨buf, sendq, cap, closed⟩ := c
  simp only [Chan.inflight] at h
  cases buf with
  | nil =>
    cases sendq with
    | nil => simp at h
    | cons a q =>
      simp only [List.nil_append, List.cons.injEq] at h
      obtain ⟨rfl, rfl⟩ := h
      refine ⟨_, rfl, rfl, rfl, rfl, ?_⟩
      rcases hwf with hq | hq
      · simp at hq
      · exact Or.inr hq
  | cons a b =>
    simp only [List.cons_append, List.cons.injEq] at h
    obtain ⟨rfl, rfl⟩ := h
    cases sendq with
    | nil => exact ⟨_, rfl, by simp [Chan.inflight], rfl, rfl, Or.inl rfl⟩
    | cons x q =>
      refine ⟨_, rfl, by simp [Chan.inflight], rfl, rfl, ?_⟩
      rcases hwf with hq | hq
      · simp at hq
      · exact Or.inr (by simpa using hq)

theorem Read_resize_ret (w : Window) (msg : Message) (buffer : List Nat) (env : Env)
    (hop : msg.Op = "resize") (hopen : w.sizeChan.closed = false) (hwf : w.sizeChan.wf) :
    ∃ r, w.Read (.ok msg) buffer env = .ret r ∧ r.n = 0 ∧ r.err = none ∧ r.buffer = buffer
      ∧ r.w.sizeChan.inflight = w.sizeChan.inflight ++ [msg.size]
      ∧ r.w.sizeChan.closed = false ∧ r.w.sizeChan.wf := by
  obtain ⟨c, hc, hin, hcl, -, hwf1⟩ := chanSend_open w.sizeChan msg.size hopen hwf
  have hne : ¬ ("resize" = "stdin") := by decide
  refine ⟨⟨{ w with sizeChan := c.1 }, buffer, 0, none, c.2⟩, ?_, rfl, rfl, rfl, hin, hcl, hwf1⟩
  simp only [Message.size] at hc
  simp only [Window.Read, hne, hop, if_true, if_false, hc, Outcome.andThen]

theorem readAll_resize (msgs : List Message) (buffer : List Nat) (env : Env) :
    ∀ w : Window, (∀ m ∈ msgs, m.Op = "resize") → w.sizeChan.closed = false → w.sizeChan.wf →
    ∃ w1, w.readAll buffer env msgs = .ret (msgs.map (fun _ => (0, none)), w1)
      ∧ w1.sizeChan.inflight = w.sizeChan.inflight ++ msgs.map Message.size
      ∧ w1.sizeChan.closed = false ∧ w1.sizeChan.wf := by
  induction msgs with
  | nil => intro w _ h hwf; exact ⟨w, rfl, by simp, h, hwf⟩
  | cons m ms ih =>
    intro w hall hopen hwf
    obtain ⟨r, hr, hn, he, -, hin, hcl, hwf1⟩ :=
      Read_resize_ret w m buffer env (hall m (List.mem_cons_self _ _)) hopen hwf
    obtain ⟨w1, hw1, hin1, hcl1, hwf2⟩ :=
      ih r.w (fun x hx => hall x (List.mem_cons_of_mem _ hx)) hcl hwf1
    refine ⟨w1, ?_, ?_, hcl1, hwf2⟩
    · simp only [Window.readAll, hr, Outcome.andThen, hw1, hn, he, List.map_cons]
    · rw [hin1, hin]; simp

theorem nextN_inflight (l : List TerminalSize) :
    ∀ w : Window, w.sizeChan.inflight = l → w.sizeChan.wf →
    ∃ w1, w.nextN l.length = .ret (l.map nilIfZero, w1) ∧ w1.sizeChan.inflight = []
      ∧ w1.sizeChan.closed = w.sizeChan.closed := by
  induction l with
  | nil => intro w h _; exact ⟨w, rfl, h, rfl⟩
  | cons s t ih =>
    intro w h hwf
    obtain ⟨c1, hc1, hin, hcl, -, hwf1⟩ := chanRecv_cons w.sizeChan s t h hwf
    obtain ⟨w1, hw1, he, hcl1⟩ := ih { w with sizeChan := c1 } hin hwf1
    refine ⟨w1, ?_, he, hcl1.trans hcl⟩
    simp only [List.length_cons, Window.nextN, Window.Next, hc1, Outcome.andThen, List.map_cons,
      nilIfZero]
    by_cases hz : s.Height = 0 ∧ s.Width = 0
    · simp only [hz, and_self, if_true, hw1]
    · simp only [hz, if_false, hw1]

/-- C2, as stated, fails: after a resize message with Rows = 0 and Cols = 0 the
next call of `Next` does not return the decoded size. -/
theorem Next_after_zero_resize_not_size :
    ¬ ∀ (w : Window) (msgs : List Message) (buffer : List Nat) (env : Env),
      (∀ m ∈ msgs, m.Op = "resize") → w.sizeChan = makeChan 0 →
      ∃ res w1 w2, w.readAll buffer env msgs = .ret (res, w1)
        ∧ w1.nextN msgs.length = .ret (msgs.map (fun m => some m.size), w2) := by
  intro h
  obtain ⟨res, w1, w2, h1, h2⟩ :=
    h (freshWindow podCtx) [⟨"resize", [], 0, 0⟩] [] quietEnv (by decide) rfl
  have e1 : (freshWindow podCtx).readAll [] quietEnv [⟨"resize", [], 0, 0⟩]
      = .ret ([(0, none)], zeroParkedWindow) := by decide
  have e2 : zeroParkedWindow.nextN 1
      = .ret ([none], { zeroParkedWindow with sizeChan := makeChan 0 }) := by decide
  rw [e1] at h1
  cases h1
  rw [show [(⟨"resize", [], 0, 0⟩ : Message)].length = 1 from rfl, e2] at h2
  simp at h2

/-- C2, amended: on an open size channel every resize message makes `Read`
return (0, nil), with the caller's buffer untouched, and puts the size
{Width: Cols, Height: Rows} behind the sizes already on their way; after a burst
of N resize messages the successive calls of `Next` return the pending sizes and
then those N sizes in arrival order, each as itself except that a size with
Rows = 0 and Cols = 0 comes back as nil. -/
theorem Read_resize_fifo (w : Window) (msgs : List Message) (buffer : List Nat) (env : Env)
    (hres : ∀ m ∈ msgs, m.Op = "resize") (hopen : w.sizeChan.closed = false)
    (hwf : w.sizeChan.wf) :
    ∃ w1 w2, w.readAll buffer env msgs = .ret (msgs.map (fun _ => (0, none)), w1)
      ∧ w1.sizeChan.inflight = w.sizeChan.inflight ++ msgs.map Message.size
      ∧ w1.nextN (w.sizeChan.inflight.length + msgs.length)
          = .ret ((w.sizeChan.inflight ++ msgs.map Message.size).map nilIfZero, w2)
      ∧ (∀ m ∈ msgs, m.Rows ≠ 0 ∨ m.Cols ≠ 0 → nilIfZero m.size = some m.size)
      ∧ (∀ m ∈ msgs, m.Rows = 0 ∧ m.Cols = 0 → nilIfZero m.size = none) := by
  obtain ⟨w1, h1, hin, -, hwf1⟩ := readAll_resize msgs buffer env w hres hopen hwf
  obtain ⟨w2, h2, -, -⟩ := nextN_inflight _ w1 hin hwf1
  refine ⟨w1, w2, h1, hin, ?_, ?_, ?_⟩
  · simpa using h2
  · intro m _ hm
    simp only [nilIfZero, Message.size]
    rw [if_neg]
    intro hz
    rcases hm with hm | hm
    · exact hm hz.1
    · exact hm hz.2
  · intro m _ hm
    simp only [nilIfZero, Message.size]
    rw [if_pos hm]

/-- The resize property at the sample burst on a fresh window. -/
theorem Read_resize_fifo_witness :
    ∃ w1 w2, (freshWindow podCtx).readAll [] quietEnv sampleBurst
        = .ret (sampleBurst.map (fun _ => (0, none)), w1)
      ∧ w1.sizeChan.inflight
          = (freshWindow podCtx).sizeChan.inflight ++ sampleBurst.map Message.size
      ∧ w1.nextN ((freshWindow podCtx).sizeChan.inflight.length + sampleBurst.length)
          = .ret (((freshWindow podCtx).sizeChan.inflight ++
              sampleBurst.map Message.size).map nilIfZero, w2)
      ∧ (∀ m ∈ sampleBurst, m.Rows ≠ 0 ∨ m.Cols ≠ 0 → nilIfZero m.size = some m.size)
      ∧ (∀ m ∈ sampleBurst, m.Rows = 0 ∧ m.Cols = 0 → nilIfZero m.size = none) :=
  Read_resize_fifo (freshWindow podCtx) sampleBurst [] quietEnv (by decide) rfl (Or.inl rfl)

theorem goCopy_endOfWindow (b : Nat) (t : List Nat) :
    goCopy (b :: t) endOfWindow = (4 :: t, 1) := by
  simp [goCopy, endOfWindow]

/-- C3: for a non-empty buffer, every call of `Read` that returns has a nil
error exactly when a message was decoded and its Op is "stdin" or "resize"; in
every other case (the decoding failed, or the Op is another one) `Read` returns
with the byte 0x04 at the start of the buffer, count 1 and a non-nil error, and
leaves the window, hence the size channel, as it was; and a decoded stdin or
resize message does make `Read` return, with a nil error, when the context
carries what the stdin branch reads and the size channel is open. -/
theorem Read_error_iff (w : Window) (rj : Except GoError Message) (buffer : List Nat)
    (env : Env) (hbuf : buffer ≠ []) :
    (∀ r, w.Read rj buffer env = .ret r →
      (r.err = none ↔ ∃ msg, rj = .ok msg ∧ (msg.Op = "stdin" ∨ msg.Op = "resize")))
    ∧ ((¬ ∃ msg, rj = .ok msg ∧ (msg.Op = "stdin" ∨ msg.Op = "resize")) →
        ∃ r, w.Read rj buffer env = .ret r ∧ r.n = 1 ∧ r.buffer = 4 :: buffer.tail
          ∧ r.err ≠ none ∧ r.w = w ∧ r.parked = false)
    ∧ (∀ msg p, rj = .ok msg → (msg.Op = "stdin" ∨ msg.Op = "resize") →
        w.ctx.path = some p → (stringsContains p KubectlApi = true → w.ctx.username ≠ none) →
        w.sizeChan.closed = false → w.sizeChan.wf →
        ∃ r, w.Read rj buffer env = .ret r ∧ r.err = none) := by
  obtain ⟨b, t, rfl⟩ := List.exists_cons_of_ne_nil hbuf
  refine ⟨?_, ?_, ?_⟩
  · intro r hr
    cases rj with
    | error e =>
      simp only [Window.Read] at hr
      cases hr
      simp
    | ok msg =>
      by_cases h1 : msg.Op = "stdin"
      · simp only [Window.Read, h1, if_true] at hr
        cases hw : w.renewIfTracked env with
        | ret w1 =>
          rw [hw] at hr
          simp only [Outcome.andThen] at hr
          cases hr
          simp [h1]
        | panics s => rw [hw] at hr; simp [Outcome.andThen] at hr
        | blocks => rw [hw] at hr; simp [Outcome.andThen] at hr
      · by_cases h2 : msg.Op = "resize"
        · simp only [Window.Read, h1, h2, if_true, if_false] at hr
          cases hc : chanSend w.sizeChan { Width := msg.Cols, Height := msg.Rows } with
          | ret c =>
            rw [hc] at hr
            simp only [Outcome.andThen] at hr
            cases hr
            simp [h2]
          | panics s => rw [hc] at hr; simp [Outcome.andThen] at hr
          | blocks => rw [hc] at hr; simp [Outcome.andThen] at hr
        · simp only [Window.Read, h1, h2, if_false] at hr
          cases hr
          simp [h1, h2]
  · intro hno
    cases rj with
    | error e =>
      exact ⟨_, rfl, by simp [goCopy_endOfWindow], by simp [goCopy_endOfWindow], by simp, rfl,
        rfl⟩
    | ok msg =>
      have h1 : ¬ msg.Op = "stdin" := fun h => hno ⟨msg, rfl, Or.inl h⟩
      have h2 : ¬ msg.Op = "resize" := fun h => hno ⟨msg, rfl, Or.inr h⟩
      refine ⟨_, by simp only [Window.Read, h1, h2, if_false]; rfl, ?_, ?_, ?_, rfl, rfl⟩
      · simp [goCopy_endOfWindow]
      · simp [goCopy_endOfWindow]
      · simp
  · intro msg p hrj hop hp hu hopen hwf
    subst hrj
    rcases hop with hop | hop
    · obtain ⟨w1, hr, -⟩ := Read_stdin_ret w msg (b :: t) env p hop hp hu
      exact ⟨_, hr, rfl⟩
    · obtain ⟨r, hr, -, he, -⟩ := Read_resize_ret w msg (b :: t) env hop hopen hwf
      exact ⟨r, hr, he⟩

/-- The error property at an unknown op and a two-byte buffer. -/
theorem Read_error_iff_witness :
    (∀ r, (freshWindow podCtx).Read (.ok ⟨"bogus", [], 0, 0⟩) [0, 0] quietEnv = .ret r →
      (r.err = none ↔ ∃ msg, (Except.ok ⟨"bogus", [], 0, 0⟩ : Except GoError Message) = .ok msg
        ∧ (msg.Op = "stdin" ∨ msg.Op = "resize")))
    ∧ ((¬ ∃ msg, (Except.ok ⟨"bogus", [], 0, 0⟩ : Except GoError Message) = .ok msg
          ∧ (msg.Op = "stdin" ∨ msg.Op = "resize")) →
        ∃ r, (freshWindow podCtx).Read (.ok ⟨"bogus", [], 0, 0⟩) [0, 0] quietEnv = .ret r
          ∧ r.n = 1 ∧ r.buffer = 4 :: [0, 0].tail
          ∧ r.err ≠ none ∧ r.w = freshWindow podCtx ∧ r.parked = false)
    ∧ (∀ msg p, (Except.ok ⟨"bogus", [], 0, 0⟩ : Except GoError Message) = .ok msg →
        (msg.Op = "stdin" ∨ msg.Op = "resize") →
        (freshWindow podCtx).ctx.path = some p →
        (stringsContains p KubectlApi = true → (freshWindow podCtx).ctx.username ≠ none) →
        (freshWindow podCtx).sizeChan.closed = false → (freshWindow podCtx).sizeChan.wf →
        ∃ r, (freshWindow podCtx).Read (.ok ⟨"bogus", [], 0, 0⟩) [0, 0] quietEnv = .ret r
          ∧ r.err = none) :=
  Read_error_iff (freshWindow podCtx) (.ok ⟨"bogus", [], 0, 0⟩) [0, 0] quietEnv (by decide)

theorem nextN_closed_empty (k : Nat) :
    ∀ w : Window, w.sizeChan.inflight = [] → w.sizeChan.closed = true →
    w.nextN k = .ret (List.replicate k none, w) := by
  induction k with
  | zero => intro w _ _; rfl
  | succ k ih =>
    intro w hin hcl
    have hb : w.sizeChan.buf = [] := (List.append_eq_nil.mp hin).1
    have hq : w.sizeChan.sendq = [] := (List.append_eq_nil.mp hin).2
    have hr : chanRecv w.sizeChan = .ret (⟨0, 0⟩, w.sizeChan) := by
      simp [chanRecv, hb, hq, hcl]
    have hn : w.Next = .ret (none, w) := by
      simp [Window.Next, hr, Outcome.andThen]
    simp only [Window.nextN, hn, Outcome.andThen, ih w hin hcl, List.replicate_succ]

theorem nextN_add (a : Nat) :
    ∀ (w : Window) (b : Nat) (l1 : List (Option TerminalSize)) (w1 : Window),
    w.nextN a = .ret (l1, w1) →
    w.nextN (a + b) = (w1.nextN b).andThen fun q => .ret (l1 ++ q.1, q.2) := by
  induction a with
  | zero =>
    intro w b l1 w1 h
    simp only [Window.nextN] at h
    cases h
    simp only [Nat.zero_add, List.nil_append]
    cases w.nextN b <;> rfl
  | succ a ih =>
    intro w b l1 w1 h
    rw [Nat.succ_add]
    simp only [Window.nextN] at h ⊢
    cases hn : w.Next with
    | ret r =>
      rw [hn] at h
      simp only [Outcome.andThen] at h ⊢
      cases hr : r.2.nextN a with
      | ret q =>
        rw [hr] at h
        simp only at h
        cases h
        rw [ih r.2 b q.1 q.2 hr]
        cases q.2.nextN b <;> simp [Outcome.andThen]
      | panics s => rw [hr] at h; simp at h
      | blocks => rw [hr] at h; simp at h
    | panics s => rw [hn] at h; simp [Outcome.andThen] at h
    | blocks => rw [hn] at h; simp [Outcome.andThen] at h

/-- C4, as stated, fails: on a channel that buffers a size, the first `Next`
after `Close` returns that size, not nil. -/
theorem Next_after_Close_not_nil :
    ¬ ∀ (w : Window) (reason : String) (env : Env) (w1 : Window),
      w.Close reason env = .ret w1 → ∃ w2, w1.Next = .ret (none, w2) := by
  intro h
  obtain ⟨w2, h2⟩ := h bufferedWindow "Process finished" quietEnv
    { bufferedWindow with
      sizeChan := { buf := [⟨80, 24⟩], sendq := [], cap := 1, closed := true }
      conn := some { sent := [], closed := true } } (by decide)
  revert h2
  simp [Window.Next, chanRecv, Outcome.andThen]

/-- C4, amended: for every size s received from the size channel, `Next` returns
nil exactly when s.Height = 0 and s.Width = 0 and otherwise returns s; `Close`
returns on an open channel with a connection and no parked sender; after
`Close` the calls of `Next` return the sizes that were buffered at the `Close`,
each under the same rule, and nil from then on; in particular, with nothing
buffered (always so on the unbuffered channel of `HandleTerminal`) every `Next`
after `Close` returns nil. -/
theorem Next_nil_iff_zero (w : Window) :
    (∀ s c1, chanRecv w.sizeChan = .ret (s, c1) →
      w.Next = .ret (nilIfZero s, { w with sizeChan := c1 })
      ∧ (nilIfZero s = none ↔ s.Height = 0 ∧ s.Width = 0)
      ∧ (¬ (s.Height = 0 ∧ s.Width = 0) → nilIfZero s = some s))
    ∧ (w.sizeChan.closed = false → w.sizeChan.sendq = [] → w.conn ≠ none →
        ∀ reason env, ∃ w1, w.Close reason env = .ret w1)
    ∧ (∀ reason env w1, w.Close reason env = .ret w1 → w.sizeChan.wf → ∀ k, ∃ w2,
        w1.nextN (w.sizeChan.buf.length + k)
          = .ret (w.sizeChan.buf.map nilIfZero ++ List.replicate k none, w2))
    ∧ (∀ reason env w1, w.Close reason env = .ret w1 → w.sizeChan.buf = [] → ∀ k,
        w1.nextN k = .ret (List.replicate k none, w1)) := by
  have hclose : ∀ reason env w1, w.Close reason env = .ret w1 →
      w1.sizeChan = { w.sizeChan with closed := true, sendq := [] } := by
    intro reason env w1 h
    simp only [Window.Close, chanClose] at h
    by_cases hc : w.sizeChan.closed = true
    · simp [hc, Outcome.andThen] at h
    · by_cases hq : w.sizeChan.sendq = []
      · simp only [hc, hq, ne_eq, not_true_eq_false, Bool.false_eq_true, if_false,
          Outcome.andThen] at h
        cases hk : w.conn with
        | none => rw [hk] at h; simp at h
        | some k =>
          rw [hk] at h
          simp only at h
          cases h
          rfl
      · simp [hc, hq, Outcome.andThen] at h
  refine ⟨?_, ?_, ?_, ?_⟩
  · intro s c1 hr
    refine ⟨?_, ?_, ?_⟩
    · simp only [Window.Next, hr, Outcome.andThen, nilIfZero]
      by_cases hz : s.Height = 0 ∧ s.Width = 0
      · simp only [hz, and_self, if_true]
      · simp only [hz, if_false]
    · simp only [nilIfZero]
      by_cases hz : s.Height = 0 ∧ s.Width = 0
      · simp [hz]
      · simp only [hz, if_false]; simp
    · intro hz
      simp only [nilIfZero, hz, if_false]
  · intro hopen hq hconn reason env
    obtain ⟨k, hk⟩ := Option.ne_none_iff_exists'.mp hconn
    refine ⟨{ w with sizeChan := { w.sizeChan with closed := true }
                     conn := some { k with closed := true } }, ?_⟩
    simp [Window.Close, chanClose, hopen, hq, Outcome.andThen, hk]
  · intro reason env w1 h hwf k
    have hs := hclose reason env w1 h
    have hin : w1.sizeChan.inflight = w.sizeChan.buf := by rw [hs]; simp [Chan.inflight]
    have hwf1 : w1.sizeChan.wf := by rw [hs]; exact Or.inl rfl
    obtain ⟨w2, h2, he, hcl⟩ := nextN_inflight _ w1 hin hwf1
    have hcl2 : w2.sizeChan.closed = true := by rw [hcl, hs]
    refine ⟨w2, ?_⟩
    rw [nextN_add _ w1 k _ w2 h2, nextN_closed_empty k w2 he hcl2]
    rfl
  · intro reason env w1 h hb k
    have hs := hclose reason env w1 h
    exact nextN_closed_empty k w1 (by rw [hs]; simp [Chan.inflight, hb]) (by rw [hs])

theorem Write_ret (w : Window) (buffer : List Nat) (env : Env) (p : String) (k : Conn)
    (hp : w.ctx.path = some p)
    (hu : stringsContains p KubectlApi = true → w.ctx.username ≠ none)
    (hconn : w.conn = some k) :
    ∃ w1, w1.sizeChan = w.sizeChan ∧ w1.ctx = w.ctx ∧
      w.Write buffer env =
        match env.setDeadlineErr with
        | some e => .ret ⟨w1, 0, some e⟩
        | none =>
          match env.writeErr with
          | some e => .ret ⟨w1, 0, some e⟩
          | none => .ret ⟨{ w1 with conn := some { k with sent := k.sent ++
              [jsonMarshal ⟨"stdout", buffer, 200, 200⟩] } }, buffer.length, none⟩ := by
  obtain ⟨w1, hw1, hch, hc, hctx⟩ := renewIfTracked_ret w env p hp hu
  have hk : w1.conn = some k := hc.trans hconn
  refine ⟨w1, hch, hctx, ?_⟩
  simp only [Window.Write, hw1, Outcome.andThen, SetWriteDeadline, hk, WriteMessage]
  cases env.setDeadlineErr with
  | some e => rfl
  | none =>
    cases env.writeErr with
    | some e =>
      simp only [reduceCtorEq, if_false]
      have : ({ w1 with conn := some k } : Window) = w1 := by rw [← hk]
      rw [this]
    | none => simp only [reduceCtorEq, if_false]

/-- C6: on a window with a connection, whose context carries the path (and the
username when the path is renewal-tracked), `Write` returns; it returns
(len(buffer), nil) exactly when both setting the write deadline and sending the
frame succeed; when setting the deadline fails it returns 0 and that error;
when the deadline is set and the send fails it returns 0 and the send's error;
and it never returns a count below len(buffer) with a nil error. -/
theorem Write_full_count_or_error (w : Window) (buffer : List Nat) (env : Env) (p : String)
    (k : Conn) (hp : w.ctx.path = some p)
    (hu : stringsContains p KubectlApi = true → w.ctx.username ≠ none)
    (hconn : w.conn = some k) :
    ∃ r, w.Write buffer env = .ret r
      ∧ ((r.n = buffer.length ∧ r.err = none) ↔
          (env.setDeadlineErr = none ∧ env.writeErr = none))
      ∧ (∀ e, env.setDeadlineErr = some e → r.n = 0 ∧ r.err = some e)
      ∧ (∀ e, env.setDeadlineErr = none → env.writeErr = some e → r.n = 0 ∧ r.err = some e)
      ∧ ¬ (r.n < buffer.length ∧ r.err = none) := by
  obtain ⟨w1, -, -, h⟩ := Write_ret w buffer env p k hp hu hconn
  rw [h]
  cases hs : env.setDeadlineErr with
  | some e => exact ⟨_, rfl, by simp, by simp, by simp, by simp⟩
  | none =>
    cases hw : env.writeErr with
    | some e => exact ⟨_, rfl, by simp, by simp, by simp, by simp⟩
    | none => exact ⟨_, rfl, by simp, by simp, by simp, by simp⟩

/-- The count property of `Write` at a failing send. -/
theorem Write_full_count_or_error_witness :
    ∃ r, (freshWindow podCtx).Write [108, 115, 10]
          { quietEnv with writeErr := some ⟨"write: broken pipe", false⟩ } = .ret r
      ∧ ((r.n = [108, 115, 10].length ∧ r.err = none) ↔
          ({ quietEnv with writeErr := some ⟨"write: broken pipe", false⟩ }.setDeadlineErr = none
            ∧ { quietEnv with writeErr := some ⟨"write: broken pipe", false⟩ }.writeErr = none))
      ∧ (∀ e, { quietEnv with writeErr := some ⟨"write: broken pipe", false⟩ }.setDeadlineErr
            = some e → r.n = 0 ∧ r.err = some e)
      ∧ (∀ e, { quietEnv with writeErr := some ⟨"write: broken pipe", false⟩ }.setDeadlineErr
            = none →
          { quietEnv with writeErr := some ⟨"write: broken pipe", false⟩ }.writeErr = some e →
          r.n = 0 ∧ r.err = some e)
      ∧ ¬ (r.n < [108, 115, 10].length ∧ r.err = none) :=
  Write_full_count_or_error (freshWindow podCtx) [108, 115, 10]
    { quietEnv with writeErr := some ⟨"write: broken pipe", false⟩ }
    "/rest/webterminal/v1/namespace/a/pod/b/container/c/terminal" ⟨[], false⟩ rfl (by decide) rfl

/-- C7: whatever the container answers to the existence checks, `getShell`
checks "bash" first and, when that check succeeds, returns "bash" after that
one check; otherwise it checks "sh" and returns "sh" after exactly two checks
when that one succeeds, and "" after the two checks when neither does. A check
succeeds exactly when the executor was created, the stream ran and the captured
output is not empty. -/
theorem getShell_first_success (probe : String → ProbeReply) :
    (shellExists (probe "bash") = true → getShell probe = ("bash", ["bash"]))
    ∧ (shellExists (probe "bash") = false → shellExists (probe "sh") = true →
        getShell probe = ("sh", ["bash", "sh"]))
    ∧ (shellExists (probe "bash") = false → shellExists (probe "sh") = false →
        getShell probe = ("", ["bash", "sh"]))
    ∧ (∀ shell, shellExists (probe shell) = true ↔
        (probe shell).execErr = none ∧ (probe shell).streamErr = none
          ∧ 0 < (probe shell).output.length) := by
  refine ⟨?_, ?_, ?_, ?_⟩
  · intro h
    simp [getShell, getShellFrom, h]
  · intro h1 h2
    simp [getShell, getShellFrom, h1, h2]
  · intro h1 h2
    simp [getShell, getShellFrom, h1, h2]
  · intro shell
    unfold shellExists
    cases (probe shell).execErr with
    | some e => simp
    | none =>
      cases (probe shell).streamErr with
      | some e => simp
      | none => simp

theorem renewIfTracked_fields (w w1 : Window) (env : Env)
    (h : w.renewIfTracked env = .ret w1) :
    w1.sizeChan = w.sizeChan ∧ w1.conn = w.conn ∧ w1.ctx = w.ctx := by
  unfold Window.renewIfTracked at h
  cases hp : w.ctx.path with
  | none => rw [hp] at h; simp at h
  | some p =>
    rw [hp] at h
    simp only at h
    by_cases hc : stringsContains p KubectlApi = true
    · simp only [hc, if_true, Window.Renewtime] at h
      cases hn : w.ctx.username with
      | none => rw [hn] at h; simp at h
      | some u => rw [hn] at h; simp only at h; cases h; exact ⟨rfl, rfl, rfl⟩
    · simp only [hc] at h
      cases h
      exact ⟨rfl, rfl, rfl⟩

theorem chanSend_fields (c : Chan) (v : TerminalSize) (r : Chan × Bool)
    (h : chanSend c v = .ret r) : r.1.closed = c.closed ∧ r.1.cap = c.cap := by
  unfold chanSend at h
  by_cases hc : c.closed = true
  · simp [hc] at h
  · by_cases hl : c.buf.length < c.cap
    · simp only [hc, hl, Bool.false_eq_true, if_false, if_true] at h
      cases h; exact ⟨by simp [hc], rfl⟩
    · simp only [hc, hl, Bool.false_eq_true, if_false] at h
      cases h; exact ⟨by simp [hc], rfl⟩

theorem chanRecv_fields (c : Chan) (r : TerminalSize × Chan)
    (h : chanRecv c = .ret r) : r.2.closed = c.closed ∧ r.2.cap = c.cap := by
  unfold chanRecv at h
  split at h
  · cases h; exact ⟨rfl, rfl⟩
  · cases h; exact ⟨rfl, rfl⟩
  · cases h; exact ⟨rfl, rfl⟩
  · by_cases hc : c.closed = true
    · simp only [hc, if_true] at h; cases h; exact ⟨rfl, rfl⟩
    · simp [hc] at h

theorem Read_fields (w : Window) (rj : Except GoError Message) (buffer : List Nat) (env : Env)
    (r : ReadResult) (h : w.Read rj buffer env = .ret r) :
    r.w.sizeChan.closed = w.sizeChan.closed ∧ r.w.conn = w.conn := by
  cases rj with
  | error e => simp only [Window.Read] at h; cases h; exact ⟨rfl, rfl⟩
  | ok msg =>
    by_cases h1 : msg.Op = "stdin"
    · simp only [Window.Read, h1, if_true] at h
      cases hw : w.renewIfTracked env with
      | ret w1 =>
        rw [hw] at h
        simp only [Outcome.andThen] at h
        cases h
        obtain ⟨hs, hc, -⟩ := renewIfTracked_fields w w1 env hw
        exact ⟨by rw [hs], hc⟩
      | panics s => rw [hw] at h; simp [Outcome.andThen] at h
      | blocks => rw [hw] at h; simp [Outcome.andThen] at h
    · by_cases h2 : msg.Op = "resize"
      · simp only [Window.Read, h1, h2, if_true, if_false] at h
        cases hc : chanSend w.sizeChan { Width := msg.Cols, Height := msg.Rows } with
        | ret c =>
          rw [hc] at h
          simp only [Outcome.andThen] at h
          cases h
          exact ⟨(chanSend_fields _ _ _ hc).1, rfl⟩
        | panics s => rw [hc] at h; simp [Outcome.andThen] at h
        | blocks => rw [hc] at h; simp [Outcome.andThen] at h
      · simp only [Window.Read, h1, h2, if_false] at h
        cases h
        exact ⟨rfl, rfl⟩

theorem Write_fields (w : Window) (buffer : List Nat) (env : Env) (r : WriteResult)
    (h : w.Write buffer env = .ret r) :
    r.w.sizeChan.closed = w.sizeChan.closed ∧ r.w.conn.isSome = w.conn.isSome := by
  simp only [Window.Write] at h
  cases hw : w.renewIfTracked env with
  | panics s => rw [hw] at h; simp [Outcome.andThen] at h
  | blocks => rw [hw] at h; simp [Outcome.andThen] at h
  | ret w1 =>
    obtain ⟨hs, hc, -⟩ := renewIfTracked_fields w w1 env hw
    rw [hw] at h
    simp only [Outcome.andThen, SetWriteDeadline, WriteMessage] at h
    cases hk : w1.conn with
    | none => rw [hk] at h; simp at h
    | some k =>
      rw [hk] at h
      simp only [reduceCtorEq, if_false] at h
      cases hsd : env.setDeadlineErr with
      | some e =>
        rw [hsd] at h; simp only at h; cases h
        exact ⟨by rw [hs], by rw [hc]⟩
      | none =>
        rw [hsd] at h
        simp only at h
        cases hwe : env.writeErr with
        | some e =>
          rw [hwe] at h; simp only at h; cases h
          exact ⟨by rw [← hs], by rw [← hc, hk]⟩
        | none =>
          rw [hwe] at h; simp only at h; cases h
          exact ⟨by rw [← hs], by rw [← hc, hk]; rfl⟩

theorem Next_fields (w : Window) (r : Option TerminalSize × Window) (h : w.Next = .ret r) :
    r.2.sizeChan.closed = w.sizeChan.closed ∧ r.2.conn = w.conn := by
  simp only [Window.Next] at h
  cases hc : chanRecv w.sizeChan with
  | panics s => rw [hc] at h; simp [Outcome.andThen] at h
  | blocks => rw [hc] at h; simp [Outcome.andThen] at h
  | ret c =>
    rw [hc] at h
    simp only [Outcome.andThen] at h
    have hf := (chanRecv_fields _ _ hc).1
    split at h <;> (cases h; exact ⟨hf, rfl⟩)

theorem call_fields (w w1 : Window) (c : PersuoCall) (h : w.call c = .ret w1) :
    w1.sizeChan.closed = w.sizeChan.closed ∧ w1.conn.isSome = w.conn.isSome := by
  cases c with
  | read rj buffer env =>
    simp only [Window.call] at h
    cases hr : w.Read rj buffer env with
    | ret r =>
      rw [hr] at h; simp only [Outcome.andThen] at h; cases h
      obtain ⟨h1, h2⟩ := Read_fields w rj buffer env r hr
      exact ⟨h1, by rw [h2]⟩
    | panics s => rw [hr] at h; simp [Outcome.andThen] at h
    | blocks => rw [hr] at h; simp [Outcome.andThen] at h
  | write buffer env =>
    simp only [Window.call] at h
    cases hr : w.Write buffer env with
    | ret r =>
      rw [hr] at h; simp only [Outcome.andThen] at h; cases h
      exact Write_fields w buffer env r hr
    | panics s => rw [hr] at h; simp [Outcome.andThen] at h
    | blocks => rw [hr] at h; simp [Outcome.andThen] at h
  | next =>
    simp only [Window.call] at h
    cases hr : w.Next with
    | ret r =>
      rw [hr] at h; simp only [Outcome.andThen] at h; cases h
      obtain ⟨h1, h2⟩ := Next_fields w r hr
      exact ⟨h1, by rw [h2]⟩
    | panics s => rw [hr] at h; simp [Outcome.andThen] at h
    | blocks => rw [hr] at h; simp [Outcome.andThen] at h

theorem runCalls_fields (cs : List PersuoCall) :
    ∀ w w1 : Window, w.runCalls cs = .ret w1 →
    w1.sizeChan.closed = w.sizeChan.closed ∧ w1.conn.isSome = w.conn.isSome := by
  induction cs with
  | nil => intro w w1 h; simp only [Window.runCalls] at h; cases h; exact ⟨rfl, rfl⟩
  | cons c cs ih =>
    intro w w1 h
    simp only [Window.runCalls] at h
    cases hc : w.call c with
    | ret w2 =>
      rw [hc] at h
      obtain ⟨h1, h2⟩ := call_fields w w2 c hc
      obtain ⟨h3, h4⟩ := ih w2 w1 h
      exact ⟨h3.trans h1, h4.trans h2⟩
    | panics s => rw [hc] at h; simp at h
    | blocks => rw [hc] at h; exact ih w w1 h

theorem closeReasons_checks (l : List String) (es : List Event) :
    closeReasons (l.map Event.shellCheck ++ es) = closeReasons es := by
  induction l with
  | nil => rfl
  | cons a l ih => simpa [closeReasons] using ih

theorem startedCommands_checks (l : List String) (es : List Event) :
    startedCommands (l.map Event.shellCheck ++ es) = startedCommands es := by
  induction l with
  | nil => rfl
  | cons a l ih => simpa [startedCommands] using ih

theorem startProcess_fields (w w1 : Window) (env : TermEnv) (err : Option GoError)
    (h : startProcess w env = .ret (w1, err)) :
    w1.sizeChan.closed = w.sizeChan.closed ∧ w1.conn.isSome = w.conn.isSome := by
  unfold startProcess at h
  cases he : env.execErr with
  | some e => rw [he] at h; simp only at h; cases h; exact ⟨rfl, rfl⟩
  | none =>
    rw [he] at h
    simp only at h
    cases hr : w.runCalls env.calls with
    | ret w2 =>
      rw [hr] at h; simp only [Outcome.andThen] at h; cases h
      exact runCalls_fields _ w w1 hr
    | panics s => rw [hr] at h; simp [Outcome.andThen] at h
    | blocks => rw [hr] at h; simp [Outcome.andThen] at h

theorem Close_open (w : Window) (reason : String) (env : Env) (k : Conn)
    (hopen : w.sizeChan.closed = false) (hq : w.sizeChan.sendq = [])
    (hconn : w.conn = some k) :
    w.Close reason env = .ret { w with sizeChan := { w.sizeChan with closed := true }
                                       conn := some { k with closed := true } } := by
  simp [Window.Close, chanClose, hopen, hq, Outcome.andThen, hconn]

theorem Close_parked (w : Window) (reason : String) (env : Env)
    (hopen : w.sizeChan.closed = false) (hq : w.sizeChan.sendq ≠ []) :
    w.Close reason env = .panics "send on closed channel" := by
  simp [Window.Close, chanClose, hopen, hq, Outcome.andThen]

/-- C8: when a shell is found, the connection is there and `startProcess`
returns (w1, err), what `HandleTerminal` does from then on is exactly one call
of `Close` on w1, after which it returns; the calls it has made are the shell
checks, then `startProcess` with the shell found, then that `Close`, which is
the last call and the only `Close`. Its reason is err.Error() when err is
non-nil and not a context cancellation, and "Process finished" when err is nil
or a context cancellation. The size channel was open and the connection there
until then. When no `Read` is left parked on the size channel, the run returns
with the size channel closed and the connection closed; when a `Read` is still
parked on it, the closing of the channel makes that send panic and the run ends
with "send on closed channel". -/
theorem HandleTerminal_closes_once (ctx : Ctx) (conn : Option Conn) (env : TermEnv)
    (w1 : Window) (err : Option GoError)
    (hshell : (getShell env.probe).1 ≠ "") (hconn : conn.isSome = true)
    (hproc : startProcess (newWindow ctx conn) env = .ret (w1, err)) :
    ∃ reason k1,
      (∀ e, err = some e → e.canceled = false → reason = e.text)
      ∧ (∀ e, err = some e → e.canceled = true → reason = "Process finished")
      ∧ (err = none → reason = "Process finished")
      ∧ HandleTerminal ctx conn env
          = ((w1.Close reason env.closeEnv).andThen fun w2 =>
              .ret ((getShell env.probe).2.map Event.shellCheck ++
                [Event.startProcess [(getShell env.probe).1], Event.close reason], w2))
      ∧ closeReasons ((getShell env.probe).2.map Event.shellCheck ++
          [Event.startProcess [(getShell env.probe).1], Event.close reason]) = [reason]
      ∧ w1.sizeChan.closed = false ∧ w1.conn = some k1
      ∧ (w1.sizeChan.sendq = [] →
          HandleTerminal ctx conn env
            = .ret ((getShell env.probe).2.map Event.shellCheck ++
                [Event.startProcess [(getShell env.probe).1], Event.close reason],
              { w1 with sizeChan := { w1.sizeChan with closed := true }
                        conn := some { k1 with closed := true } }))
      ∧ (w1.sizeChan.sendq ≠ [] →
          HandleTerminal ctx conn env = .panics "send on closed channel") := by
  obtain ⟨hcl, hcn⟩ := startProcess_fields _ w1 env err hproc
  have hopen : w1.sizeChan.closed = false := by rw [hcl]; rfl
  have hsome : w1.conn.isSome = true := by rw [hcn]; exact hconn
  obtain ⟨k1, hk1⟩ := Option.isSome_iff_exists.mp hsome
  have key : ∀ reason : String,
      HandleTerminal ctx conn env
          = ((w1.Close reason env.closeEnv).andThen fun w2 =>
              .ret ((getShell env.probe).2.map Event.shellCheck ++
                [Event.startProcess [(getShell env.probe).1], Event.close reason], w2)) →
      (w1.sizeChan.sendq = [] →
          HandleTerminal ctx conn env
            = .ret ((getShell env.probe).2.map Event.shellCheck ++
                [Event.startProcess [(getShell env.probe).1], Event.close reason],
              { w1 with sizeChan := { w1.sizeChan with closed := true }
                        conn := some { k1 with closed := true } }))
      ∧ (w1.sizeChan.sendq ≠ [] →
          HandleTerminal ctx conn env = .panics "send on closed channel") := by
    intro reason heq
    refine ⟨fun hq => ?_, fun hq => ?_⟩
    · rw [heq, Close_open w1 reason env.closeEnv k1 hopen hq hk1]
      rfl
    · rw [heq, Close_parked w1 reason env.closeEnv hopen hq]
      rfl
  have hreasons : ∀ reason : String,
      closeReasons ((getShell env.probe).2.map Event.shellCheck ++
          [Event.startProcess [(getShell env.probe).1], Event.close reason]) = [reason] := by
    intro reason
    rw [closeReasons_checks]
    rfl
  cases err with
  | none =>
    have heq : HandleTerminal ctx conn env
          = ((w1.Close "Process finished" env.closeEnv).andThen fun w2 =>
              .ret ((getShell env.probe).2.map Event.shellCheck ++
                [Event.startProcess [(getShell env.probe).1],
                 Event.close "Process finished"], w2)) := by
      simp only [HandleTerminal, hshell, if_false, hproc, Outcome.andThen]
    exact ⟨"Process finished", k1, by simp, by simp, by simp, heq, hreasons _, hopen, hk1,
      key _ heq⟩
  | some e =>
    cases hcan : e.canceled with
    | true =>
      have heq : HandleTerminal ctx conn env
            = ((w1.Close "Process finished" env.closeEnv).andThen fun w2 =>
                .ret ((getShell env.probe).2.map Event.shellCheck ++
                  [Event.startProcess [(getShell env.probe).1],
                   Event.close "Process finished"], w2)) := by
        simp only [HandleTerminal, hshell, if_false, hproc, Outcome.andThen, hcan]
        simp
      refine ⟨"Process finished", k1, ?_, by simp, by simp, heq, hreasons _, hopen, hk1,
        key _ heq⟩
      intro e1 he1 hc1
      cases he1
      rw [hcan] at hc1
      cases hc1
    | false =>
      have heq : HandleTerminal ctx conn env
            = ((w1.Close e.text env.closeEnv).andThen fun w2 =>
                .ret ((getShell env.probe).2.map Event.shellCheck ++
                  [Event.startProcess [(getShell env.probe).1], Event.close e.text], w2)) := by
        simp only [HandleTerminal, hshell, if_false, hproc, Outcome.andThen, hcan]
        simp
      refine ⟨e.text, k1, ?_, ?_, by simp, heq, hreasons _, hopen, hk1, key _ heq⟩
      · intro e1 he1 _
        cases he1
        rfl
      · intro e1 he1 hc1
        cases he1
        rw [hcan] at hc1
        cases hc1

/-- C9: when no shell is found and the connection is there, `HandleTerminal`
returns, and the calls it has made are the shell checks, then one
`WriteMessage` with the text "404 LogError:  No valid shell found in the
container", then one `Close`; `startProcess` is not called; the frame is on the
wire when the transport accepted it; the size channel ends closed. -/
theorem HandleTerminal_no_shell (ctx : Ctx) (k : Conn) (env : TermEnv)
    (hshell : (getShell env.probe).1 = "") :
    ∃ w2,
      HandleTerminal ctx (some k) env = .ret ((getShell env.probe).2.map Event.shellCheck ++
        [Event.writeMessage noShellText, Event.close "No valid shell found"], w2)
      ∧ startedCommands ((getShell env.probe).2.map Event.shellCheck ++
        [Event.writeMessage noShellText, Event.close "No valid shell found"]) = []
      ∧ closeReasons ((getShell env.probe).2.map Event.shellCheck ++
        [Event.writeMessage noShellText, Event.close "No valid shell found"])
          = ["No valid shell found"]
      ∧ (env.noShellWriteErr = none →
          w2.conn = some { sent := k.sent ++ [noShellText], closed := true })
      ∧ (env.noShellWriteErr ≠ none → w2.conn = some { sent := k.sent, closed := true })
      ∧ w2.sizeChan.closed = true := by
  cases hw : env.noShellWriteErr with
  | none =>
    refine ⟨{ conn := some { sent := k.sent ++ [noShellText], closed := true },
              sizeChan := { buf := [], sendq := [], cap := 0, closed := true },
              ctx := ctx, storeCalls := [] }, ?_, ?_, ?_, ?_, ?_, ?_⟩
    · simp only [HandleTerminal, hshell, if_true, WriteMessage, hw, Outcome.andThen,
        Window.Close, chanClose, newWindow, makeChan]
      rfl
    · rw [startedCommands_checks]; rfl
    · rw [closeReasons_checks]; rfl
    · intro _; rfl
    · intro h; exact absurd rfl h
    · rfl
  | some e =>
    refine ⟨{ conn := some { sent := k.sent, closed := true },
              sizeChan := { buf := [], sendq := [], cap := 0, closed := true },
              ctx := ctx, storeCalls := [] }, ?_, ?_, ?_, ?_, ?_, ?_⟩
    · simp only [HandleTerminal, hshell, if_true, WriteMessage, hw, Outcome.andThen,
        Window.Close, chanClose, newWindow, makeChan]
      rfl
    · rw [startedCommands_checks]; rfl
    · rw [closeReasons_checks]; rfl
    · intro h; cases h
    · intro _; rfl
    · rfl

/-- A session whose only call is the `Read` of a resize leaves that `Read`
parked on the unbuffered size channel; the `Close` after `startProcess` then
makes the parked send panic. -/
theorem HandleTerminal_parked_read :
    startProcess (newWindow podCtx (some ⟨[], false⟩)) parkedSession
      = .ret ({ newWindow podCtx (some ⟨[], false⟩) with
                sizeChan := { buf := [], sendq := [⟨80, 24⟩], cap := 0, closed := false } },
              none)
    ∧ HandleTerminal podCtx (some ⟨[], false⟩) parkedSession
      = .panics "send on closed channel" := by
  constructor <;> decide

/-- The close property at the sample session in `sh`, which leaves no `Read` parked. -/
theorem HandleTerminal_closes_once_witness :
    ∃ reason k1,
      (∀ e, some (⟨"command terminated with exit code 130", false⟩ : GoError) = some e →
          e.canceled = false → reason = e.text)
      ∧ (∀ e, some (⟨"command terminated with exit code 130", false⟩ : GoError) = some e →
          e.canceled = true → reason = "Process finished")
      ∧ (some (⟨"command terminated with exit code 130", false⟩ : GoError) = none →
          reason = "Process finished")
      ∧ HandleTerminal podCtx (some ⟨[], false⟩) shSession
          = ((shSessionWindow.Close reason shSession.closeEnv).andThen fun w2 =>
              .ret ((getShell shSession.probe).2.map Event.shellCheck ++
                [Event.startProcess [(getShell shSession.probe).1], Event.close reason], w2))
      ∧ closeReasons ((getShell shSession.probe).2.map Event.shellCheck ++
          [Event.startProcess [(getShell shSession.probe).1], Event.close reason]) = [reason]
      ∧ shSessionWindow.sizeChan.closed = false ∧ shSessionWindow.conn = some k1
      ∧ (shSessionWindow.sizeChan.sendq = [] →
          HandleTerminal podCtx (some ⟨[], false⟩) shSession
            = .ret ((getShell shSession.probe).2.map Event.shellCheck ++
                [Event.startProcess [(getShell shSession.probe).1], Event.close reason],
              { shSessionWindow with
                  sizeChan := { shSessionWindow.sizeChan with closed := true }
                  conn := some { k1 with closed := true } }))
      ∧ (shSessionWindow.sizeChan.sendq ≠ [] →
          HandleTerminal podCtx (some ⟨[], false⟩) shSession
            = .panics "send on closed channel") :=
  HandleTerminal_closes_once podCtx (some ⟨[], false⟩) shSession shSessionWindow
    (some ⟨"command terminated with exit code 130", false⟩) (by decide) rfl (by decide)

/-- The no-shell property at a container without a shell. -/
theorem HandleTerminal_no_shell_witness :
    ∃ w2,
      HandleTerminal podCtx (some ⟨[], false⟩) noShellSession
        = .ret ((getShell noShellSession.probe).2.map Event.shellCheck ++
            [Event.writeMessage noShellText, Event.close "No valid shell found"], w2)
      ∧ startedCommands ((getShell noShellSession.probe).2.map Event.shellCheck ++
          [Event.writeMessage noShellText, Event.close "No valid shell found"]) = []
      ∧ closeReasons ((getShell noShellSession.probe).2.map Event.shellCheck ++
          [Event.writeMessage noShellText, Event.close "No valid shell found"])
            = ["No valid shell found"]
      ∧ (noShellSession.noShellWriteErr = none →
          w2.conn = some { sent := [] ++ [noShellText], closed := true })
      ∧ (noShellSession.noShellWriteErr ≠ none → w2.conn = some { sent := [], closed := true })
      ∧ w2.sizeChan.closed = true :=
  HandleTerminal_no_shell podCtx ⟨[], false⟩ noShellSession (by decide)

/-- C10: when the read of the record succeeds and the record's deletion
timestamp is zero, `HandleCusterTerminal` returns after exactly two calls, the
read of the record "openfuyao-<username>" and `startSessionWithPing` on the
user's pod and container; `CreateUserPod` is not run, so the trace holds no
create request and no pod read. -/
theorem HandleCusterTerminal_existing_record (username : String) (env : ClusterEnv)
    (r : Record) (hget : env.record = .ok r) (hzero : r.deletionTimestampIsZero = true) :
    HandleCusterTerminal username env
      = .ret [SessionEvent.getRecord UserPodNamespace ("openfuyao-" ++ username),
              SessionEvent.startSession UserPodNamespace ("openfuyao-" ++ username)
                UserContainerName]
    ∧ createdRecords [SessionEvent.getRecord UserPodNamespace ("openfuyao-" ++ username),
        SessionEvent.startSession UserPodNamespace ("openfuyao-" ++ username)
          UserContainerName] = []
    ∧ startedSessions [SessionEvent.getRecord UserPodNamespace ("openfuyao-" ++ username),
        SessionEvent.startSession UserPodNamespace ("openfuyao-" ++ username)
          UserContainerName] = ["openfuyao-" ++ username] := by
  refine ⟨?_, rfl, rfl⟩
  simp only [HandleCusterTerminal, hget, hzero, if_true]
  rfl

/-- The existing-record property at a sample store. -/
theorem HandleCusterTerminal_existing_record_witness :
    HandleCusterTerminal "alice" existingRecordEnv
      = .ret [SessionEvent.getRecord UserPodNamespace ("openfuyao-" ++ "alice"),
              SessionEvent.startSession UserPodNamespace ("openfuyao-" ++ "alice")
                UserContainerName]
    ∧ createdRecords [SessionEvent.getRecord UserPodNamespace ("openfuyao-" ++ "alice"),
        SessionEvent.startSession UserPodNamespace ("openfuyao-" ++ "alice")
          UserContainerName] = []
    ∧ startedSessions [SessionEvent.getRecord UserPodNamespace ("openfuyao-" ++ "alice"),
        SessionEvent.startSession UserPodNamespace ("openfuyao-" ++ "alice")
          UserContainerName] = ["openfuyao-" ++ "alice"] :=
  HandleCusterTerminal_existing_record "alice" existingRecordEnv
    { deletionTimestampIsZero := true, finalizers := [Finalizer] } rfl rfl

/-- The valid multi-byte sequences at the front of an input, by their width. -/
theorem decodeRune_valid_cases (b : Nat) (rest : List Nat) (hb : 0x80 ≤ b)
    (hv : decodeRune (b :: rest) ≠ (0xFFFD, 1)) :
    (∃ b1 t, rest = b1 :: t ∧ 0xC2 ≤ b ∧ b < 0xE0 ∧ 0x80 ≤ b1 ∧ b1 ≤ 0xBF)
    ∨ (∃ b1 b2 t, rest = b1 :: b2 :: t ∧ 0xE0 ≤ b ∧ b < 0xF0
        ∧ (if b = 0xE0 then 0xA0 else 0x80) ≤ b1 ∧ b1 ≤ (if b = 0xED then 0x9F else 0xBF)
        ∧ 0x80 ≤ b2 ∧ b2 ≤ 0xBF)
    ∨ (∃ b1 b2 b3 t, rest = b1 :: b2 :: b3 :: t ∧ 0xF0 ≤ b ∧ b < 0xF5
        ∧ (if b = 0xF0 then 0x90 else 0x80) ≤ b1 ∧ b1 ≤ (if b = 0xF4 then 0x8F else 0xBF)
        ∧ 0x80 ≤ b2 ∧ b2 ≤ 0xBF ∧ 0x80 ≤ b3 ∧ b3 ≤ 0xBF) := by
  have h80 : ¬ b < 0x80 := by omega
  by_cases hC2 : b < 0xC2
  · exact absurd (by simp [decodeRune, h80, hC2]) hv
  by_cases hE0 : b < 0xE0
  · left
    cases rest with
    | nil => exact absurd (by simp [decodeRune, h80, hC2, hE0]) hv
    | cons b1 t =>
      by_cases hc : 0x80 ≤ b1 ∧ b1 ≤ 0xBF
      · exact ⟨b1, t, rfl, by omega, hE0, hc.1, hc.2⟩
      · exact absurd (by simp only [decodeRune, h80, hC2, hE0, hc, if_false, if_true]) hv
  by_cases hF0 : b < 0xF0
  · right; left
    match rest with
    | [] => exact absurd (by simp [decodeRune, h80, hC2, hE0, hF0]) hv
    | [_] => exact absurd (by simp [decodeRune, h80, hC2, hE0, hF0]) hv
    | b1 :: b2 :: t =>
      by_cases hc : (if b = 0xE0 then 0xA0 else 0x80) ≤ b1
          ∧ b1 ≤ (if b = 0xED then 0x9F else 0xBF) ∧ 0x80 ≤ b2 ∧ b2 ≤ 0xBF
      · exact ⟨b1, b2, t, rfl, by omega, hF0, hc.1, hc.2.1, hc.2.2.1, hc.2.2.2⟩
      · exact absurd (by simp only [decodeRune, h80, hC2, hE0, hF0, hc, if_false, if_true]) hv
  by_cases hF5 : b < 0xF5
  · right; right
    match rest with
    | [] => exact absurd (by simp [decodeRune, h80, hC2, hE0, hF0, hF5]) hv
    | [_] => exact absurd (by simp [decodeRune, h80, hC2, hE0, hF0, hF5]) hv
    | [_, _] => exact absurd (by simp [decodeRune, h80, hC2, hE0, hF0, hF5]) hv
    | b1 :: b2 :: b3 :: t =>
      by_cases hc : (if b = 0xF0 then 0x90 else 0x80) ≤ b1
          ∧ b1 ≤ (if b = 0xF4 then 0x8F else 0xBF) ∧ 0x80 ≤ b2 ∧ b2 ≤ 0xBF
          ∧ 0x80 ≤ b3 ∧ b3 ≤ 0xBF
      · exact ⟨b1, b2, b3, t, rfl, by omega, hF5, hc.1, hc.2.1, hc.2.2.1, hc.2.2.2.1,
          hc.2.2.2.2.1, hc.2.2.2.2.2⟩
      · exact absurd
          (by simp only [decodeRune, h80, hC2, hE0, hF0, hF5, hc, if_false, if_true]) hv
  · exact absurd (by simp [decodeRune, h80, hC2, hE0, hF0, hF5]) hv

theorem decodeRune_two (b b1 : Nat) (t : List Nat) (h1 : 0xC2 ≤ b) (h2 : b < 0xE0)
    (h3 : 0x80 ≤ b1) (h4 : b1 ≤ 0xBF) :
    decodeRune (b :: b1 :: t) = (b % 32 * 64 + b1 % 64, 2) := by
  have h80 : ¬ b < 0x80 := by omega
  have hC2 : ¬ b < 0xC2 := by omega
  simp only [decodeRune, h80, hC2, h2, h3, h4, and_self, if_true, if_false]

theorem decodeRune_three (b b1 b2 : Nat) (t : List Nat) (h1 : 0xE0 ≤ b) (h2 : b < 0xF0)
    (h3 : (if b = 0xE0 then 0xA0 else 0x80) ≤ b1) (h4 : b1 ≤ (if b = 0xED then 0x9F else 0xBF))
    (h5 : 0x80 ≤ b2) (h6 : b2 ≤ 0xBF) :
    decodeRune (b :: b1 :: b2 :: t) = (b % 16 * 4096 + b1 % 64 * 64 + b2 % 64, 3) := by
  have h80 : ¬ b < 0x80 := by omega
  have hC2 : ¬ b < 0xC2 := by omega
  have hE0 : ¬ b < 0xE0 := by omega
  simp only [decodeRune, h80, hC2, hE0, h2, h3, h4, h5, h6, and_self, if_true, if_false]

theorem decodeRune_four (b b1 b2 b3 : Nat) (t : List Nat) (h1 : 0xF0 ≤ b) (h2 : b < 0xF5)
    (h3 : (if b = 0xF0 then 0x90 else 0x80) ≤ b1) (h4 : b1 ≤ (if b = 0xF4 then 0x8F else 0xBF))
    (h5 : 0x80 ≤ b2) (h6 : b2 ≤ 0xBF) (h7 : 0x80 ≤ b3) (h8 : b3 ≤ 0xBF) :
    decodeRune (b :: b1 :: b2 :: b3 :: t)
      = (b % 8 * 262144 + b1 % 64 * 4096 + b2 % 64 * 64 + b3 % 64, 4) := by
  have h80 : ¬ b < 0x80 := by omega
  have hC2 : ¬ b < 0xC2 := by omega
  have hE0 : ¬ b < 0xE0 := by omega
  have hF0 : ¬ b < 0xF0 := by omega
  simp only [decodeRune, h80, hC2, hE0, hF0, h2, h3, h4, h5, h6, h7, h8, and_self, if_true,
    if_false]

/-- A valid sequence is as long as its width says, and encoding its code point
gives the sequence back; the bytes behind it do not matter. -/
theorem decodeRune_valid_spec (b : Nat) (rest : List Nat) (hb : 0x80 ≤ b)
    (hv : decodeRune (b :: rest) ≠ (0xFFFD, 1)) :
    1 ≤ (decodeRune (b :: rest)).2
    ∧ (decodeRune (b :: rest)).2 - 1 ≤ rest.length
    ∧ utf8EncodeRune (decodeRune (b :: rest)).1 = b :: rest.take ((decodeRune (b :: rest)).2 - 1)
    ∧ ∀ y, decodeRune (b :: (rest.take ((decodeRune (b :: rest)).2 - 1) ++ y))
        = decodeRune (b :: rest) := by
  rcases decodeRune_valid_cases b rest hb hv with
    ⟨b1, t, rfl, h1, h2, h3, h4⟩ | ⟨b1, b2, t, rfl, h1, h2, h3, h4, h5, h6⟩
      | ⟨b1, b2, b3, t, rfl, h1, h2, h3, h4, h5, h6, h7, h8⟩
  · rw [decodeRune_two b b1 t h1 h2 h3 h4]
    refine ⟨by simp, by simp, ?_, ?_⟩
    · have hlo : ¬ (b % 32 * 64 + b1 % 64 < 0x80) := by omega
      have hhi : b % 32 * 64 + b1 % 64 < 0x800 := by omega
      simp only [utf8EncodeRune, hlo, hhi, if_true, if_false]
      simp only [Nat.add_one_sub_one, List.take_succ_cons, List.take_zero, List.cons.injEq,
        and_true]
      constructor <;> omega
    · intro y
      simp only [Nat.add_one_sub_one, List.take_succ_cons, List.take_zero, List.cons_append,
        List.nil_append]
      exact decodeRune_two b b1 y h1 h2 h3 h4
  · rw [decodeRune_three b b1 b2 t h1 h2 h3 h4 h5 h6]
    have h3' : 0x80 ≤ b1 := by split at h3 <;> omega
    have h4' : b1 ≤ 0xBF := by split at h4 <;> omega
    have h3'' : b = 0xE0 → 0xA0 ≤ b1 := by intro hb0; simpa [hb0] using h3
    refine ⟨by simp, by simp, ?_, ?_⟩
    · have hlo : ¬ (b % 16 * 4096 + b1 % 64 * 64 + b2 % 64 < 0x80) := by
        by_cases hb0 : b = 0xE0
        · have := h3'' hb0; omega
        · omega
      have hmid : ¬ (b % 16 * 4096 + b1 % 64 * 64 + b2 % 64 < 0x800) := by
        by_cases hb0 : b = 0xE0
        · have := h3'' hb0; omega
        · omega
      have hhi : b % 16 * 4096 + b1 % 64 * 64 + b2 % 64 < 0x10000 := by omega
      simp only [utf8EncodeRune, hlo, hmid, hhi, if_true, if_false]
      simp only [Nat.add_one_sub_one, List.take_succ_cons, List.take_zero, List.cons.injEq,
        and_true]
      refine ⟨?_, ?_, ?_⟩ <;> omega
    · intro y
      simp only [Nat.add_one_sub_one, List.take_succ_cons, List.take_zero, List.cons_append,
        List.nil_append]
      exact decodeRune_three b b1 b2 y h1 h2 h3 h4 h5 h6
  · rw [decodeRune_four b b1 b2 b3 t h1 h2 h3 h4 h5 h6 h7 h8]
    have h3' : 0x80 ≤ b1 := by split at h3 <;> omega
    have h4' : b1 ≤ 0xBF := by split at h4 <;> omega
    have h3'' : b = 0xF0 → 0x90 ≤ b1 := by intro hb0; simpa [hb0] using h3
    have h4'' : b = 0xF4 → b1 ≤ 0x8F := by intro hb0; simpa [hb0] using h4
    refine ⟨by simp, by simp, ?_, ?_⟩
    · have hmid : ¬ (b % 8 * 262144 + b1 % 64 * 4096 + b2 % 64 * 64 + b3 % 64 < 0x10000) := by
        by_cases hb0 : b = 0xF0
        · have := h3'' hb0; omega
        · omega
      have hlo : ¬ (b % 8 * 262144 + b1 % 64 * 4096 + b2 % 64 * 64 + b3 % 64 < 0x80) := by
        omega
      have hlo2 : ¬ (b % 8 * 262144 + b1 % 64 * 4096 + b2 % 64 * 64 + b3 % 64 < 0x800) := by
        omega
      simp only [utf8EncodeRune, hlo, hlo2, hmid, if_false]
      simp only [Nat.add_one_sub_one, List.take_succ_cons, List.take_zero, List.cons.injEq,
        and_true]
      refine ⟨?_, ?_, ?_, ?_⟩ <;> omega
    · intro y
      simp only [Nat.add_one_sub_one, List.take_succ_cons, List.take_zero, List.cons_append,
        List.nil_append]
      exact decodeRune_four b b1 b2 b3 y h1 h2 h3 h4 h5 h6 h7 h8

theorem unquoteAux_skip (l : List Nat) :
    ∀ y : List Nat, y ≠ [] → unquoteAux l.length (l ++ y) = unquoteAux 0 y := by
  induction l with
  | nil => intro y _; rfl
  | cons a l ih =>
    intro y hy
    simp only [List.length_cons, List.cons_append, unquoteAux]
    exact ih y hy

theorem unquoteAux_escapeByte (b : Nat) (hb : b < 0x80) (y : List Nat) :
    unquoteAux 0 (escapeByte b ++ y) = prepend [b] (unquoteAux 0 y) := by
  interval_cases b <;> first | rfl | (rw [unquoteAux.eq_def]; simp [escapeByte])

theorem unquoteAux_quote (tail : List Nat) : unquoteAux 0 (0x22 :: tail) = some ([], tail) := by
  rw [unquoteAux.eq_def]; simp

theorem unquoteAux_replacement (y : List Nat) :
    unquoteAux 0 ([0x5C, 0x75, 0x66, 0x66, 0x66, 0x64] ++ y)
      = prepend [0xEF, 0xBF, 0xBD] (unquoteAux 0 y) := by
  rfl

theorem unquoteAux_separator (d : Nat) (hd : d = 8 ∨ d = 9) (y : List Nat) :
    unquoteAux 0 ([0x5C, 0x75, 0x32, 0x30, 0x32, hexDigit d] ++ y)
      = prepend (utf8EncodeRune (0x2020 + d)) (unquoteAux 0 y) := by
  rcases hd with rfl | rfl <;> rfl

theorem unquoteAux_raw (b : Nat) (rest : List Nat) (hb : 0x80 ≤ b) :
    unquoteAux 0 (b :: rest)
      = prepend (utf8EncodeRune (decodeRune (b :: rest)).1)
          (unquoteAux ((decodeRune (b :: rest)).2 - 1) rest) := by
  have h1 : ¬ b = 0x22 := by omega
  have h2 : ¬ b = 0x5C := by omega
  have h3 : ¬ b < 0x20 := by omega
  have h4 : ¬ b < 0x80 := by omega
  rw [unquoteAux.eq_def]
  simp only [h1, h2, h3, h4, if_false]

/-- Reading back the body of a string the encoder wrote gives the coerced
bytes, and the input behind the closing quote. -/
theorem unquoteAux_appendStringAux (fuel : Nat) :
    ∀ src tail : List Nat, src.length ≤ fuel →
    unquoteAux 0 (appendStringAux fuel src ++ 0x22 :: tail) = some (coerceAux fuel src, tail) := by
  induction fuel with
  | zero =>
    intro src tail h
    simp only [appendStringAux, coerceAux, List.nil_append]
    exact unquoteAux_quote tail
  | succ fuel ih =>
    intro src tail h
    cases src with
    | nil =>
      simp only [appendStringAux, coerceAux, List.nil_append]
      exact unquoteAux_quote tail
    | cons b rest =>
      have hrest : rest.length ≤ fuel := by simpa using h
      by_cases hb : b < 0x80
      · have hd : decodeRune (b :: rest) = (b, 1) := by simp [decodeRune, hb]
        have hne : ¬ ((b, 1) = ((0xFFFD : Nat), 1)) := by
          intro h; injection h with h1; omega
        simp only [appendStringAux, coerceAux, hb, if_true, hd, hne, if_false,
          List.append_assoc, Nat.sub_self, List.drop_zero]
        rw [unquoteAux_escapeByte b hb, ih rest tail hrest]
        simp [prepend]
      · have hb80 : 0x80 ≤ b := by omega
        by_cases hv : decodeRune (b :: rest) = (0xFFFD, 1)
        · have hc : (decodeRune (b :: rest)).1 = 0xFFFD ∧ (decodeRune (b :: rest)).2 = 1 := by
            rw [hv]; exact ⟨rfl, rfl⟩
          simp only [appendStringAux, coerceAux, hb, if_false, hc, and_self, if_true, hv,
            List.append_assoc]
          rw [unquoteAux_replacement, ih rest tail hrest]
          simp [prepend]
        · obtain ⟨h1, h2, h3, h4⟩ := decodeRune_valid_spec b rest hb80 hv
          have hc : ¬ ((decodeRune (b :: rest)).1 = 0xFFFD ∧ (decodeRune (b :: rest)).2 = 1) := by
            intro hh
            exact hv (Prod.ext hh.1 hh.2)
          have hdrop : (rest.drop ((decodeRune (b :: rest)).2 - 1)).length ≤ fuel := by
            simp only [List.length_drop]; omega
          have htake : (b :: rest).take (decodeRune (b :: rest)).2
              = b :: rest.take ((decodeRune (b :: rest)).2 - 1) := by
            obtain ⟨n, hn⟩ : ∃ n, (decodeRune (b :: rest)).2 = n + 1 := ⟨_, (Nat.sub_add_cancel h1).symm⟩
            rw [hn]; simp
          simp only [appendStringAux, coerceAux, hb, if_false, hc, hv]
          by_cases hsep : (decodeRune (b :: rest)).1 = 0x2028 ∨ (decodeRune (b :: rest)).1 = 0x2029
          · simp only [hsep, if_true, List.append_assoc]
            have hd : (decodeRune (b :: rest)).1 % 16 = 8 ∨ (decodeRune (b :: rest)).1 % 16 = 9 := by
              rcases hsep with hs | hs <;> rw [hs] <;> simp
            have hr : 0x2020 + (decodeRune (b :: rest)).1 % 16 = (decodeRune (b :: rest)).1 := by
              rcases hsep with hs | hs <;> rw [hs]
            rw [unquoteAux_separator _ hd, hr, h3, ih _ tail hdrop, htake]
            simp [prepend]
          · simp only [hsep, if_false, htake, List.cons_append, List.append_assoc]
            rw [unquoteAux_raw b _ hb80, h4]
            have hlen : (rest.take ((decodeRune (b :: rest)).2 - 1)).length
                = (decodeRune (b :: rest)).2 - 1 := by
              simp only [List.length_take]; omega
            have hskip := unquoteAux_skip (rest.take ((decodeRune (b :: rest)).2 - 1))
              (appendStringAux fuel (rest.drop ((decodeRune (b :: rest)).2 - 1)) ++ 0x22 :: tail)
              (by simp)
            rw [hlen] at hskip
            rw [hskip, h3, ih _ tail hdrop]
            simp [prepend]

theorem coerceAux_valid (fuel : Nat) :
    ∀ src : List Nat, src.length ≤ fuel → validAux fuel src = true → coerceAux fuel src = src := by
  induction fuel with
  | zero =>
    intro src h _
    have : src = [] := List.length_eq_zero.mp (Nat.le_zero.mp h)
    subst this
    rfl
  | succ fuel ih =>
    intro src h hv
    cases src with
    | nil => rfl
    | cons b rest =>
      have hrest : rest.length ≤ fuel := by simpa using h
      simp only [validAux, Bool.and_eq_true, decide_eq_true_eq] at hv
      obtain ⟨hne, hv2⟩ := hv
      have hdrop : (rest.drop ((decodeRune (b :: rest)).2 - 1)).length ≤ fuel := by
        simp only [List.length_drop]; omega
      simp only [coerceAux, hne, if_false]
      rw [ih _ hdrop hv2]
      by_cases hb : b < 0x80
      · have hd : decodeRune (b :: rest) = (b, 1) := by simp [decodeRune, hb]
        simp [hd]
      · obtain ⟨h1, -, -, -⟩ := decodeRune_valid_spec b rest (by omega) hne
        obtain ⟨n, hn⟩ : ∃ n, (decodeRune (b :: rest)).2 = n + 1 :=
          ⟨_, (Nat.sub_add_cancel h1).symm⟩
        rw [hn]
        simp

theorem parseValue_string (src : List Nat) (d : Nat) (tail : List Nat) :
    parseValue (appendString src ++ d :: tail) = some (JValue.str (coerceUTF8 src), d :: tail) := by
  simp only [appendString, List.singleton_append, List.cons_append, List.append_assoc,
    List.nil_append, parseValue, if_true]
  rw [unquoteAux_appendStringAux src.length src (d :: tail) (Nat.le_refl _)]
  rfl

theorem parseValue_200 (d : Nat) (tail : List Nat) (hd : d = 0x2C ∨ d = 0x7D) :
    parseValue (decimal 200 ++ d :: tail) = some (JValue.num 200, d :: tail) := by
  rcases hd with rfl | rfl <;> rfl

theorem parseMembers_member (fuel : Nat) (m m1 : Message) (key val : List Nat) (v : JValue)
    (d : Nat) (rest2 : List Nat) (hkey : coerceUTF8 key = key)
    (hval : parseValue (val ++ d :: rest2) = some (v, d :: rest2))
    (hset : setField m key v = some m1) :
    parseMembers (fuel + 1) m (appendString key ++ 0x3A :: (val ++ d :: rest2))
      = if d = 0x7D ∧ rest2 = [] then some m1
        else if d = 0x2C then parseMembers fuel m1 rest2 else none := by
  simp only [appendString, List.singleton_append, List.cons_append, List.append_assoc,
    List.nil_append]
  rw [parseMembers.eq_def]
  simp only [if_true]
  rw [unquoteAux_appendStringAux key.length key _ (Nat.le_refl _)]
  have hk : coerceAux key.length key = key := hkey
  simp only [hk, if_true, hval, hset]

theorem jsonMarshal_members (m : Message) :
    jsonMarshal m = 0x7B :: (appendString (utf8 "Op") ++ 0x3A :: (appendString (utf8 m.Op)
      ++ 0x2C :: (appendString (utf8 "Data") ++ 0x3A :: (appendString m.Data
      ++ 0x2C :: (appendString (utf8 "Rows") ++ 0x3A :: (decimal m.Rows
      ++ 0x2C :: (appendString (utf8 "Cols") ++ 0x3A :: (decimal m.Cols ++ 0x7D :: [])))))))) := by
  simp [jsonMarshal, List.append_assoc]

theorem parseMembers_stdout (fuel : Nat) (b : List Nat) :
    parseMembers (fuel + 4) ⟨"", [], 0, 0⟩
      (appendString (utf8 "Op") ++ 0x3A :: (appendString (utf8 "stdout")
      ++ 0x2C :: (appendString (utf8 "Data") ++ 0x3A :: (appendString b
      ++ 0x2C :: (appendString (utf8 "Rows") ++ 0x3A :: (decimal 200
      ++ 0x2C :: (appendString (utf8 "Cols") ++ 0x3A :: (decimal 200 ++ 0x7D :: []))))))))
      = some ⟨"stdout", coerceUTF8 b, 200, 200⟩ := by
  rw [parseMembers_member (fuel + 3) _ _ (utf8 "Op") _ _ 0x2C _ (by decide)
    (parseValue_string (utf8 "stdout") 0x2C _) rfl]
  simp only [Nat.reduceEqDiff, false_and, if_false, if_true]
  rw [parseMembers_member (fuel + 2) _ _ (utf8 "Data") _ _ 0x2C _ (by decide)
    (parseValue_string b 0x2C _) rfl]
  simp only [Nat.reduceEqDiff, false_and, if_false, if_true]
  rw [parseMembers_member (fuel + 1) _ _ (utf8 "Rows") _ _ 0x2C _ (by decide)
    (parseValue_200 0x2C _ (Or.inl rfl)) rfl]
  simp only [Nat.reduceEqDiff, false_and, if_false, if_true]
  rw [parseMembers_member fuel _ _ (utf8 "Cols") _ _ 0x7D _ (by decide)
    (parseValue_200 0x7D _ (Or.inr rfl)) rfl]
  simp only [and_self, if_true]
  rfl

/-- Decoding the envelope `Write` marshals gives the op "stdout", the coerced
payload and the two dimensions 200. -/
theorem jsonUnmarshal_stdout (b : List Nat) :
    jsonUnmarshal (jsonMarshal ⟨"stdout", b, 200, 200⟩)
      = some ⟨"stdout", coerceUTF8 b, 200, 200⟩ := by
  rw [jsonMarshal_members]
  simp only [jsonUnmarshal, if_true]
  have hne : ¬ ((appendString (utf8 "Op") ++ 0x3A :: (appendString (utf8 "stdout")
      ++ 0x2C :: (appendString (utf8 "Data") ++ 0x3A :: (appendString b
      ++ 0x2C :: (appendString (utf8 "Rows") ++ 0x3A :: (decimal 200
      ++ 0x2C :: (appendString (utf8 "Cols") ++ 0x3A :: (decimal 200 ++ 0x7D :: []))))))))
      = [0x7D]) := by
    intro h
    have := congrArg List.head? h
    simp [appendString] at this
  rw [if_neg hne]
  have hlen : 4 ≤ (0x7B :: (appendString (utf8 "Op") ++ 0x3A :: (appendString (utf8 "stdout")
      ++ 0x2C :: (appendString (utf8 "Data") ++ 0x3A :: (appendString b
      ++ 0x2C :: (appendString (utf8 "Rows") ++ 0x3A :: (decimal 200
      ++ 0x2C :: (appendString (utf8 "Cols") ++ 0x3A :: (decimal 200 ++ 0x7D :: []))))))))).length := by
    simp only [List.length_cons, List.length_append]
    omega
  obtain ⟨n, hn⟩ : ∃ n, (0x7B :: (appendString (utf8 "Op") ++ 0x3A :: (appendString (utf8 "stdout")
      ++ 0x2C :: (appendString (utf8 "Data") ++ 0x3A :: (appendString b
      ++ 0x2C :: (appendString (utf8 "Rows") ++ 0x3A :: (decimal 200
      ++ 0x2C :: (appendString (utf8 "Cols") ++ 0x3A :: (decimal 200 ++ 0x7D :: []))))))))).length
      = n + 4 := ⟨_, (Nat.sub_add_cancel hlen).symm⟩
  rw [hn]
  exact parseMembers_stdout n b

/-- C5, as stated, fails: the frame `Write` sends for the single byte 0xFF
does not decode to a payload equal to that byte. -/
theorem Write_invalid_utf8_not_preserved :
    ¬ ∀ (b : List Nat) (r : WriteResult) (k : Conn),
      (freshWindow podCtx).Write b quietEnv = .ret r → r.w.conn = some k →
      k.sent.getLast?.bind jsonUnmarshal = some ⟨"stdout", b, 200, 200⟩ := by
  intro h
  have h1 := h [0xFF]
    ⟨{ freshWindow podCtx with
        conn := some { sent := [jsonMarshal ⟨"stdout", [0xFF], 200, 200⟩], closed := false } },
      1, none⟩
    { sent := [jsonMarshal ⟨"stdout", [0xFF], 200, 200⟩], closed := false } (by decide) rfl
  simp only [List.getLast?_singleton, Option.some_bind, jsonUnmarshal_stdout] at h1
  revert h1
  decide

/-- C5, amended: for every byte sequence b, the single text frame that a
successful `Write` of b sends decodes to Op = "stdout", Rows = 200, Cols = 200
and a Data that is b with every byte outside a valid UTF-8 sequence replaced by
U+FFFD; Data is b byte for byte whenever b is valid UTF-8; and a second `Write`
of the same b sends a second frame identical to the first. -/
theorem Write_frame_decodes (w : Window) (b : List Nat) (env : Env) (p : String) (k : Conn)
    (hp : w.ctx.path = some p)
    (hu : stringsContains p KubectlApi = true → w.ctx.username ≠ none)
    (hconn : w.conn = some k) (hset : env.setDeadlineErr = none)
    (hwr : env.writeErr = none) :
    ∃ r r2, w.Write b env = .ret r ∧ r.n = b.length ∧ r.err = none
      ∧ r.w.conn = some { k with sent := k.sent ++ [jsonMarshal ⟨"stdout", b, 200, 200⟩] }
      ∧ jsonUnmarshal (jsonMarshal ⟨"stdout", b, 200, 200⟩)
          = some ⟨"stdout", coerceUTF8 b, 200, 200⟩
      ∧ (validUTF8 b = true → coerceUTF8 b = b)
      ∧ r.w.Write b env = .ret r2
      ∧ r2.w.conn = some { k with sent := k.sent ++
          [jsonMarshal ⟨"stdout", b, 200, 200⟩, jsonMarshal ⟨"stdout", b, 200, 200⟩] } := by
  obtain ⟨w1, -, hctx, h1⟩ := Write_ret w b env p k hp hu hconn
  simp only [hset, hwr] at h1
  obtain ⟨w2, -, -, h2⟩ := Write_ret
    { w1 with conn := some { k with sent := k.sent ++ [jsonMarshal ⟨"stdout", b, 200, 200⟩] } }
    b env p { k with sent := k.sent ++ [jsonMarshal ⟨"stdout", b, 200, 200⟩] }
    (by simpa [hctx] using hp) (by simpa [hctx] using hu) rfl
  simp only [hset, hwr] at h2
  refine ⟨_, _, h1, rfl, rfl, rfl, jsonUnmarshal_stdout b, ?_, h2, ?_⟩
  · intro hv
    exact coerceAux_valid b.length b (Nat.le_refl _) hv
  · simp

/-- The frame property at a payload of valid UTF-8. -/
theorem Write_frame_decodes_witness :
    ∃ r r2, (freshWindow podCtx).Write [0xC3, 0xA9, 0x0A] quietEnv = .ret r
      ∧ r.n = [0xC3, 0xA9, 0x0A].length ∧ r.err = none
      ∧ r.w.conn = some { (⟨[], false⟩ : Conn) with
          sent := (⟨[], false⟩ : Conn).sent ++ [jsonMarshal ⟨"stdout", [0xC3, 0xA9, 0x0A], 200, 200⟩] }
      ∧ jsonUnmarshal (jsonMarshal ⟨"stdout", [0xC3, 0xA9, 0x0A], 200, 200⟩)
          = some ⟨"stdout", coerceUTF8 [0xC3, 0xA9, 0x0A], 200, 200⟩
      ∧ (validUTF8 [0xC3, 0xA9, 0x0A] = true → coerceUTF8 [0xC3, 0xA9, 0x0A] = [0xC3, 0xA9, 0x0A])
      ∧ r.w.Write [0xC3, 0xA9, 0x0A] quietEnv = .ret r2
      ∧ r2.w.conn = some { (⟨[], false⟩ : Conn) with sent := (⟨[], false⟩ : Conn).sent ++
          [jsonMarshal ⟨"stdout", [0xC3, 0xA9, 0x0A], 200, 200⟩,
           jsonMarshal ⟨"stdout", [0xC3, 0xA9, 0x0A], 200, 200⟩] } :=
  Write_frame_decodes (freshWindow podCtx) [0xC3, 0xA9, 0x0A] quietEnv
    "/rest/webterminal/v1/namespace/a/pod/b/container/c/terminal" ⟨[], false⟩ rfl (by decide)
    rfl rfl rfl

/-! ## Properties of the session handler -/

theorem createdRecords_append (a b : List SessionEvent) :
    createdRecords (a ++ b) = createdRecords a ++ createdRecords b := by
  induction a with
  | nil => rfl
  | cons e a ih => cases e <;> simp [createdRecords, ih]

theorem startedSessions_append (a b : List SessionEvent) :
    startedSessions (a ++ b) = startedSessions a ++ startedSessions b := by
  induction a with
  | nil => rfl
  | cons e a ih => cases e <;> simp [startedSessions, ih]

theorem createPoll_started (user : String) (ticks : List PodTick) :
    startedSessions (createPoll user ticks).1 = [] := by
  induction ticks with
  | nil => rfl
  | cons t ts ih =>
    simp only [createPoll]
    split
    · split
      · split
        · split
          · rfl
          · simpa [startedSessions] using ih
        · simpa [startedSessions] using ih
      · simpa [startedSessions] using ih
    · split
      · simpa [startedSessions] using ih
      · rfl

theorem createPoll_created (user : String) (ticks : List PodTick) :
    createdRecords (createPoll user ticks).1 = (createReplies ticks).map fun _ => user := by
  induction ticks with
  | nil => rfl
  | cons t ts ih =>
    simp only [createPoll, createReplies]
    split
    · split
      · split
        · split
          · rfl
          · simpa [createdRecords] using ih
        · simpa [createdRecords] using ih
      · simpa [createdRecords] using ih
    · split
      · simpa [createdRecords] using ih
      · rfl

theorem guardPoll_quiet (user : String) (ticks : List (Except StoreError Record)) :
    createdRecords (guardPoll user ticks).1 = [] ∧ startedSessions (guardPoll user ticks).1 = [] := by
  induction ticks with
  | nil => exact ⟨rfl, rfl⟩
  | cons t ts ih =>
    simp only [guardPoll]
    split
    · exact ⟨rfl, rfl⟩
    · split
      · exact ⟨rfl, rfl⟩
      · simpa [createdRecords, startedSessions] using ih

theorem HandleCusterTerminal_absent (username : String) (env : ClusterEnv) (e : StoreError)
    (hget : env.record = .error e) (himg : env.imageErr = none) :
    HandleCusterTerminal username env
      = .ret (SessionEvent.getRecord UserPodNamespace ("openfuyao-" ++ username)
          :: (createPoll ("openfuyao-" ++ username) env.podTicks).1
          ++ [SessionEvent.startSession UserPodNamespace ("openfuyao-" ++ username)
                UserContainerName]) := by
  simp only [HandleCusterTerminal, hget, CreateUserPod, himg, Outcome.andThen]
  rfl

/-- C11, as stated, fails: with no record for the subject and the pod of that
name already running and ready, the session is started and no record has been
created. -/
theorem HandleCusterTerminal_starts_without_record :
    ¬ ∀ (username : String) (env : ClusterEnv) (e : StoreError),
      env.record = .error e → env.imageErr = none →
      ∃ es, HandleCusterTerminal username env = .ret es
        ∧ startedSessions es = ["openfuyao-" ++ username]
        ∧ (createReplies env.podTicks).count none = 1 := by
  intro h
  obtain ⟨es, -, -, h3⟩ := h "alice" podReadyEnv ⟨⟨"not found", false⟩, true, false⟩ rfl rfl
  revert h3
  decide

theorem dedup_of_all_eq (a : String) :
    ∀ l : List String, (∀ x ∈ l, x = a) → l.dedup = if l = [] then [] else [a] := by
  intro l
  induction l with
  | nil => intro _; rfl
  | cons x xs ih =>
    intro h
    have hx : x = a := h x (List.mem_cons_self _ _)
    have hxs : ∀ y ∈ xs, y = a := fun y hy => h y (List.mem_cons_of_mem _ hy)
    subst hx
    cases xs with
    | nil => rfl
    | cons y ys =>
      have hy : y = x := hxs y (List.mem_cons_self _ _)
      have hmem : x ∈ y :: ys := by rw [hy]; exact List.mem_cons_self _ _
      rw [List.dedup_cons_of_mem hmem, ih hxs]
      simp

theorem createPoll_createRecord (user : String) (ticks : List PodTick) :
    ∀ ns n, SessionEvent.createRecord ns n ∈ (createPoll user ticks).1 →
      ns = UserPodNamespace ∧ n = user := by
  induction ticks with
  | nil => intro ns n h; simp [createPoll] at h
  | cons t ts ih =>
    intro ns n h
    simp only [createPoll] at h
    split at h
    · split at h
      · split at h
        · split at h
          · simp only [List.mem_cons, List.mem_singleton, List.not_mem_nil, or_false] at h
            rcases h with h | h
            · cases h
            · cases h; exact ⟨rfl, rfl⟩
          · simp only [List.mem_cons] at h
            rcases h with h | h | h
            · cases h
            · cases h; exact ⟨rfl, rfl⟩
            · exact ih ns n h
        · simp only [List.mem_cons] at h
          rcases h with h | h | h
          · cases h
          · cases h; exact ⟨rfl, rfl⟩
          · exact ih ns n h
      · simp only [List.mem_cons] at h
        rcases h with h | h
        · cases h
        · exact ih ns n h
    · split at h
      · simp only [List.mem_cons] at h
        rcases h with h | h
        · cases h
        · exact ih ns n h
      · simp only [List.mem_singleton] at h
        cases h

theorem createPoll_done (user : String) (ticks : List PodTick)
    (h : (createPoll user ticks).2 = none) :
    ∃ pre t post pod, ticks = pre ++ t :: post ∧ t.get = .ok pod
      ∧ pod.phase = "Running" ∧ isPodReady pod = true := by
  induction ticks with
  | nil => simp [createPoll] at h
  | cons t ts ih =>
    simp only [createPoll] at h
    have step : (createPoll user ts).2 = none →
        ∃ pre t1 post pod, t :: ts = pre ++ t1 :: post ∧ t1.get = .ok pod
          ∧ pod.phase = "Running" ∧ isPodReady pod = true := by
      intro h1
      obtain ⟨pre, t1, post, pod, hts, hg, hp, hr⟩ := ih h1
      exact ⟨t :: pre, t1, post, pod, by simp [hts], hg, hp, hr⟩
    split at h
    · split at h
      · split at h
        · split at h
          · simp at h
          · exact step h
        · exact step h
      · exact step h
    · rename_i pod hg
      split at h
      · exact step h
      · rename_i hcond
        have hp : pod.phase = "Running" := by
          by_contra hne
          exact hcond (Or.inl hne)
        have hr : isPodReady pod = true := by
          by_contra hne
          exact hcond (Or.inr hne)
        exact ⟨[], t, ts, pod, rfl, hg, hp, hr⟩

/-- C11, amended: for a subject whose record cannot be read and whose
provisioning poll succeeds, which it does only at an iteration that finds the
pod running and ready, `HandleCusterTerminal` runs `CreateUserPod` and then
starts the session. Every create request of the poll, at whatever iteration,
names the one record "openfuyao-<username>" in "openfuyao-system", so the
requests name at most one record however many iterations are performed. When
the first iteration finds no pod and the store accepts its create, that one
record has been created by the time the session starts; when the first
iteration finds the pod running and ready, no create has been requested. -/
theorem HandleCusterTerminal_creates_at_most_once (username : String) (env : ClusterEnv)
    (e : StoreError) (hget : env.record = .error e) (himg : env.imageErr = none)
    (hpoll : (createPoll ("openfuyao-" ++ username) env.podTicks).2 = none) :
    ∃ es, HandleCusterTerminal username env = .ret es
      ∧ startedSessions es = ["openfuyao-" ++ username]
      ∧ es.getLast? = some (SessionEvent.startSession UserPodNamespace
          ("openfuyao-" ++ username) UserContainerName)
      ∧ (∀ ns n, SessionEvent.createRecord ns n ∈ es →
          ns = "openfuyao-system" ∧ n = "openfuyao-" ++ username)
      ∧ (createdRecords es).length = (createReplies env.podTicks).length
      ∧ (createdRecords es).dedup.length ≤ 1
      ∧ (∀ t ts c, env.podTicks = t :: ts → t.get = .error c → c.notFound = true →
          t.createErr = none →
          (createReplies env.podTicks).head? = some none
          ∧ (createdRecords es).dedup = ["openfuyao-" ++ username])
      ∧ (∀ t ts pod, env.podTicks = t :: ts → t.get = .ok pod → pod.phase = "Running" →
          isPodReady pod = true → createdRecords es = [])
      ∧ (∃ pre t post pod, env.podTicks = pre ++ t :: post ∧ t.get = .ok pod
          ∧ pod.phase = "Running" ∧ isPodReady pod = true) := by
  have hcr : createdRecords
      (SessionEvent.getRecord UserPodNamespace ("openfuyao-" ++ username)
        :: (createPoll ("openfuyao-" ++ username) env.podTicks).1
        ++ [SessionEvent.startSession UserPodNamespace ("openfuyao-" ++ username)
              UserContainerName])
      = (createReplies env.podTicks).map (fun _ => "openfuyao-" ++ username) := by
    simp [createdRecords, createdRecords_append, createPoll_created]
  have hall : ∀ x ∈ (createReplies env.podTicks).map (fun _ => "openfuyao-" ++ username),
      x = "openfuyao-" ++ username := by
    intro x hx
    obtain ⟨_, _, rfl⟩ := List.mem_map.mp hx
    rfl
  refine ⟨_, HandleCusterTerminal_absent username env e hget himg, ?_, ?_, ?_, ?_, ?_, ?_, ?_,
    createPoll_done _ _ hpoll⟩
  · simp [startedSessions, startedSessions_append, createPoll_started]
  · first
      | exact List.getLast?_concat _ _
      | exact List.getLast?_append_singleton _ _
      | simp [List.getLast?_eq_getLast]
  · intro ns n hmem
    simp only [List.cons_append, List.mem_cons, List.mem_append, List.mem_singleton,
      List.not_mem_nil, or_false] at hmem
    rcases hmem with h | h | h
    · cases h
    · exact createPoll_createRecord _ _ ns n h
    · cases h
  · rw [hcr, List.length_map]
  · rw [hcr, dedup_of_all_eq _ _ hall]
    split <;> simp
  · intro t ts c hticks hg hnf hc
    have hrep : createReplies env.podTicks = none :: createReplies ts := by
      rw [hticks]
      simp [createReplies, hg, hnf, hc]
    refine ⟨by rw [hrep]; rfl, ?_⟩
    rw [hcr, dedup_of_all_eq _ _ hall, hrep]
    simp
  · intro t ts pod hticks hg hrun hready
    rw [hcr, hticks]
    simp [createReplies, hg, hrun, hready]

/-- The create-once property at a store where the create succeeds at the first
iteration and the pod is ready at the third. -/
theorem HandleCusterTerminal_creates_at_most_once_witness :
    ∃ es, HandleCusterTerminal "alice" provisionEnv = .ret es
      ∧ startedSessions es = ["openfuyao-" ++ "alice"]
      ∧ es.getLast? = some (SessionEvent.startSession UserPodNamespace
          ("openfuyao-" ++ "alice") UserContainerName)
      ∧ (∀ ns n, SessionEvent.createRecord ns n ∈ es →
          ns = "openfuyao-system" ∧ n = "openfuyao-" ++ "alice")
      ∧ (createdRecords es).length = (createReplies provisionEnv.podTicks).length
      ∧ (createdRecords es).dedup.length ≤ 1
      ∧ (∀ t ts c, provisionEnv.podTicks = t :: ts → t.get = .error c → c.notFound = true →
          t.createErr = none →
          (createReplies provisionEnv.podTicks).head? = some none
          ∧ (createdRecords es).dedup = ["openfuyao-" ++ "alice"])
      ∧ (∀ t ts pod, provisionEnv.podTicks = t :: ts → t.get = .ok pod →
          pod.phase = "Running" → isPodReady pod = true → createdRecords es = [])
      ∧ (∃ pre t post pod, provisionEnv.podTicks = pre ++ t :: post ∧ t.get = .ok pod
          ∧ pod.phase = "Running" ∧ isPodReady pod = true) :=
  HandleCusterTerminal_creates_at_most_once "alice" provisionEnv
    ⟨⟨"not found", false⟩, true, false⟩ rfl rfl (by decide)

/-- C12: when the record read has a non-zero deletion timestamp and carries the
finalizer, and the guard wait ends with an error, `HandleCusterTerminal` returns
after the reads of the record alone: `CreateUserPod` is not run, no create and
no pod read is requested, and no session is started. A wait during which every
read still shows the finalizer ends with the deadline error. -/
theorem HandleCusterTerminal_guard_timeout (username : String) (env : ClusterEnv) (r : Record)
    (err : GoError) (hget : env.record = .ok r) (hdel : r.deletionTimestampIsZero = false)
    (hfin : ContainsFinalizer r Finalizer = true)
    (hpoll : (guardPoll ("openfuyao-" ++ username) env.guardTicks).2 = some err) :
    HandleCusterTerminal username env
      = .ret (SessionEvent.getRecord UserPodNamespace ("openfuyao-" ++ username)
          :: (guardPoll ("openfuyao-" ++ username) env.guardTicks).1)
    ∧ createdRecords (SessionEvent.getRecord UserPodNamespace ("openfuyao-" ++ username)
          :: (guardPoll ("openfuyao-" ++ username) env.guardTicks).1) = []
    ∧ startedSessions (SessionEvent.getRecord UserPodNamespace ("openfuyao-" ++ username)
          :: (guardPoll ("openfuyao-" ++ username) env.guardTicks).1) = []
    ∧ (∀ e ∈ (guardPoll ("openfuyao-" ++ username) env.guardTicks).1,
        e = SessionEvent.getRecord UserPodNamespace ("openfuyao-" ++ username))
    ∧ ((∀ t ∈ env.guardTicks, ∃ r1, t = .ok r1 ∧ ContainsFinalizer r1 Finalizer = true) →
        err = deadlineExceeded) := by
  have huser : "openfuyao" ++ "-" ++ username = "openfuyao-" ++ username := rfl
  refine ⟨?_, ?_, ?_, ?_, ?_⟩
  · simp only [HandleCusterTerminal, hget, hdel, hfin, if_true, huser, hpoll]
    simp
  · simp [createdRecords, (guardPoll_quiet _ _).1]
  · simp [startedSessions, (guardPoll_quiet _ _).2]
  · generalize env.guardTicks = ticks
    induction ticks with
    | nil => intro e he; simp [guardPoll] at he
    | cons t ts ih =>
      intro e he
      simp only [guardPoll] at he
      split at he
      · simpa using he
      · split at he
        · simpa using he
        · rcases List.mem_cons.mp he with h1 | h1
          · exact h1
          · exact ih e h1
  · intro hall
    have key : ∀ ticks : List (Except StoreError Record),
        (∀ t ∈ ticks, ∃ r1, t = .ok r1 ∧ ContainsFinalizer r1 Finalizer = true) →
        (guardPoll ("openfuyao-" ++ username) ticks).2 = some deadlineExceeded := by
      intro ticks
      induction ticks with
      | nil => intro _; rfl
      | cons t ts ih =>
        intro h
        obtain ⟨r1, rfl, hf⟩ := h t (List.mem_cons_self _ _)
        simp only [guardPoll, hf, not_true_eq_false, if_false]
        exact ih fun x hx => h x (List.mem_cons_of_mem _ hx)
    rw [key _ hall] at hpoll
    exact (Option.some.inj hpoll).symm

/-- The guard-timeout property at a record that keeps its finalizer. -/
theorem HandleCusterTerminal_guard_timeout_witness :
    HandleCusterTerminal "alice" stuckEnv
      = .ret (SessionEvent.getRecord UserPodNamespace ("openfuyao-" ++ "alice")
          :: (guardPoll ("openfuyao-" ++ "alice") stuckEnv.guardTicks).1)
    ∧ createdRecords (SessionEvent.getRecord UserPodNamespace ("openfuyao-" ++ "alice")
          :: (guardPoll ("openfuyao-" ++ "alice") stuckEnv.guardTicks).1) = []
    ∧ startedSessions (SessionEvent.getRecord UserPodNamespace ("openfuyao-" ++ "alice")
          :: (guardPoll ("openfuyao-" ++ "alice") stuckEnv.guardTicks).1) = []
    ∧ (∀ e ∈ (guardPoll ("openfuyao-" ++ "alice") stuckEnv.guardTicks).1,
        e = SessionEvent.getRecord UserPodNamespace ("openfuyao-" ++ "alice"))
    ∧ ((∀ t ∈ stuckEnv.guardTicks, ∃ r1, t = .ok r1 ∧ ContainsFinalizer r1 Finalizer = true) →
        deadlineExceeded = deadlineExceeded) :=
  HandleCusterTerminal_guard_timeout "alice" stuckEnv
    { deletionTimestampIsZero := false, finalizers := [Finalizer] } deadlineExceeded
    rfl rfl (by decide) (by decide)

/-- C13, on the code: for a record in deletion whose teardown completes during
the guard wait, so that the second read reports not-found, `HandleCusterTerminal`
returns after the three reads of the record, without a create and without a
session. -/
theorem HandleCusterTerminal_aborts_when_record_vanishes :
    HandleCusterTerminal "alice" vanishedEnv
      = .ret [SessionEvent.getRecord UserPodNamespace "openfuyao-alice",
              SessionEvent.getRecord UserPodNamespace "openfuyao-alice",
              SessionEvent.getRecord UserPodNamespace "openfuyao-alice"]
    ∧ (∀ es, HandleCusterTerminal "alice" vanishedEnv = .ret es →
        createdRecords es = [] ∧ startedSessions es = []) := by
  refine ⟨by decide, ?_⟩
  intro es h
  have h0 : HandleCusterTerminal "alice" vanishedEnv
      = .ret [SessionEvent.getRecord UserPodNamespace "openfuyao-alice",
              SessionEvent.getRecord UserPodNamespace "openfuyao-alice",
              SessionEvent.getRecord UserPodNamespace "openfuyao-alice"] := by decide
  rw [h0] at h
  cases h
  exact ⟨rfl, rfl⟩

/-- C14, on the code: with no record for the subject and a create that the
store refuses, the polling of `CreateUserPod` ends with that error, and
`HandleCusterTerminal` goes on to start the session. -/
theorem HandleCusterTerminal_starts_after_failed_provisioning :
    (createPoll "openfuyao-alice" forbiddenEnv.podTicks).2 = some ⟨"forbidden", false⟩
    ∧ HandleCusterTerminal "alice" forbiddenEnv
      = .ret [SessionEvent.getRecord UserPodNamespace "openfuyao-alice",
              SessionEvent.getPod "openfuyao-system" "openfuyao-alice",
              SessionEvent.createRecord UserPodNamespace "openfuyao-alice",
              SessionEvent.startSession UserPodNamespace "openfuyao-alice" UserContainerName]
    ∧ (createPoll "openfuyao-alice" ([] : List PodTick)).2 = some deadlineExceeded
    ∧ HandleCusterTerminal "alice" { forbiddenEnv with podTicks := [] }
      = .ret [SessionEvent.getRecord UserPodNamespace "openfuyao-alice",
              SessionEvent.startSession UserPodNamespace "openfuyao-alice" UserContainerName] := by
  refine ⟨by decide, by decide, rfl, by decide⟩

/-! ## Properties of the renewal -/

theorem containsChars_iff_segment (sub : List Char) :
    ∀ s : List Char, containsChars s sub = true ↔ sub <:+: s := by
  intro s
  induction s with
  | nil => simp [containsChars, List.isEmpty_iff]
  | cons c s ih =>
    simp only [containsChars, Bool.or_eq_true, List.isPrefixOf_iff_prefix, ih,
      List.infix_cons_iff]

theorem stringsContains_of_prefix (s sub : String) (h : sub.data <+: s.data) :
    stringsContains s sub = true := by
  unfold stringsContains
  rw [containsChars_iff_segment]
  exact h.isInfix

theorem Renewtime_ret (w : Window) (env : Env) (u : String) (hu : w.ctx.username = some u) :
    w.Renewtime env = .ret { w with storeCalls := w.storeCalls ++ renewalCalls u env } := by
  simp only [Window.Renewtime, hu, renewalCalls]

theorem renewIfTracked_calls (w : Window) (env : Env) (p u : String)
    (hp : w.ctx.path = some p) (hu : w.ctx.username = some u) :
    w.renewIfTracked env = .ret { w with storeCalls := w.storeCalls ++
      (if stringsContains p KubectlApi = true then renewalCalls u env else []) } := by
  unfold Window.renewIfTracked
  rw [hp]
  by_cases hc : stringsContains p KubectlApi = true
  · simp only [hc, if_true, Renewtime_ret w env u hu]
  · have hf : stringsContains p KubectlApi = false := by simpa using hc
    obtain ⟨c, s, x, l⟩ := w
    simp [hf]

theorem Write_storeCalls (w : Window) (b : List Nat) (env : Env) (p u : String) (k : Conn)
    (hp : w.ctx.path = some p) (hu : w.ctx.username = some u) (hk : w.conn = some k) :
    ∃ r, w.Write b env = .ret r ∧ r.w.storeCalls = w.storeCalls ++
      (if stringsContains p KubectlApi = true then renewalCalls u env else []) := by
  simp only [Window.Write, renewIfTracked_calls w env p u hp hu, Outcome.andThen,
    SetWriteDeadline, hk, WriteMessage]
  cases env.setDeadlineErr with
  | some e => exact ⟨_, rfl, rfl⟩
  | none =>
    cases env.writeErr with
    | some e =>
      simp only [reduceCtorEq, if_false]
      exact ⟨_, rfl, rfl⟩
    | none =>
      simp only [reduceCtorEq, if_false]
      exact ⟨_, rfl, rfl⟩

theorem Read_stdin_storeCalls (w : Window) (msg : Message) (buffer : List Nat) (env : Env)
    (p u : String) (hop : msg.Op = "stdin")
    (hp : w.ctx.path = some p) (hu : w.ctx.username = some u) :
    ∃ r, w.Read (.ok msg) buffer env = .ret r ∧ r.w.storeCalls = w.storeCalls ++
      (if stringsContains p KubectlApi = true then renewalCalls u env else []) := by
  simp only [Window.Read, hop, if_true, renewIfTracked_calls w env p u hp hu, Outcome.andThen]
  exact ⟨_, rfl, rfl⟩

theorem Read_other_storeCalls (w : Window) (rj : Except GoError Message) (buffer : List Nat)
    (env : Env) (r : ReadResult) (hno : ∀ msg, rj = .ok msg → msg.Op ≠ "stdin")
    (h : w.Read rj buffer env = .ret r) : r.w.storeCalls = w.storeCalls := by
  cases rj with
  | error e => simp only [Window.Read] at h; cases h; rfl
  | ok msg =>
    have h1 : ¬ msg.Op = "stdin" := hno msg rfl
    by_cases h2 : msg.Op = "resize"
    · simp only [Window.Read, h1, h2, if_true, if_false] at h
      cases hc : chanSend w.sizeChan { Width := msg.Cols, Height := msg.Rows } with
      | ret c => rw [hc] at h; simp only [Outcome.andThen] at h; cases h; rfl
      | panics s => rw [hc] at h; simp [Outcome.andThen] at h
      | blocks => rw [hc] at h; simp [Outcome.andThen] at h
    · simp only [Window.Read, h1, h2, if_false] at h
      cases h
      rfl

/-- C15, as stated, fails: with a path that holds the marker
"/rest/webterminal/v1/user/" behind another segment, so not as a prefix, `Write`
does issue the store requests of a renewal. -/
theorem Write_renews_without_prefix :
    ¬ ∀ (w : Window) (b : List Nat) (env : Env) (p u : String) (k : Conn),
      w.ctx.path = some p → w.ctx.username = some u → w.conn = some k →
      ∃ r, w.Write b env = .ret r
        ∧ (r.w.storeCalls ≠ w.storeCalls ↔ KubectlApi.data <+: p.data) := by
  intro h
  obtain ⟨r, hr, hiff⟩ := h (freshWindow proxiedCtx) [97] quietEnv
    "/proxy/rest/webterminal/v1/user/alice/terminal" "alice" ⟨[], false⟩ rfl rfl rfl
  obtain ⟨r2, hr2, hcalls⟩ := Write_storeCalls (freshWindow proxiedCtx) [97] quietEnv
    "/proxy/rest/webterminal/v1/user/alice/terminal" "alice" ⟨[], false⟩ rfl rfl rfl
  rw [hr] at hr2
  cases hr2
  have hne : r.w.storeCalls ≠ (freshWindow proxiedCtx).storeCalls := by
    rw [hcalls]
    decide
  have hpre := hiff.mp hne
  revert hpre
  decide

/-- C15, amended: with a context that carries the path p and a username,
`Write`, and `Read` on a stdin message, issue the two store requests of a
renewal exactly when p contains "/rest/webterminal/v1/user/" as a substring, so
in particular whenever p has it as a prefix, and issue none otherwise; a `Read`
of a resize message, of a message with another op, or a failed read issues none. -/
theorem renewal_iff_path_contains (w : Window) (env : Env) (p u : String)
    (hp : w.ctx.path = some p) (hu : w.ctx.username = some u) :
    (∀ b k, w.conn = some k → ∃ r, w.Write b env = .ret r ∧ r.w.storeCalls = w.storeCalls ++
        (if stringsContains p KubectlApi = true then renewalCalls u env else []))
    ∧ (∀ msg buffer, msg.Op = "stdin" → ∃ r, w.Read (.ok msg) buffer env = .ret r
        ∧ r.w.storeCalls = w.storeCalls ++
          (if stringsContains p KubectlApi = true then renewalCalls u env else []))
    ∧ (∀ rj buffer r, (∀ msg, rj = .ok msg → msg.Op ≠ "stdin") →
        w.Read rj buffer env = .ret r → r.w.storeCalls = w.storeCalls)
    ∧ (stringsContains p KubectlApi = true ↔ KubectlApi.data <:+: p.data)
    ∧ (KubectlApi.data <+: p.data → stringsContains p KubectlApi = true)
    ∧ renewalCalls u env ≠ [] := by
  refine ⟨?_, ?_, ?_, ?_, ?_, ?_⟩
  · intro b k hk
    exact Write_storeCalls w b env p u k hp hu hk
  · intro msg buffer hop
    exact Read_stdin_storeCalls w msg buffer env p u hop hp hu
  · intro rj buffer r hno h
    exact Read_other_storeCalls w rj buffer env r hno h
  · exact containsChars_iff_segment _ _
  · exact stringsContains_of_prefix p KubectlApi
  · simp [renewalCalls]

/-- The renewal property at the context of the personal-workload route. -/
theorem renewal_iff_path_contains_witness :
    (∀ b k, (freshWindow userCtx).conn = some k → ∃ r,
        (freshWindow userCtx).Write b quietEnv = .ret r
        ∧ r.w.storeCalls = (freshWindow userCtx).storeCalls ++
          (if stringsContains "/rest/webterminal/v1/user/alice/terminal" KubectlApi = true
            then renewalCalls "alice" quietEnv else []))
    ∧ (∀ msg buffer, msg.Op = "stdin" → ∃ r,
        (freshWindow userCtx).Read (.ok msg) buffer quietEnv = .ret r
        ∧ r.w.storeCalls = (freshWindow userCtx).storeCalls ++
          (if stringsContains "/rest/webterminal/v1/user/alice/terminal" KubectlApi = true
            then renewalCalls "alice" quietEnv else []))
    ∧ (∀ rj buffer r, (∀ msg, rj = .ok msg → msg.Op ≠ "stdin") →
        (freshWindow userCtx).Read rj buffer quietEnv = .ret r →
        r.w.storeCalls = (freshWindow userCtx).storeCalls)
    ∧ (stringsContains "/rest/webterminal/v1/user/alice/terminal" KubectlApi = true
        ↔ KubectlApi.data <:+: "/rest/webterminal/v1/user/alice/terminal".data)
    ∧ (KubectlApi.data <+: "/rest/webterminal/v1/user/alice/terminal".data →
        stringsContains "/rest/webterminal/v1/user/alice/terminal" KubectlApi = true)
    ∧ renewalCalls "alice" quietEnv ≠ [] :=
  renewal_iff_path_contains (freshWindow userCtx) quietEnv
    "/rest/webterminal/v1/user/alice/terminal" "alice" rfl rfl

theorem Write_explicit (w : Window) (b : List Nat) (env : Env) (p u : String) (k : Conn)
    (hp : w.ctx.path = some p) (hu : w.ctx.username = some u) (hk : w.conn = some k) :
    w.Write b env =
      match env.setDeadlineErr with
      | some e => .ret ⟨{ w with conn := some k, storeCalls := w.storeCalls ++
          (if stringsContains p KubectlApi = true then renewalCalls u env else []) }, 0, some e⟩
      | none =>
        match env.writeErr with
        | some e => .ret ⟨{ w with conn := some k, storeCalls := w.storeCalls ++
            (if stringsContains p KubectlApi = true then renewalCalls u env else []) }, 0, some e⟩
        | none => .ret ⟨{ w with
            conn := some { k with sent := k.sent ++ [jsonMarshal ⟨"stdout", b, 200, 200⟩] }
            storeCalls := w.storeCalls ++
              (if stringsContains p KubectlApi = true then renewalCalls u env else []) },
            b.length, none⟩ := by
  simp only [Window.Write, renewIfTracked_calls w env p u hp hu, Outcome.andThen,
    SetWriteDeadline, hk, WriteMessage]
  cases env.setDeadlineErr with
  | some e => rfl
  | none =>
    cases env.writeErr with
    | some e => simp only [reduceCtorEq, if_false]
    | none => simp only [reduceCtorEq, if_false]

/-- C16: for a context that carries the path and a username, and two outside
worlds that differ only in what the record store answers to the read and the
update of a renewal, `Write` returns the same count and the same error and
leaves the same frames on the connection, and `Read` returns the same count,
the same error, the same buffer and the same size channel: the answers of the
store do not reach the caller. -/
theorem renewal_outcome_not_propagated (w : Window) (b : List Nat) (env1 env2 : Env)
    (p u : String) (k : Conn)
    (hp : w.ctx.path = some p) (hu : w.ctx.username = some u) (hk : w.conn = some k)
    (hset : env1.setDeadlineErr = env2.setDeadlineErr) (hwr : env1.writeErr = env2.writeErr) :
    (∃ r1 r2, w.Write b env1 = .ret r1 ∧ w.Write b env2 = .ret r2
      ∧ r1.n = r2.n ∧ r1.err = r2.err ∧ r1.w.conn = r2.w.conn)
    ∧ (∀ rj buffer,
        (w.Read rj buffer env1).map (fun r => (r.n, r.err, r.buffer, r.w.sizeChan, r.w.conn))
          = (w.Read rj buffer env2).map
              (fun r => (r.n, r.err, r.buffer, r.w.sizeChan, r.w.conn)))
    ∧ (∀ msg buffer, msg.Op = "stdin" → ∃ r1 r2, w.Read (.ok msg) buffer env1 = .ret r1
        ∧ w.Read (.ok msg) buffer env2 = .ret r2 ∧ r1.n = r2.n ∧ r1.err = r2.err
        ∧ r1.buffer = r2.buffer) := by
  have hstdin : ∀ (msg : Message) (buffer : List Nat) (env : Env), msg.Op = "stdin" →
      w.Read (.ok msg) buffer env = .ret ⟨{ w with storeCalls := w.storeCalls ++
          (if stringsContains p KubectlApi = true then renewalCalls u env else []) },
        (goCopy buffer msg.Data).1, (goCopy buffer msg.Data).2, none, false⟩ := by
    intro msg buffer env hop
    simp only [Window.Read, hop, if_true, renewIfTracked_calls w env p u hp hu, Outcome.andThen]
  refine ⟨?_, ?_, ?_⟩
  · rw [Write_explicit w b env1 p u k hp hu hk, Write_explicit w b env2 p u k hp hu hk,
      hset, hwr]
    cases env2.setDeadlineErr with
    | some e => exact ⟨_, _, rfl, rfl, rfl, rfl, rfl⟩
    | none =>
      cases env2.writeErr with
      | some e => exact ⟨_, _, rfl, rfl, rfl, rfl, rfl⟩
      | none => exact ⟨_, _, rfl, rfl, rfl, rfl, rfl⟩
  · intro rj buffer
    cases rj with
    | error e => rfl
    | ok msg =>
      by_cases h1 : msg.Op = "stdin"
      · rw [hstdin msg buffer env1 h1, hstdin msg buffer env2 h1]
        rfl
      · simp only [Window.Read, h1, if_false]
  · intro msg buffer hop
    exact ⟨_, _, hstdin msg buffer env1 hop, hstdin msg buffer env2 hop, rfl, rfl, rfl⟩

/-- The non-propagation property at a renewal that meets a conflict, against
one that succeeds. -/
theorem renewal_outcome_not_propagated_witness :
    (∃ r1 r2, (freshWindow userCtx).Write [97] conflictEnv = .ret r1
      ∧ (freshWindow userCtx).Write [97] quietEnv = .ret r2
      ∧ r1.n = r2.n ∧ r1.err = r2.err ∧ r1.w.conn = r2.w.conn)
    ∧ (∀ rj buffer,
        ((freshWindow userCtx).Read rj buffer conflictEnv).map
            (fun r => (r.n, r.err, r.buffer, r.w.sizeChan, r.w.conn))
          = ((freshWindow userCtx).Read rj buffer quietEnv).map
              (fun r => (r.n, r.err, r.buffer, r.w.sizeChan, r.w.conn)))
    ∧ (∀ msg buffer, msg.Op = "stdin" → ∃ r1 r2,
        (freshWindow userCtx).Read (.ok msg) buffer conflictEnv = .ret r1
        ∧ (freshWindow userCtx).Read (.ok msg) buffer quietEnv = .ret r2
        ∧ r1.n = r2.n ∧ r1.err = r2.err ∧ r1.buffer = r2.buffer) :=
  renewal_outcome_not_propagated (freshWindow userCtx) [97] conflictEnv quietEnv
    "/rest/webterminal/v1/user/alice/terminal" "alice" ⟨[], false⟩ rfl rfl rfl rfl rfl

/-- C17, as stated, fails: when the update of a renewal meets a conflict,
`Renewtime` has issued one read and one update, not two of either. -/
theorem Renewtime_no_retry_on_conflict :
    ¬ ∀ (w : Window) (env : Env) (u : String) (w1 : Window),
      w.ctx.username = some u → env.updateErr ≠ none → w.Renewtime env = .ret w1 →
      2 ≤ getCalls (w1.storeCalls.drop w.storeCalls.length)
        ∧ 2 ≤ updateCalls (w1.storeCalls.drop w.storeCalls.length) := by
  intro h
  have h1 := h (freshWindow userCtx) conflictEnv "alice"
    { freshWindow userCtx with storeCalls := renewalCalls "alice" conflictEnv }
    rfl (by decide) (by decide)
  revert h1
  decide

/-- C17, amended: whatever the store answers to the read and to the update, a
conflict included, `Renewtime` issues exactly one read of the record
"openfuyao-<username>" and exactly one update, in that order, and returns; it
does not read again and does not retry, and it leaves the connection and the
size channel alone. The update carries the object the read filled in: the
record "openfuyao-<username>" after a successful read, the zero object with an
empty namespace and name after a failed one. -/
theorem Renewtime_single_attempt (w : Window) (env : Env) (u : String)
    (hu : w.ctx.username = some u) :
    ∃ w1, w.Renewtime env = .ret w1
      ∧ w1.storeCalls = w.storeCalls ++
          [StoreCall.get UserPodNamespace ("openfuyao-" ++ u),
           if env.getErr.isNone then StoreCall.update UserPodNamespace ("openfuyao-" ++ u)
           else StoreCall.update "" ""]
      ∧ getCalls (w1.storeCalls.drop w.storeCalls.length) = 1
      ∧ updateCalls (w1.storeCalls.drop w.storeCalls.length) = 1
      ∧ w1.conn = w.conn ∧ w1.sizeChan = w.sizeChan := by
  refine ⟨_, Renewtime_ret w env u hu, rfl, ?_, ?_, rfl, rfl⟩
  · cases hg : env.getErr <;> simp [renewalCalls, getCalls, hg]
  · cases hg : env.getErr <;> simp [renewalCalls, getCalls, updateCalls, hg]

/-- The single-attempt property at an update that meets a conflict. -/
theorem Renewtime_single_attempt_witness :
    ∃ w1, (freshWindow userCtx).Renewtime conflictEnv = .ret w1
      ∧ w1.storeCalls = (freshWindow userCtx).storeCalls ++
          [StoreCall.get UserPodNamespace ("openfuyao-" ++ "alice"),
           if conflictEnv.getErr.isNone then
             StoreCall.update UserPodNamespace ("openfuyao-" ++ "alice")
           else StoreCall.update "" ""]
      ∧ getCalls (w1.storeCalls.drop (freshWindow userCtx).storeCalls.length) = 1
      ∧ updateCalls (w1.storeCalls.drop (freshWindow userCtx).storeCalls.length) = 1
      ∧ w1.conn = (freshWindow userCtx).conn ∧ w1.sizeChan = (freshWindow userCtx).sizeChan :=
  Renewtime_single_attempt (freshWindow userCtx) conflictEnv "alice" rfl

/-! ## Properties of the record name -/

theorem createPoll_events (user : String) (ticks : List PodTick) :
    ∀ e ∈ (createPoll user ticks).1, e.name = user ∧ e.ns = "openfuyao-system" := by
  induction ticks with
  | nil => intro e he; simp [createPoll] at he
  | cons t ts ih =>
    intro e he
    simp only [createPoll] at he
    split at he
    · split at he
      · split at he
        · split at he
          · simp only [List.mem_cons, List.mem_singleton, List.not_mem_nil, or_false] at he
            rcases he with rfl | rfl <;> exact ⟨rfl, rfl⟩
          · simp only [List.mem_cons] at he
            rcases he with rfl | rfl | he
            · exact ⟨rfl, rfl⟩
            · exact ⟨rfl, rfl⟩
            · exact ih e he
        · simp only [List.mem_cons] at he
          rcases he with rfl | rfl | he
          · exact ⟨rfl, rfl⟩
          · exact ⟨rfl, rfl⟩
          · exact ih e he
      · simp only [List.mem_cons] at he
        rcases he with rfl | he
        · exact ⟨rfl, rfl⟩
        · exact ih e he
    · split at he
      · simp only [List.mem_cons] at he
        rcases he with rfl | he
        · exact ⟨rfl, rfl⟩
        · exact ih e he
      · simp only [List.mem_singleton] at he
        subst he
        exact ⟨rfl, rfl⟩

theorem guardPoll_events (user : String) (ticks : List (Except StoreError Record)) :
    ∀ e ∈ (guardPoll user ticks).1, e.name = user ∧ e.ns = "openfuyao-system" := by
  induction ticks with
  | nil => intro e he; simp [guardPoll] at he
  | cons t ts ih =>
    intro e he
    simp only [guardPoll] at he
    split at he
    · simp only [List.mem_singleton] at he
      subst he
      exact ⟨rfl, rfl⟩
    · split at he
      · simp only [List.mem_singleton] at he
        subst he
        exact ⟨rfl, rfl⟩
      · rcases List.mem_cons.mp he with rfl | h1
        · exact ⟨rfl, rfl⟩
        · exact ih e h1

theorem HandleCusterTerminal_events (username : String) (env : ClusterEnv)
    (es : List SessionEvent) (h : HandleCusterTerminal username env = .ret es) :
    ∀ e ∈ es, e.name = "openfuyao-" ++ username ∧ e.ns = "openfuyao-system" := by
  have huser : "openfuyao" ++ "-" ++ username = "openfuyao-" ++ username := rfl
  have hcreate : ∀ es1, CreateUserPod ("openfuyao-" ++ username) env = .ret es1 →
      ∀ e ∈ es1, e.name = "openfuyao-" ++ username ∧ e.ns = "openfuyao-system" := by
    intro es1 h1
    unfold CreateUserPod at h1
    cases hi : env.imageErr with
    | some x => rw [hi] at h1; simp at h1
    | none =>
      rw [hi] at h1
      simp only at h1
      cases h1
      exact createPoll_events _ _
  simp only [HandleCusterTerminal, huser] at h
  cases hr : env.record with
  | error x =>
    rw [hr] at h
    simp only at h
    cases hc : CreateUserPod ("openfuyao-" ++ username) env with
    | ret es1 =>
      rw [hc] at h
      simp only [Outcome.andThen] at h
      cases h
      intro e he
      simp only [List.mem_cons, List.mem_append, List.mem_singleton, List.not_mem_nil,
        or_false] at he
      rcases he with (rfl | he) | rfl
      · exact ⟨rfl, rfl⟩
      · exact hcreate es1 hc e he
      · exact ⟨rfl, rfl⟩
    | panics s => rw [hc] at h; simp [Outcome.andThen] at h
    | blocks => rw [hc] at h; simp [Outcome.andThen] at h
  | ok r =>
    rw [hr] at h
    simp only at h
    by_cases hz : r.deletionTimestampIsZero = true
    · simp only [hz, if_true] at h
      cases h
      intro e he
      simp only [List.mem_cons, List.mem_singleton, List.not_mem_nil, or_false] at he
      rcases he with rfl | rfl <;> exact ⟨rfl, rfl⟩
    · simp only [hz, Bool.false_eq_true, if_false] at h
      have hguard : ∀ e ∈ (if ContainsFinalizer r Finalizer = true
          then guardPoll ("openfuyao-" ++ username) env.guardTicks else ([], none)).1,
          e.name = "openfuyao-" ++ username ∧ e.ns = "openfuyao-system" := by
        intro e he
        by_cases hf : ContainsFinalizer r Finalizer = true
        · simp only [hf, if_true] at he
          exact guardPoll_events _ _ e he
        · simp [hf] at he
      split at h
      · cases h
        intro e he
        rcases List.mem_cons.mp he with rfl | he
        · exact ⟨rfl, rfl⟩
        · exact hguard e he
      · cases hc : CreateUserPod ("openfuyao-" ++ username) env with
        | ret es1 =>
          rw [hc] at h
          simp only [Outcome.andThen] at h
          cases h
          intro e he
          simp only [List.mem_cons, List.mem_append, List.mem_singleton, List.not_mem_nil,
        or_false] at he
          rcases he with ((rfl | he) | he) | rfl
          · exact ⟨rfl, rfl⟩
          · exact hguard e he
          · exact hcreate es1 hc e he
          · exact ⟨rfl, rfl⟩
        | panics s => rw [hc] at h; simp [Outcome.andThen] at h
        | blocks => rw [hc] at h; simp [Outcome.andThen] at h

theorem string_append_left_cancel (a b c : String) (h : a ++ b = a ++ c) : b = c := by
  have := congrArg String.data h
  simp only [String.data_append] at this
  exact String.ext (List.append_cancel_left this)

/-- C18, as stated, fails: two requests of the same subject "admin" with
different path parameters are served on different records, "openfuyao-alice"
and "openfuyao-bob", neither named after the subject. -/
theorem terminalCluster_same_subject_other_record :
    ¬ ∀ (req1 req2 : ClusterRequest) (cenv : ClusterEnv) (s1 s2 : List String) (c1 c2 : Ctx)
        (u1 u2 : String) (t1 t2 : Outcome (List SessionEvent)),
      req1.subject = req2.subject →
      terminalCluster req1 cenv = .session s1 c1 u1 t1 →
      terminalCluster req2 cenv = .session s2 c2 u2 t2 → t1 = t2 := by
  intro h
  have h1 := h (adminRequest "alice") (adminRequest "bob") existingRecordEnv
    ["User has access"] ["User has access"]
    { path := some "/rest/webterminal/v1/user/alice/terminal", username := some "alice" }
    { path := some "/rest/webterminal/v1/user/bob/terminal", username := some "bob" }
    "alice" "bob"
    (.ret [SessionEvent.getRecord "openfuyao-system" "openfuyao-alice",
           SessionEvent.startSession "openfuyao-system" "openfuyao-alice" "user-container"])
    (.ret [SessionEvent.getRecord "openfuyao-system" "openfuyao-bob",
           SessionEvent.startSession "openfuyao-system" "openfuyao-bob" "user-container"])
    rfl (by decide) (by decide)
  revert h1
  decide

/-- C18, amended: when the upgrade succeeds and `checkUserAccess` grants the
subject access, the route hands the path parameter `user` to
`HandleCusterTerminal` as the username, so every request and call of the session
names the record "openfuyao-<user>"; two granted requests with the same path
parameter are served on the same record whatever their subjects are. The
subject only decides whether access is granted. -/
theorem terminalCluster_record_from_path (req : ClusterRequest) (cenv : ClusterEnv)
    (hup : req.upgradeErr = none)
    (hacc : (checkUserAccess req.subject req.bindings).allowed = true) :
    terminalCluster req cenv
      = .session (checkUserAccess req.subject req.bindings).sent
          { path := some req.urlPath, username := some req.userParam } req.userParam
          (HandleCusterTerminal req.userParam cenv)
    ∧ (∀ es, HandleCusterTerminal req.userParam cenv = .ret es →
        ∀ e ∈ es, e.name = "openfuyao-" ++ req.userParam ∧ e.ns = "openfuyao-system")
    ∧ (∀ req2 : ClusterRequest, req2.userParam = req.userParam → req2.upgradeErr = none →
        (checkUserAccess req2.subject req2.bindings).allowed = true →
        ∃ s c, terminalCluster req2 cenv
          = .session s c req.userParam (HandleCusterTerminal req.userParam cenv)) := by
  refine ⟨?_, ?_, ?_⟩
  · simp only [terminalCluster, Handler.HandleClusterTerminal, hup, hacc, not_true_eq_false,
      if_false]
  · intro es h
    exact HandleCusterTerminal_events req.userParam cenv es h
  · intro req2 hparam hup2 hacc2
    refine ⟨(checkUserAccess req2.subject req2.bindings).sent,
      { path := some req2.urlPath, username := some req.userParam }, ?_⟩
    simp only [terminalCluster, Handler.HandleClusterTerminal, hup2, hacc2, not_true_eq_false,
      if_false, hparam]

/-- The route property at a request of the subject "admin" for the user "alice". -/
theorem terminalCluster_record_from_path_witness :
    terminalCluster (adminRequest "alice") existingRecordEnv
      = .session (checkUserAccess (adminRequest "alice").subject (adminRequest "alice").bindings).sent
          { path := some (adminRequest "alice").urlPath,
            username := some (adminRequest "alice").userParam } (adminRequest "alice").userParam
          (HandleCusterTerminal (adminRequest "alice").userParam existingRecordEnv)
    ∧ (∀ es, HandleCusterTerminal (adminRequest "alice").userParam existingRecordEnv = .ret es →
        ∀ e ∈ es, e.name = "openfuyao-" ++ (adminRequest "alice").userParam
          ∧ e.ns = "openfuyao-system")
    ∧ (∀ req2 : ClusterRequest, req2.userParam = (adminRequest "alice").userParam →
        req2.upgradeErr = none →
        (checkUserAccess req2.subject req2.bindings).allowed = true →
        ∃ s c, terminalCluster req2 existingRecordEnv
          = .session s c (adminRequest "alice").userParam
              (HandleCusterTerminal (adminRequest "alice").userParam existingRecordEnv)) :=
  terminalCluster_record_from_path (adminRequest "alice") existingRecordEnv rfl (by decide)

/-- C19: the record name is "openfuyao-" followed by the username. Every
request and call of `HandleCusterTerminal` names it, in the namespace
"openfuyao-system"; `Renewtime` computes it for its read, and its update goes to
the same record after a successful read, while after a failed read the update
carries the zero object, whose namespace and name are empty; `template`, called
with it, gives it to the record and to the embedded pod template, both in
"openfuyao-system"; and two usernames with the same record name are equal. -/
theorem record_name_consistent (username : String) :
    (∀ env es, HandleCusterTerminal username env = .ret es →
      es.head? = some (SessionEvent.getRecord UserPodNamespace ("openfuyao-" ++ username))
      ∧ ∀ e ∈ es, e.name = "openfuyao-" ++ username ∧ e.ns = "openfuyao-system")
    ∧ (∀ (w : Window) (env : Env), w.ctx.username = some username →
        ∃ w1, w.Renewtime env = .ret w1
          ∧ w1.storeCalls = w.storeCalls ++
            [StoreCall.get "openfuyao-system" ("openfuyao-" ++ username),
             if env.getErr.isNone then
               StoreCall.update "openfuyao-system" ("openfuyao-" ++ username)
             else StoreCall.update "" ""]
          ∧ (env.getErr = none → w1.storeCalls = w.storeCalls ++
              [StoreCall.get "openfuyao-system" ("openfuyao-" ++ username),
               StoreCall.update "openfuyao-system" ("openfuyao-" ++ username)])
          ∧ (env.getErr ≠ none → w1.storeCalls = w.storeCalls ++
              [StoreCall.get "openfuyao-system" ("openfuyao-" ++ username),
               StoreCall.update "" ""]))
    ∧ (∀ image, ∃ t, template ("openfuyao-" ++ username) (.ok image) = .ret t
        ∧ t.Name = "openfuyao-" ++ username ∧ t.Namespace = "openfuyao-system"
        ∧ t.PodTemplate.ObjectMeta.Name = "openfuyao-" ++ username
        ∧ t.PodTemplate.ObjectMeta.Namespace = "openfuyao-system")
    ∧ (∀ other : String, "openfuyao-" ++ username = "openfuyao-" ++ other → username = other)
    ∧ UserPodNamespace = "openfuyao-system" := by
  refine ⟨?_, ?_, ?_, ?_, rfl⟩
  · intro env es h
    refine ⟨?_, HandleCusterTerminal_events username env es h⟩
    have huser : "openfuyao" ++ "-" ++ username = "openfuyao-" ++ username := rfl
    simp only [HandleCusterTerminal, huser] at h
    cases hr : env.record with
    | error x =>
      rw [hr] at h
      simp only at h
      cases hc : CreateUserPod ("openfuyao-" ++ username) env with
      | ret es1 => rw [hc] at h; simp only [Outcome.andThen] at h; cases h; rfl
      | panics s => rw [hc] at h; simp [Outcome.andThen] at h
      | blocks => rw [hc] at h; simp [Outcome.andThen] at h
    | ok r =>
      rw [hr] at h
      simp only at h
      split at h
      · cases h; rfl
      · split at h
        · cases h; rfl
        · cases hc : CreateUserPod ("openfuyao-" ++ username) env with
          | ret es1 => rw [hc] at h; simp only [Outcome.andThen] at h; cases h; rfl
          | panics s => rw [hc] at h; simp [Outcome.andThen] at h
          | blocks => rw [hc] at h; simp [Outcome.andThen] at h
  · intro w env hu
    refine ⟨_, Renewtime_ret w env username hu, rfl, ?_, ?_⟩
    · intro hg
      simp [renewalCalls, hg, UserPodNamespace]
    · intro hg
      cases hge : env.getErr with
      | none => exact absurd hge hg
      | some x => simp [renewalCalls, hge, UserPodNamespace]
  · intro image
    exact ⟨_, rfl, rfl, rfl, rfl, rfl⟩
  · intro other h
    exact string_append_left_cancel _ _ _ h

theorem Read_other_sizeChan (w : Window) (rj : Except GoError Message) (buffer : List Nat)
    (env : Env) (r : ReadResult) (hno : ∀ msg, rj = .ok msg → msg.Op ≠ "resize")
    (h : w.Read rj buffer env = .ret r) : r.w.sizeChan = w.sizeChan := by
  cases rj with
  | error e => simp only [Window.Read] at h; cases h; rfl
  | ok msg =>
    have h2 : ¬ msg.Op = "resize" := hno msg rfl
    by_cases h1 : msg.Op = "stdin"
    · simp only [Window.Read, h1, if_true] at h
      cases hw : w.renewIfTracked env with
      | ret w1 =>
        rw [hw] at h
        simp only [Outcome.andThen] at h
        cases h
        exact (renewIfTracked_fields w w1 env hw).1
      | panics s => rw [hw] at h; simp [Outcome.andThen] at h
      | blocks => rw [hw] at h; simp [Outcome.andThen] at h
    · simp only [Window.Read, h1, h2, if_false] at h
      cases h
      rfl

/-- C20, as stated, fails: a resize message with Rows = 0 and Cols = 0 makes
`Read` put the size (0,0) on the size channel, and the next `Next` returns nil. -/
theorem Read_enqueues_zero_size :
    ¬ ∀ (w : Window) (rj : Except GoError Message) (buffer : List Nat) (env : Env)
        (r : ReadResult), w.Read rj buffer env = .ret r →
      (∀ s ∈ r.w.sizeChan.inflight, s ∉ w.sizeChan.inflight → s.Height ≠ 0 ∨ s.Width ≠ 0)
      ∧ ∀ o w2, r.w.Next = .ret (o, w2) → w.sizeChan.inflight = [] →
          r.w.sizeChan.inflight ≠ [] → o ≠ none := by
  intro h
  obtain ⟨h1, -⟩ := h (freshWindow podCtx) (.ok ⟨"resize", [], 0, 0⟩) [] quietEnv
    ⟨zeroParkedWindow, [], 0, none, true⟩ (by decide)
  have := h1 ⟨0, 0⟩ (by decide) (by decide)
  simp at this

/-- C20, amended: `Read` puts a size on the size channel for a resize message
only, and that size is {Width: Cols, Height: Rows} as decoded, whatever the two
values are: it is the sentinel (0,0) exactly when the message has Rows = 0 and
Cols = 0, and then the `Next` that receives it returns nil; a resize message
with a non-zero Rows or Cols is received by `Next` as a size, never as nil. -/
theorem Read_enqueues_decoded_size (w : Window) (msg : Message) (buffer : List Nat) (env : Env)
    (hop : msg.Op = "resize") (hopen : w.sizeChan.closed = false) (hwf : w.sizeChan.wf) :
    ∃ r, w.Read (.ok msg) buffer env = .ret r
      ∧ r.w.sizeChan.inflight = w.sizeChan.inflight ++ [⟨msg.Cols, msg.Rows⟩]
      ∧ (w.sizeChan.inflight = [] → ∃ w2, r.w.Next = .ret (nilIfZero ⟨msg.Cols, msg.Rows⟩, w2))
      ∧ (nilIfZero ⟨msg.Cols, msg.Rows⟩ = none ↔ msg.Rows = 0 ∧ msg.Cols = 0)
      ∧ (msg.Rows ≠ 0 ∨ msg.Cols ≠ 0 →
          nilIfZero ⟨msg.Cols, msg.Rows⟩ = some ⟨msg.Cols, msg.Rows⟩)
      ∧ (∀ rj r2, (∀ m, rj = .ok m → m.Op ≠ "resize") → w.Read rj buffer env = .ret r2 →
          r2.w.sizeChan = w.sizeChan) := by
  obtain ⟨r, hr, -, -, -, hin, -, hwf1⟩ := Read_resize_ret w msg buffer env hop hopen hwf
  refine ⟨r, hr, hin, ?_, ?_, ?_, ?_⟩
  · intro hempty
    rw [hempty, List.nil_append] at hin
    obtain ⟨c1, hc1, -, -, -, -⟩ := chanRecv_cons r.w.sizeChan _ [] hin hwf1
    refine ⟨{ r.w with sizeChan := c1 }, ?_⟩
    simp only [Window.Next, hc1, Outcome.andThen, nilIfZero, Message.size]
    split <;> rfl
  · simp only [nilIfZero]
    by_cases hz : msg.Rows = 0 ∧ msg.Cols = 0
    · simp [hz]
    · simp [hz]
  · intro hnz
    simp only [nilIfZero]
    rw [if_neg]
    intro hz
    rcases hnz with h1 | h1
    · exact h1 hz.1
    · exact h1 hz.2
  · intro rj r2 hno h
    exact Read_other_sizeChan w rj buffer env r2 hno h

/-- The enqueue property at a resize to 0x0 on a fresh window. -/
theorem Read_enqueues_decoded_size_witness :
    ∃ r, (freshWindow podCtx).Read (.ok ⟨"resize", [], 0, 0⟩) [] quietEnv = .ret r
      ∧ r.w.sizeChan.inflight = (freshWindow podCtx).sizeChan.inflight ++ [⟨0, 0⟩]
      ∧ ((freshWindow podCtx).sizeChan.inflight = [] →
          ∃ w2, r.w.Next = .ret (nilIfZero ⟨0, 0⟩, w2))
      ∧ (nilIfZero ⟨0, 0⟩ = none ↔ (0 : Nat) = 0 ∧ (0 : Nat) = 0)
      ∧ ((0 : Nat) ≠ 0 ∨ (0 : Nat) ≠ 0 → nilIfZero ⟨0, 0⟩ = some ⟨0, 0⟩)
      ∧ (∀ rj r2, (∀ m, rj = .ok m → m.Op ≠ "resize") →
          (freshWindow podCtx).Read rj [] quietEnv = .ret r2 →
          r2.w.sizeChan = (freshWindow podCtx).sizeChan) :=
  Read_enqueues_decoded_size (freshWindow podCtx) ⟨"resize", [], 0, 0⟩ [] quietEnv rfl rfl
    (Or.inl rfl)

/-! ## Properties of the size queue of a new window -/

/-- C21, against the claim: the size channel of the window `HandleTerminal`
builds has capacity 0, not at least 1, and a `Read` of a resize message on it
parks on the channel instead of buffering the size. -/
theorem newWindow_no_buffer :
    ¬ (∀ (ctx : Ctx) (conn : Option Conn),
        1 ≤ (newWindow ctx conn).sizeChan.cap
        ∧ ∀ (msg : Message) (buffer : List Nat) (env : Env), msg.Op = "resize" →
            ∃ r, (newWindow ctx conn).Read (.ok msg) buffer env = .ret r ∧ r.parked = false) := by
  intro h
  have h1 := (h podCtx none).1
  revert h1
  decide

/-- C21, amended: the size channel of the window `HandleTerminal` builds has
capacity 0. A `Read` of a resize message on it returns only after parking: the
size sits with the parked sender, not in a buffer, until a `Next` takes it; that
`Next` returns the size (nil for the zero size) and leaves the channel empty. A
window whose channel has room in its buffer, as the windows of the tests have,
takes the size without parking. -/
theorem newWindow_resize_needs_receiver (ctx : Ctx) (conn : Option Conn) (msg : Message)
    (buffer : List Nat) (env : Env) (hop : msg.Op = "resize") :
    (newWindow ctx conn).sizeChan.cap = 0
    ∧ (∃ r, (newWindow ctx conn).Read (.ok msg) buffer env = .ret r
        ∧ r.parked = true ∧ r.n = 0 ∧ r.err = none
        ∧ r.w.sizeChan.buf = [] ∧ r.w.sizeChan.sendq = [msg.size]
        ∧ ∃ w2, r.w.Next = .ret (nilIfZero msg.size, w2)
            ∧ w2.sizeChan.buf = [] ∧ w2.sizeChan.sendq = [])
    ∧ (∀ w : Window, w.sizeChan.closed = false → w.sizeChan.buf.length < w.sizeChan.cap →
        ∃ r, w.Read (.ok msg) buffer env = .ret r ∧ r.parked = false
          ∧ r.w.sizeChan.buf = w.sizeChan.buf ++ [msg.size]) := by
  have hne : ¬ ("resize" = "stdin") := by decide
  refine ⟨rfl, ?_, ?_⟩
  · refine ⟨⟨{ newWindow ctx conn with
        sizeChan := { buf := [], sendq := [msg.size], cap := 0, closed := false } },
        buffer, 0, none, true⟩, ?_, rfl, rfl, rfl, rfl, rfl, ?_⟩
    · simp [Window.Read, hop, hne, chanSend, newWindow, makeChan, Outcome.andThen, Message.size]
    · refine ⟨{ newWindow ctx conn with
        sizeChan := { buf := [], sendq := [], cap := 0, closed := false } }, ?_, rfl, rfl⟩
      simp only [Window.Next, chanRecv, Outcome.andThen, nilIfZero]
      split <;> rfl
  · intro w hopen hroom
    refine ⟨⟨{ w with sizeChan := { w.sizeChan with buf := w.sizeChan.buf ++ [msg.size] } },
      buffer, 0, none, false⟩, ?_, rfl, rfl⟩
    simp [Window.Read, hop, hne, chanSend, hopen, hroom, Outcome.andThen, Message.size]

/-- The amended size-queue property at a new window and the resize to 80 by 24. -/
theorem newWindow_resize_needs_receiver_witness :
    (newWindow podCtx none).sizeChan.cap = 0
    ∧ (∃ r, (newWindow podCtx none).Read (.ok ⟨"resize", [], 24, 80⟩) [] quietEnv = .ret r
        ∧ r.parked = true ∧ r.n = 0 ∧ r.err = none
        ∧ r.w.sizeChan.buf = [] ∧ r.w.sizeChan.sendq = [Message.size ⟨"resize", [], 24, 80⟩]
        ∧ ∃ w2, r.w.Next = .ret (nilIfZero (Message.size ⟨"resize", [], 24, 80⟩), w2)
            ∧ w2.sizeChan.buf = [] ∧ w2.sizeChan.sendq = [])
    ∧ (∀ w : Window, w.sizeChan.closed = false → w.sizeChan.buf.length < w.sizeChan.cap →
        ∃ r, w.Read (.ok ⟨"resize", [], 24, 80⟩) [] quietEnv = .ret r ∧ r.parked = false
          ∧ r.w.sizeChan.buf = w.sizeChan.buf ++ [Message.size ⟨"resize", [], 24, 80⟩]) :=
  newWindow_resize_needs_receiver podCtx none ⟨"resize", [], 24, 80⟩ [] quietEnv rfl

/-! ## Properties of the workload template -/

/-- C25: for every user name and image path, `createPodTemplate` gives one
init container and one main container; the main container runs as user 65532,
which is not root; both containers mount the volume "kubeconfig" at /mnt/.kube;
and every volume mount of either container names a volume of the pod. -/
theorem createPodTemplate_shape (user imagePath : String) :
    (createPodTemplate user imagePath).Spec.InitContainers.length = 1
    ∧ (createPodTemplate user imagePath).Spec.Containers.length = 1
    ∧ (∀ c ∈ (createPodTemplate user imagePath).Spec.Containers,
        c.Name = UserContainerName
        ∧ (∃ sc, c.SecurityContext = some sc ∧ sc.RunAsUser = some 65532
            ∧ sc.RunAsUser ≠ some 0 ∧ sc.RunAsUser ≠ none)
        ∧ ({ Name := "kubeconfig", MountPath := "/mnt/.kube" } : VolumeMount) ∈ c.VolumeMounts)
    ∧ (∀ c ∈ (createPodTemplate user imagePath).Spec.InitContainers,
        ({ Name := "kubeconfig", MountPath := "/mnt/.kube" } : VolumeMount) ∈ c.VolumeMounts)
    ∧ (∀ c ∈ (createPodTemplate user imagePath).Spec.InitContainers
            ++ (createPodTemplate user imagePath).Spec.Containers,
        ∀ m ∈ c.VolumeMounts,
          ∃ v ∈ (createPodTemplate user imagePath).Spec.Volumes, v.Name = m.Name) := by
  refine ⟨rfl, rfl, ?_, ?_, ?_⟩
  · intro c hc
    simp only [createPodTemplate, createMainContainers, List.mem_singleton] at hc
    subst hc
    refine ⟨rfl, ⟨_, rfl, rfl, by decide, by decide⟩, ?_⟩
    simp [getMainContainerVolumeMounts]
  · intro c hc
    simp only [createPodTemplate, createInitContainers, List.mem_singleton] at hc
    subst hc
    simp [getInitContainerVolumeMounts]
  · intro c hc m hm
    simp only [createPodTemplate, createInitContainers, createMainContainers,
      List.singleton_append, List.mem_cons, List.mem_singleton, List.not_mem_nil,
      or_false] at hc
    rcases hc with rfl | rfl
    · simp only [getInitContainerVolumeMounts, List.mem_cons, List.mem_singleton,
        List.not_mem_nil, or_false] at hm
      rcases hm with rfl | rfl <;> simp [createPodTemplate, createVolumes]
    · simp only [getMainContainerVolumeMounts, List.mem_singleton] at hm
      subst hm
      simp [createPodTemplate, createVolumes]

/-- C26, against the claim: the template built for the user "alice" has the
empty restart policy, not "Never", and so has the pod the reconciler requests
from it. -/
theorem template_restart_policy_not_never :
    ¬ (∀ (user imagePath : String) (t : WebterminalTemplate),
        template user (.ok imagePath) = .ret t →
          t.PodTemplate.Spec.RestartPolicy = "Never"
          ∧ (WebterminalTemplateReconciler.podtpl t).RestartPolicy = "Never") := by
  intro h
  have h1 := (h "alice" "image" _ rfl).1
  revert h1
  decide

/-- C26, amended: for every user and image path, `template` returns a
template whose pod-level restart policy is left empty, and every pod whose
creation the reconciler requests from it carries the same empty restart
policy; nothing sets it to "Never". -/
theorem template_restart_policy_unset (user imagePath : String) :
    ∃ t, template user (.ok imagePath) = .ret t
      ∧ (createPodTemplate user (trimSpace imagePath)).Spec.RestartPolicy = ""
      ∧ t.PodTemplate.Spec.RestartPolicy = ""
      ∧ (WebterminalTemplateReconciler.podtpl t).RestartPolicy = ""
      ∧ (WebterminalTemplateReconciler.podtpl t).RestartPolicy ≠ "Never"
      ∧ ∀ ticks, ∀ p ∈ (WebterminalTemplateReconciler.createPodTemplate t ticks).1,
          p.RestartPolicy = "" := by
  refine ⟨_, rfl, rfl, rfl, rfl, ?_, ?_⟩
  · show ("" : String) ≠ "Never"
    decide
  intro ticks
  induction ticks with
  | nil => intro p hp; simp [WebterminalTemplateReconciler.createPodTemplate] at hp
  | cons t ts ih =>
    intro p hp
    rw [WebterminalTemplateReconciler.createPodTemplate] at hp
    split at hp
    · split at hp
      · split at hp
        · simp only [List.mem_singleton] at hp
          subst hp
          rfl
        · simp only [List.mem_cons] at hp
          rcases hp with rfl | hp
          · rfl
          · exact ih p hp
      · simp at hp
    · split at hp
      · exact ih p hp
      · simp at hp

/-! ## Properties of the access check -/

/-- C27: `checkUserAccess` returns true exactly when the context carries a
subject `u`, the listing of the cluster role bindings succeeds, and some listed
binding is named `u` followed by "-platform-admin" or by "-cluster-admin"; it
returns an error exactly when the subject is missing or the listing, if it is
reached, fails; and with a subject, a listing and no such binding it returns
false without an error. -/
theorem checkUserAccess_iff (subject : Option String)
    (bindings : Except GoError (List String)) :
    ((checkUserAccess subject bindings).allowed = true
      ↔ ∃ u items, subject = some u ∧ bindings = .ok items
          ∧ ∃ name ∈ items, name = u ++ "-platform-admin" ∨ name = u ++ "-cluster-admin")
    ∧ ((checkUserAccess subject bindings).err ≠ none
      ↔ subject = none ∨ ∃ err, bindings = .error err)
    ∧ (∀ u items, subject = some u → bindings = .ok items →
        (¬ ∃ name ∈ items, name = u ++ "-platform-admin" ∨ name = u ++ "-cluster-admin") →
        (checkUserAccess subject bindings).allowed = false
        ∧ (checkUserAccess subject bindings).err = none) := by
  have hp : ∀ u : String, u ++ "-" ++ "platform-admin" = u ++ "-platform-admin" := by
    intro u; rw [String.append_assoc]; rfl
  have hc : ∀ u : String, u ++ "-" ++ "cluster-admin" = u ++ "-cluster-admin" := by
    intro u; rw [String.append_assoc]; rfl
  cases subject with
  | none => simp [checkUserAccess]
  | some u =>
    cases bindings with
    | error e => simp [checkUserAccess]
    | ok items =>
      by_cases h : ∃ name ∈ items, name = u ++ "-platform-admin" ∨ name = u ++ "-cluster-admin"
      · have hany : (items.any fun name =>
            decide (name = u ++ "-" ++ "platform-admin" ∨ name = u ++ "-" ++ "cluster-admin"))
            = true := by
          rw [hp, hc]
          simpa using h
        simp only [checkUserAccess, hany, if_true]
        refine ⟨⟨fun _ => ⟨u, items, rfl, rfl, h⟩, fun _ => by simp⟩, ?_, ?_⟩
        · simp
        · intro u1 items1 hu hi hn
          cases hu
          cases hi
          exact absurd h hn
      · have hany : (items.any fun name =>
            decide (name = u ++ "-" ++ "platform-admin" ∨ name = u ++ "-" ++ "cluster-admin"))
            = false := by
          rw [hp, hc]
          simpa using h
        simp only [checkUserAccess, hany]
        refine ⟨⟨fun hf => by simp at hf, ?_⟩, ?_, ?_⟩
        · rintro ⟨u1, items1, hu, hi, hn⟩
          cases hu
          cases hi
          exact absurd hn h
        · simp
        · intro u1 items1 hu hi hn
          exact ⟨by simp, by simp⟩

/-! ## Properties of the keepalive -/

theorem pingLoop_cancelled (now : Int) (es : List (Option GoError)) (s : Keepalive)
    (h : s.cancelled = true) : pingLoop now es s = s := by
  cases es with
  | nil => rfl
  | cons e es => simp [pingLoop, h]

theorem pingLoop_quiet (k : Nat) (rest : List (Option GoError)) :
    ∀ (now : Int) (s : Keepalive), s.cancelled = false →
      ∃ s1, pingLoop now (List.replicate k none ++ rest) s
          = pingLoop (now + k * pingSend) rest s1
        ∧ s1.cancelled = false ∧ s1.connClosed = s.connClosed
        ∧ s1.pings.length = s.pings.length + k := by
  induction k with
  | zero => intro now s h; exact ⟨s, by simp, h, rfl, rfl⟩
  | succ k ih =>
    intro now s h
    obtain ⟨s1, h1, h2, h3, h4⟩ := ih (now + pingSend) (pingProbe now none s) h
    refine ⟨s1, ?_, h2, h3, ?_⟩
    · have e : now + ((k + 1 : Nat) : Int) * pingSend = now + pingSend + k * pingSend := by
        push_cast
        ring
      rw [e, ← h1]
      simp only [List.replicate_succ, List.cons_append, pingLoop, h, Bool.false_eq_true,
        if_false]
      rfl
    · rw [h4]
      simp only [pingProbe, List.length_append, List.length_singleton]
      omega

/-- C22: a keepalive probe whose ping write fails cancels the session context
and closes the connection; a probe whose write succeeds leaves both as they
were. In the loop of `startSessionWithPing`, started on a live session, probes
that succeed leave the session uncancelled and the connection open, the first
failing probe cancels and closes, and no probe is sent after it. The pause
between probes is 27 s, nine tenths of the 30 s `pongWait`. -/
theorem pingProbe_cancels_iff_send_fails (now : Int) (s : Keepalive) (err : GoError)
    (k : Nat) (rest : List (Option GoError)) :
    ((pingProbe now (some err) s).cancelled = true
      ∧ (pingProbe now (some err) s).connClosed = true)
    ∧ ((pingProbe now none s).cancelled = s.cancelled
      ∧ (pingProbe now none s).connClosed = s.connClosed)
    ∧ ((pingLoop now (List.replicate k none) ⟨false, false, []⟩).cancelled = false
      ∧ (pingLoop now (List.replicate k none) ⟨false, false, []⟩).connClosed = false
      ∧ (pingLoop now (List.replicate k none) ⟨false, false, []⟩).pings.length = k)
    ∧ ((pingLoop now (List.replicate k none ++ some err :: rest) ⟨false, false, []⟩).cancelled
          = true
      ∧ (pingLoop now (List.replicate k none ++ some err :: rest) ⟨false, false, []⟩).connClosed
          = true
      ∧ (pingLoop now (List.replicate k none ++ some err :: rest)
          ⟨false, false, []⟩).pings.length = k + 1)
    ∧ pingSend = 27 * second := by
  refine ⟨⟨rfl, rfl⟩, ⟨rfl, rfl⟩, ?_, ?_, by decide⟩
  · obtain ⟨s1, h1, h2, h3, h4⟩ := pingLoop_quiet k [] now ⟨false, false, []⟩ rfl
    rw [List.append_nil] at h1
    rw [h1]
    simp only [pingLoop]
    exact ⟨h2, h3, by simpa using h4⟩
  · obtain ⟨s1, h1, h2, h3, h4⟩ := pingLoop_quiet k (some err :: rest) now ⟨false, false, []⟩ rfl
    rw [h1]
    simp only [pingLoop, h2, Bool.false_eq_true, if_false]
    rw [pingLoop_cancelled _ _ _ rfl]
    refine ⟨rfl, rfl, ?_⟩
    simp [pingProbe, h4]

/-! ## Properties of the reconciler -/

/-- C23: `checkTTL` issues the delete of the record and stops the reconcile
exactly when the renewal time is at or before the current time minus 26
minutes, whether the delete succeeds or not; for a record renewed less than 26
minutes ago it issues nothing, returns no error and lets the reconcile go on. -/
theorem checkTTL_deletes_iff_expired (wtTemplate : ReconciledTemplate) (now : Int)
    (deleteErr : Option GoError) :
    (((WebterminalTemplateReconciler.checkTTL wtTemplate now deleteErr).calls
          = [ReconcilerCall.delete wtTemplate.Namespace wtTemplate.Name]
        ∧ (WebterminalTemplateReconciler.checkTTL wtTemplate now deleteErr).shouldReturn = true)
      ↔ wtTemplate.RenewTime ≤ now - 26 * 60 * 1000000000)
    ∧ ((WebterminalTemplateReconciler.checkTTL wtTemplate now deleteErr).shouldReturn = true
      ↔ wtTemplate.RenewTime ≤ now - 26 * 60 * 1000000000)
    ∧ (((WebterminalTemplateReconciler.checkTTL wtTemplate now deleteErr).calls = []
        ∧ (WebterminalTemplateReconciler.checkTTL wtTemplate now deleteErr).shouldReturn = false
        ∧ (WebterminalTemplateReconciler.checkTTL wtTemplate now deleteErr).err = none)
      ↔ now - wtTemplate.RenewTime < 26 * 60 * 1000000000)
    ∧ (WebterminalTemplateReconciler.checkTTL wtTemplate now deleteErr).err
        = (if wtTemplate.RenewTime ≤ now - 26 * 60 * 1000000000 then deleteErr else none) := by
  have hperiod : checkTimePeriod = 26 * 60 * 1000000000 := by decide
  by_cases h : wtTemplate.RenewTime ≤ now - 26 * 60 * 1000000000
  · have hc : ¬ (wtTemplate.RenewTime > now + (-checkTimePeriod)) := by
      rw [hperiod]; omega
    have h1 : wtTemplate.RenewTime ≤ now - 1560000000000 := by omega
    have h2 : 1560000000000 ≤ now - wtTemplate.RenewTime := by omega
    cases deleteErr with
    | none => simp [WebterminalTemplateReconciler.checkTTL, hc, h1, h2]
    | some e => simp [WebterminalTemplateReconciler.checkTTL, hc, h1, h2]
  · have hc : wtTemplate.RenewTime > now + (-checkTimePeriod) := by
      rw [hperiod]; omega
    have h1 : now - 1560000000000 < wtTemplate.RenewTime := by omega
    have h2 : now - wtTemplate.RenewTime < 1560000000000 := by omega
    have h3 : ¬ (wtTemplate.RenewTime ≤ now - 1560000000000) := by omega
    simp [WebterminalTemplateReconciler.checkTTL, hc, h1, h2, h3]

theorem deletePodTemplate_updates (ns name : String) (ticks : List TeardownTick) :
    finalizerUpdates (WebterminalTemplateReconciler.deletePodTemplate ns name ticks).1 = [] := by
  induction ticks with
  | nil => rfl
  | cons t ts ih =>
    rw [WebterminalTemplateReconciler.deletePodTemplate]
    split
    · split <;> rfl
    · split
      · split
        · rfl
        · simpa [finalizerUpdates] using ih
      · simpa [finalizerUpdates] using ih

theorem finalizerUpdates_append (a b : List ReconcilerCall) :
    finalizerUpdates (a ++ b) = finalizerUpdates a ++ finalizerUpdates b := by
  induction a with
  | nil => rfl
  | cons c cs ih => cases c <;> simp [finalizerUpdates, ih]

theorem deletePodTemplate_done (ns name : String) (ticks : List TeardownTick)
    (h : (WebterminalTemplateReconciler.deletePodTemplate ns name ticks).2 = none) :
    ∃ pre t post e, ticks = pre ++ t :: post ∧ t.get = .error e ∧ e.notFound = true
      ∧ (∀ p ∈ pre, ∃ z, p.get = .ok z)
      ∧ (WebterminalTemplateReconciler.deletePodTemplate ns name ticks).1.getLast?
          = some (ReconcilerCall.getPod ns name) := by
  induction ticks with
  | nil => simp [WebterminalTemplateReconciler.deletePodTemplate] at h
  | cons t ts ih =>
    rw [WebterminalTemplateReconciler.deletePodTemplate] at h ⊢
    split at h
    · rename_i e he
      split at h
      · rename_i hn
        refine ⟨[], t, ts, e, rfl, he, hn, by simp, ?_⟩
        simp [he, hn]
      · simp at h
    · rename_i z hz
      split at h
      · rename_i hzero
        split at h
        · simp at h
        · rename_i hd
          obtain ⟨pre, t1, post, e, hts, hg, hn, hpre, hlast⟩ := ih h
          refine ⟨t :: pre, t1, post, e, by simp [hts], hg, hn, ?_, ?_⟩
          · intro p hp
            rcases List.mem_cons.mp hp with rfl | hp
            · exact ⟨z, hz⟩
            · exact hpre p hp
          · simp only [hz, hzero, if_true, hd]
            cases hl : (WebterminalTemplateReconciler.deletePodTemplate ns name ts).1 with
            | nil => rw [hl] at hlast; simp at hlast
            | cons c cs => rw [hl] at hlast; simpa [List.getLast?_cons_cons] using hlast
      · rename_i hzero
        obtain ⟨pre, t1, post, e, hts, hg, hn, hpre, hlast⟩ := ih h
        refine ⟨t :: pre, t1, post, e, by simp [hts], hg, hn, ?_, ?_⟩
        · intro p hp
          rcases List.mem_cons.mp hp with rfl | hp
          · exact ⟨z, hz⟩
          · exact hpre p hp
        · simp only [hz, hzero, Bool.false_eq_true, if_false]
          cases hl : (WebterminalTemplateReconciler.deletePodTemplate ns name ts).1 with
          | nil => rw [hl] at hlast; simp at hlast
          | cons c cs => rw [hl] at hlast; simpa [List.getLast?_cons_cons] using hlast

theorem deletePodTemplate_live (ns name : String) (ticks : List TeardownTick)
    (h : ∀ t ∈ ticks, ∃ z, t.get = .ok z) :
    (WebterminalTemplateReconciler.deletePodTemplate ns name ticks).2 ≠ none := by
  induction ticks with
  | nil => simp [WebterminalTemplateReconciler.deletePodTemplate]
  | cons t ts ih =>
    obtain ⟨z, hz⟩ := h t (List.mem_cons_self _ _)
    have ih1 := ih fun x hx => h x (List.mem_cons_of_mem _ hx)
    rw [WebterminalTemplateReconciler.deletePodTemplate]
    simp only [hz]
    split
    · split
      · simp
      · exact ih1
    · exact ih1

/-- C24: for a record that is being deleted and carries the finalizer,
`handleFinalizer` stops the reconcile in every case. When the pod teardown
returns an error (a failed read or delete, or the deadline), that error is
returned, the record keeps its finalizers and no update is issued. The
finalizer leaves the record, and an update is issued, only when the teardown
returned without error, which happens only after a read of the pod reported
not-found, every earlier read having still found the pod; the update is then
the last request, after the last read of the pod, and writes the finalizers
without the guard. As long as every read of the teardown still finds the pod,
the teardown does not return without error. -/
theorem handleFinalizer_guard_outlives_pod (wtTemplate : ReconciledTemplate)
    (env : FinalizerEnv) (hdel : wtTemplate.record.deletionTimestampIsZero = false)
    (hfin : ContainsFinalizer wtTemplate.record finalizer = true) :
    (WebterminalTemplateReconciler.handleFinalizer wtTemplate env).1.shouldReturn = true
    ∧ (∀ err, (WebterminalTemplateReconciler.deletePodTemplate wtTemplate.Namespace
          wtTemplate.Name env.teardown).2 = some err →
        (WebterminalTemplateReconciler.handleFinalizer wtTemplate env).1.err = some err
        ∧ (WebterminalTemplateReconciler.handleFinalizer wtTemplate env).2 = wtTemplate
        ∧ finalizerUpdates (WebterminalTemplateReconciler.handleFinalizer wtTemplate env).1.calls
            = [])
    ∧ ((ContainsFinalizer (WebterminalTemplateReconciler.handleFinalizer wtTemplate env).2.record
          finalizer = false
        ∨ finalizerUpdates (WebterminalTemplateReconciler.handleFinalizer wtTemplate env).1.calls
            ≠ []) →
        (WebterminalTemplateReconciler.deletePodTemplate wtTemplate.Namespace
          wtTemplate.Name env.teardown).2 = none
        ∧ (∃ pre t post e, env.teardown = pre ++ t :: post ∧ t.get = .error e
            ∧ e.notFound = true ∧ ∀ p ∈ pre, ∃ z, p.get = .ok z)
        ∧ (WebterminalTemplateReconciler.handleFinalizer wtTemplate env).1.calls
            = (WebterminalTemplateReconciler.deletePodTemplate wtTemplate.Namespace
                wtTemplate.Name env.teardown).1
              ++ [ReconcilerCall.update wtTemplate.Namespace wtTemplate.Name
                    (wtTemplate.record.finalizers.filter fun x => decide (x ≠ finalizer))]
        ∧ (WebterminalTemplateReconciler.deletePodTemplate wtTemplate.Namespace
              wtTemplate.Name env.teardown).1.getLast?
            = some (ReconcilerCall.getPod wtTemplate.Namespace wtTemplate.Name)
        ∧ (WebterminalTemplateReconciler.handleFinalizer wtTemplate env).1.err = env.updateErr)
    ∧ ((∀ t ∈ env.teardown, ∃ z, t.get = .ok z) →
        ContainsFinalizer (WebterminalTemplateReconciler.handleFinalizer wtTemplate env).2.record
          finalizer = true
        ∧ (WebterminalTemplateReconciler.handleFinalizer wtTemplate env).1.err ≠ none) := by
  have hchanged : (RemoveFinalizer wtTemplate.record finalizer).2 = true := by
    simp only [RemoveFinalizer, decide_eq_true_eq]
    intro hlen
    have hall := List.filter_eq_self.mp
      ((List.filter_sublist _).eq_of_length hlen.symm)
    simp only [ContainsFinalizer, List.any_eq_true, decide_eq_true_eq] at hfin
    obtain ⟨f, hf, rfl⟩ := hfin
    simpa using hall finalizer hf
  have hgone : ContainsFinalizer (RemoveFinalizer wtTemplate.record finalizer).1 finalizer
      = false := by
    simp [ContainsFinalizer, RemoveFinalizer]
  cases hd : (WebterminalTemplateReconciler.deletePodTemplate wtTemplate.Namespace
      wtTemplate.Name env.teardown).2 with
  | some err =>
    have hr : WebterminalTemplateReconciler.handleFinalizer wtTemplate env
        = ({ shouldReturn := true, err := some err,
             calls := (WebterminalTemplateReconciler.deletePodTemplate wtTemplate.Namespace
               wtTemplate.Name env.teardown).1 }, wtTemplate) := by
      simp only [WebterminalTemplateReconciler.handleFinalizer, hdel, hfin, hd,
        Bool.false_eq_true, if_false, if_true]
    rw [hr]
    refine ⟨rfl, ?_, ?_, ?_⟩
    · intro e he
      cases he
      exact ⟨rfl, rfl, deletePodTemplate_updates _ _ _⟩
    · rintro (h | h)
      · simp only [hfin] at h
        cases h
      · exact absurd (deletePodTemplate_updates _ _ _) h
    · intro _
      exact ⟨hfin, by simp⟩
  | none =>
    obtain ⟨pre, t, post, e, hts, hg, hn, hpre, hlast⟩ := deletePodTemplate_done _ _ _ hd
    have hr : WebterminalTemplateReconciler.handleFinalizer wtTemplate env
        = ({ shouldReturn := true, err := env.updateErr,
             calls := (WebterminalTemplateReconciler.deletePodTemplate wtTemplate.Namespace
               wtTemplate.Name env.teardown).1
               ++ [ReconcilerCall.update wtTemplate.Namespace wtTemplate.Name
                    (wtTemplate.record.finalizers.filter fun x => decide (x ≠ finalizer))] },
           { wtTemplate with record := (RemoveFinalizer wtTemplate.record finalizer).1 }) := by
      simp only [WebterminalTemplateReconciler.handleFinalizer, hdel, hfin, hd, hchanged,
        Bool.false_eq_true, if_false, if_true, not_true_eq_false]
      cases env.updateErr <;> rfl
    rw [hr]
    refine ⟨rfl, ?_, ?_, ?_⟩
    · intro e1 he
      cases he
    · intro _
      exact ⟨rfl, ⟨pre, t, post, e, hts, hg, hn, hpre⟩, rfl, hlast, rfl⟩
    · intro hall
      exact absurd hd (deletePodTemplate_live _ _ _ hall)

/-- The finalizer property at a record in deletion whose pod goes away at the third read. -/
theorem handleFinalizer_guard_outlives_pod_witness :
    (WebterminalTemplateReconciler.handleFinalizer deletingTemplate teardownEnv).1.shouldReturn = true
    ∧ (∀ err, (WebterminalTemplateReconciler.deletePodTemplate deletingTemplate.Namespace
          deletingTemplate.Name teardownEnv.teardown).2 = some err →
        (WebterminalTemplateReconciler.handleFinalizer deletingTemplate teardownEnv).1.err = some err
        ∧ (WebterminalTemplateReconciler.handleFinalizer deletingTemplate teardownEnv).2 = deletingTemplate
        ∧ finalizerUpdates (WebterminalTemplateReconciler.handleFinalizer deletingTemplate teardownEnv).1.calls
            = [])
    ∧ ((ContainsFinalizer (WebterminalTemplateReconciler.handleFinalizer deletingTemplate teardownEnv).2.record
          finalizer = false
        ∨ finalizerUpdates (WebterminalTemplateReconciler.handleFinalizer deletingTemplate teardownEnv).1.calls
            ≠ []) →
        (WebterminalTemplateReconciler.deletePodTemplate deletingTemplate.Namespace
          deletingTemplate.Name teardownEnv.teardown).2 = none
        ∧ (∃ pre t post e, teardownEnv.teardown = pre ++ t :: post ∧ t.get = .error e
            ∧ e.notFound = true ∧ ∀ p ∈ pre, ∃ z, p.get = .ok z)
        ∧ (WebterminalTemplateReconciler.handleFinalizer deletingTemplate teardownEnv).1.calls
            = (WebterminalTemplateReconciler.deletePodTemplate deletingTemplate.Namespace
                deletingTemplate.Name teardownEnv.teardown).1
              ++ [ReconcilerCall.update deletingTemplate.Namespace deletingTemplate.Name
                    (deletingTemplate.record.finalizers.filter fun x => decide (x ≠ finalizer))]
        ∧ (WebterminalTemplateReconciler.deletePodTemplate deletingTemplate.Namespace
              deletingTemplate.Name teardownEnv.teardown).1.getLast?
            = some (ReconcilerCall.getPod deletingTemplate.Namespace deletingTemplate.Name)
        ∧ (WebterminalTemplateReconciler.handleFinalizer deletingTemplate teardownEnv).1.err = teardownEnv.updateErr)
    ∧ ((∀ t ∈ teardownEnv.teardown, ∃ z, t.get = .ok z) →
        ContainsFinalizer (WebterminalTemplateReconciler.handleFinalizer deletingTemplate teardownEnv).2.record
          finalizer = true
        ∧ (WebterminalTemplateReconciler.handleFinalizer deletingTemplate teardownEnv).1.err ≠ none) :=
  handleFinalizer_guard_outlives_pod deletingTemplate teardownEnv rfl (by decide)

/-! ## Properties of the server configuration -/

/-- C28, on the code: with the secure port 65535 and both file names empty,
`Validate` returns no error at all, although `initServer` serves TLS on that
port and loads the key pair from the empty names; the file checks run only for
secure ports from 1 to 65534, where both empty names give exactly the two
empty-file errors. The error about both ports being disabled is returned
exactly when both ports are 0. -/
theorem Validate_skips_port_65535 :
    (∀ (stat : String → Option GoError) (bind ca : String) (insecure : Int),
        ServerConfig.Validate
          { BindAddress := bind, SecurePort := 65535, InsecurePort := insecure,
            PrivateKey := "", CertFile := "", CAFile := ca } stat = [])
    ∧ (∀ (load : String → String → Option GoError) (readFile : String → Option GoError)
        (err : GoError), load "" "" = some err →
        initServer { BindAddress := "0.0.0.0", SecurePort := 65535, InsecurePort := 0,
                     PrivateKey := "", CertFile := "", CAFile := "" } load readFile
          = .error err)
    ∧ (∀ (s : ServerConfig) (stat : String → Option GoError),
        0 < s.SecurePort → s.SecurePort < 65535 → s.CertFile = "" → s.PrivateKey = "" →
        s.Validate stat = [ValidateError.emptyFile, ValidateError.emptyFile])
    ∧ (∀ (s : ServerConfig) (stat : String → Option GoError),
        ValidateError.portsDisabled ∈ s.Validate stat
          ↔ s.SecurePort = 0 ∧ s.InsecurePort = 0) := by
  refine ⟨?_, ?_, ?_, ?_⟩
  · intro stat bind ca insecure
    simp [ServerConfig.Validate, maxSecurePort]
  · intro load readFile err h
    simp [initServer, h]
  · intro s stat h0 h1 hc hk
    have hz : ¬ (s.SecurePort = 0) := by omega
    simp [ServerConfig.Validate, maxSecurePort, h0, h1, hc, hk, hz]
  · intro s stat
    by_cases hz : s.SecurePort = 0
    · by_cases hi : s.InsecurePort = 0
      · simp [ServerConfig.Validate, hz, hi]
      · simp [ServerConfig.Validate, hz, hi]
    · by_cases hr : s.SecurePort > 0 ∧ s.SecurePort < maxSecurePort
      · simp only [ServerConfig.Validate, hz, false_and, if_false, hr, and_self, if_true,
          List.nil_append, iff_false]
        split <;> split <;> (try split) <;> (try split) <;> simp
      · simp [ServerConfig.Validate, hz, hr]

/-! ## Properties of the access log -/

/-- C29, on the code: the level of the access-log line is fixed by the status
code the response has before the downstream chain runs. On a response nothing
has been written to, this code reads as 200, so the line is written at info
level whatever the chain produces; with a chain that answers 500 the line
carries the status 500 at info level. In general the line is a warning exactly
when the status code before the chain is greater than 400, and the status code
it carries is the one after the chain. -/
theorem RecordAccessLogs_level_from_prior_status :
    (RecordAccessLogs ⟨0, 0⟩ (fun r => { r with statusCode := 500 })).1
        = { level := LogLevel.info, statusCode := 500, contentLength := 0 }
    ∧ (∀ chain : Response → Response, (RecordAccessLogs ⟨0, 0⟩ chain).1.level = LogLevel.info)
    ∧ (∀ (resp : Response) (chain : Response → Response),
        ((RecordAccessLogs resp chain).1.level = LogLevel.warn ↔ resp.StatusCode > 400)
        ∧ (RecordAccessLogs resp chain).1.statusCode = (chain resp).StatusCode)
    ∧ (RecordAccessLogs ⟨404, 0⟩ (fun r => { r with statusCode := 200 })).1
        = { level := LogLevel.warn, statusCode := 200, contentLength := 0 } := by
  refine ⟨by decide, ?_, ?_, by decide⟩
  · intro chain
    simp [RecordAccessLogs, logRequest, Response.StatusCode]
  · intro resp chain
    refine ⟨?_, rfl⟩
    by_cases h : resp.StatusCode > 400
    · simp [RecordAccessLogs, logRequest, h]
    · simp [RecordAccessLogs, logRequest, h]

/-! ## Properties of the two terminal routes -/

theorem splitSlash_ne_nil (s : List Char) : splitSlash s ≠ [] := by
  cases s with
  | nil => simp [splitSlash]
  | cons c cs =>
    rw [splitSlash]
    split
    · simp
    · split <;> simp

theorem splitSlash_append_slash (a b : List Char) :
    splitSlash (a ++ '/' :: b) = splitSlash a ++ splitSlash b := by
  induction a with
  | nil => simp [splitSlash]
  | cons c cs ih =>
    by_cases hc : c = '/'
    · simp [splitSlash, hc, ih]
    · cases h : splitSlash cs with
      | nil => exact absurd h (splitSlash_ne_nil cs)
      | cons s ss => simp [splitSlash, hc, ih, h]

theorem splitSlash_segment (v : List Char) (h : '/' ∉ v) : splitSlash v = [v] := by
  induction v with
  | nil => rfl
  | cons c cs ih =>
    have hc : c ≠ '/' := fun e => h (by simp [e])
    have hcs : '/' ∉ cs := fun e => h (List.mem_cons_of_mem _ e)
    simp [splitSlash, hc, ih hcs]

theorem podTerminalPath_segments (ns pod container : String)
    (hns : '/' ∉ ns.data) (hpod : '/' ∉ pod.data) (hc : '/' ∉ container.data) :
    splitSlash (podTerminalPath ns pod container).data
      = [[], "rest".data, "webterminal".data, "v1".data, "namespace".data, ns.data,
         "pod".data, pod.data, "container".data, container.data, "terminal".data] := by
  have e : (podTerminalPath ns pod container).data
      = [] ++ '/' :: ("rest".data ++ '/' :: ("webterminal".data ++ '/' :: ("v1".data
          ++ '/' :: ("namespace".data ++ '/' :: (ns.data ++ '/' :: ("pod".data
          ++ '/' :: (pod.data ++ '/' :: ("container".data ++ '/' :: (container.data
          ++ '/' :: "terminal".data))))))))) := by
    simp only [podTerminalPath, WebTerminalBasePath, String.data_append]
    simp
  rw [e]
  simp only [splitSlash_append_slash, splitSlash_segment _ hns, splitSlash_segment _ hpod,
    splitSlash_segment _ hc]
  rfl

theorem KubectlApi_segments (pre suf : List Char) :
    splitSlash (pre ++ KubectlApi.data ++ suf)
      = splitSlash pre ++ ["rest".data, "webterminal".data, "v1".data, "user".data]
          ++ splitSlash suf := by
  have e : pre ++ KubectlApi.data ++ suf
      = pre ++ '/' :: ("rest".data ++ '/' :: ("webterminal".data ++ '/' :: ("v1".data
          ++ '/' :: ("user".data ++ '/' :: suf)))) := by
    simp [KubectlApi]
  rw [e]
  simp only [splitSlash_append_slash]
  simp [splitSlash]

theorem podTerminalPath_untracked (ns pod container : String)
    (hns : '/' ∉ ns.data) (hpod : '/' ∉ pod.data) (hc : '/' ∉ container.data) :
    stringsContains (podTerminalPath ns pod container) KubectlApi = false := by
  cases hcon : stringsContains (podTerminalPath ns pod container) KubectlApi with
  | false => rfl
  | true =>
    exfalso
    unfold stringsContains at hcon
    rw [containsChars_iff_segment] at hcon
    obtain ⟨pre, suf, hps⟩ := hcon
    have hseg := congrArg splitSlash hps
    rw [KubectlApi_segments, podTerminalPath_segments ns pod container hns hpod hc] at hseg
    have hinf : ["rest".data, "webterminal".data, "v1".data, "user".data]
        <:+: [[], "rest".data, "webterminal".data, "v1".data, "namespace".data, ns.data,
         "pod".data, pod.data, "container".data, container.data, "terminal".data] :=
      ⟨_, _, hseg⟩
    simp only [List.infix_cons_iff, List.cons_prefix_cons, List.infix_nil, List.prefix_nil] at hinf
    revert hinf
    simp

theorem renewIfTracked_untracked (w : Window) (env : Env) (p : String)
    (hp : w.ctx.path = some p) (hc : stringsContains p KubectlApi = false) :
    w.renewIfTracked env = .ret w := by
  simp [Window.renewIfTracked, hp, hc]

/-- C30: for namespace, pod and container names without a slash, the path of
the pod-terminal route does not contain "/rest/webterminal/v1/user/". A session
that `HandlePodTerminal` starts on that path has a context without a username,
and on a window with that context the guarded renewal of `Read` and `Write`
returns without calling `Renewtime`: a `Write` and a `Read` of a stdin message
return and issue no store request. A session that the personal-workload route
starts has the path parameter as the username of its context, so on a window
with that context `Renewtime` and the guarded renewal return; the path of that
route does contain "/rest/webterminal/v1/user/". -/
theorem terminal_routes_renewal_has_username (ns pod container : String)
    (hns : '/' ∉ ns.data) (hpod : '/' ∉ pod.data) (hc : '/' ∉ container.data) :
    stringsContains (podTerminalPath ns pod container) KubectlApi = false
    ∧ (∀ (req : PodRequest) (env : TermEnv) (sent : List String) (ctx : Ctx)
        (run : Outcome (List Event × Window)),
        req.urlPath = podTerminalPath ns pod container →
        Handler.HandlePodTerminal req env = .session sent ctx run →
        ctx.username = none
        ∧ ctx.path = some (podTerminalPath ns pod container)
        ∧ ∀ (w : Window) (e : Env), w.ctx = ctx →
            w.renewIfTracked e = .ret w
            ∧ (∀ (b : List Nat) (k : Conn), w.conn = some k →
                ∃ r, w.Write b e = .ret r ∧ r.w.storeCalls = w.storeCalls)
            ∧ (∀ (msg : Message) (buffer : List Nat), msg.Op = "stdin" →
                ∃ r, w.Read (.ok msg) buffer e = .ret r ∧ r.w.storeCalls = w.storeCalls))
    ∧ (∀ (req : ClusterRequest) (cenv : ClusterEnv) (sent : List String) (ctx : Ctx)
        (username : String) (trace : Outcome (List SessionEvent)),
        terminalCluster req cenv = .session sent ctx username trace →
        ctx.username = some req.userParam
        ∧ ctx.path = some req.urlPath
        ∧ ∀ (w : Window) (e : Env), w.ctx = ctx →
            (∃ w1, w.Renewtime e = .ret w1) ∧ (∃ w1, w.renewIfTracked e = .ret w1))
    ∧ (∀ user : String, stringsContains (clusterTerminalPath user) KubectlApi = true) := by
  have hun := podTerminalPath_untracked ns pod container hns hpod hc
  refine ⟨hun, ?_, ?_, ?_⟩
  · intro req env sent ctx run hpath hses
    have hctx : ctx = { path := some req.urlPath, username := none } := by
      simp only [Handler.HandlePodTerminal] at hses
      split at hses
      · cases hses
      · split at hses
        · cases hses
        · cases hses
          rfl
    subst hctx
    refine ⟨rfl, by rw [hpath], ?_⟩
    intro w e hw
    have hp : w.ctx.path = some (podTerminalPath ns pod container) := by rw [hw, hpath]
    have hren := renewIfTracked_untracked w e _ hp hun
    refine ⟨hren, ?_, ?_⟩
    · intro b k hk
      simp only [Window.Write, hren, Outcome.andThen, SetWriteDeadline, hk, WriteMessage]
      cases e.setDeadlineErr with
      | some x => exact ⟨_, rfl, rfl⟩
      | none =>
        cases e.writeErr with
        | some x => exact ⟨_, rfl, rfl⟩
        | none => exact ⟨_, rfl, rfl⟩
    · intro msg buffer hop
      simp only [Window.Read, hop, if_true, hren, Outcome.andThen]
      exact ⟨_, rfl, rfl⟩
  · intro req cenv sent ctx username trace hses
    have hctx : ctx = { path := some req.urlPath, username := some req.userParam } := by
      simp only [terminalCluster, Handler.HandleClusterTerminal] at hses
      split at hses
      · cases hses
      · split at hses
        · cases hses
        · cases hses
          rfl
    subst hctx
    refine ⟨rfl, rfl, ?_⟩
    intro w e hw
    have hu : w.ctx.username = some req.userParam := by rw [hw]
    have hp : w.ctx.path = some req.urlPath := by rw [hw]
    exact ⟨⟨_, Renewtime_ret w e _ hu⟩, ⟨_, renewIfTracked_calls w e _ _ hp hu⟩⟩
  · intro user
    apply stringsContains_of_prefix
    refine ⟨(user ++ "/terminal").data, ?_⟩
    simp only [clusterTerminalPath, WebTerminalBasePath, KubectlApi, String.data_append]
    simp

/-- The route property at the namespace "default", the pod "web-0" and the container "main". -/
theorem terminal_routes_renewal_has_username_witness :
    stringsContains (podTerminalPath "default" "web-0" "main") KubectlApi = false
    ∧ (∀ (req : PodRequest) (env : TermEnv) (sent : List String) (ctx : Ctx)
        (run : Outcome (List Event × Window)),
        req.urlPath = podTerminalPath "default" "web-0" "main" →
        Handler.HandlePodTerminal req env = .session sent ctx run →
        ctx.username = none
        ∧ ctx.path = some (podTerminalPath "default" "web-0" "main")
        ∧ ∀ (w : Window) (e : Env), w.ctx = ctx →
            w.renewIfTracked e = .ret w
            ∧ (∀ (b : List Nat) (k : Conn), w.conn = some k →
                ∃ r, w.Write b e = .ret r ∧ r.w.storeCalls = w.storeCalls)
            ∧ (∀ (msg : Message) (buffer : List Nat), msg.Op = "stdin" →
                ∃ r, w.Read (.ok msg) buffer e = .ret r ∧ r.w.storeCalls = w.storeCalls))
    ∧ (∀ (req : ClusterRequest) (cenv : ClusterEnv) (sent : List String) (ctx : Ctx)
        (username : String) (trace : Outcome (List SessionEvent)),
        terminalCluster req cenv = .session sent ctx username trace →
        ctx.username = some req.userParam
        ∧ ctx.path = some req.urlPath
        ∧ ∀ (w : Window) (e : Env), w.ctx = ctx →
            (∃ w1, w.Renewtime e = .ret w1) ∧ (∃ w1, w.renewIfTracked e = .ret w1))
    ∧ (∀ user : String, stringsContains (clusterTerminalPath user) KubectlApi = true) :=
  terminal_routes_renewal_has_username "default" "web-0" "main" (by decide) (by decide)
    (by decide)

end WebTerminal
